import Mathlib

/-!
Verification of the type-directed expression generator
(`cedar-policy-generators/src/expr.rs`, `ExprGenerator`).

The generator is embedded shallowly.  Code that lives in `expr.rs` is
translated directly; collaborators that live outside that file (the decision
oracle `arbitrary::Unstructured`, the schema lookups, the constant pool, the
extension-function registry, the hierarchy, the `gen!`/`uniform!` weighted
choice macros) are modelled from the specification, as marked on each
definition.

The oracle is a list of natural-number draws; every primitive decision
consumes one draw (exhausted oracles yield the draw 0, mirroring the
`arbitrary` crate, which returns the low end of a range when out of data).
All generator functions run in a state-plus-error monad `GenM`; recursion is
driven by an explicit `fuel` parameter that decreases at every nested
generator call, so `fuel` measures call-stack depth of the generator family.
`Err.outOfFuel` is the (model-only) fuel-exhaustion signal used to state
termination/stack-depth bounds.
-/

/-- Errors of `err.rs` plus `panicked` for Rust panics / failed assertions /
`expect`s, and the model-only `outOfFuel`. -/
inductive Err where
  | likeDisabled
  | extensionsDisabled
  | tooDeep
  | emptyChoose
  | incorrectFormat
  | panicked
  | outOfFuel
deriving DecidableEq

/-- A possibly-namespaced name (`ast::Name` / `InternalName`): a namespace
path and a basename.  Unqualified names have an empty path. -/
structure CName where
  path : List String
  base : String
deriving DecidableEq

/-- An entity UID: an entity type name paired with an entity id. -/
structure EntityUID where
  ty : CName
  eid : String
deriving DecidableEq

/-- The four expression variables of `ast::Var`. -/
inductive Var where
  | principal | action | resource | context
deriving DecidableEq

/-- The flat semantic type universe (`abac::Type`).  `Type::Set(None)` is
`setAny`, `Type::Set(Some t)` is `setOf t`. -/
inductive Ty where
  | bool | long | string
  | setAny
  | setOf (elem : Ty)
  | record
  | entity
  | ipaddr | decimal | datetime | duration
deriving DecidableEq

/-- The element type stored in a semantic set type, if any
(the `Option<Box<Type>>` payload of `Type::Set`). -/
def Ty.setElem : Ty → Option Ty
  | .setOf t => some t
  | _ => none

/-- The structural schema type universe
(`json_schema::Type<ast::InternalName>`).  Record attributes are listed as
(name, type, required); the list models the `BTreeMap` of the source in its
iteration order. -/
inductive SchemaTy where
  | boolean | long | string
  | set (elem : SchemaTy)
  | record (attrs : List (String × SchemaTy × Bool)) (additional : Bool)
  | entity (name : CName)
  | extension (name : String)
  | entityOrCommon (name : CName)
  | commonRef (name : CName)

/-- Expression literals (`ast::Literal`). -/
inductive Lit where
  | bool (b : Bool)
  | int (i : Int)
  | string (s : String)
  | euid (u : EntityUID)

/-- Expressions (`ast::Expr`), restricted to the node kinds the generator
constructs.  Record fields are listed in map order; the duplicate-key check
of `ast::Expr::record` is the subject of claim C8. -/
inductive Expr where
  | lit (l : Lit)
  | var (v : Var)
  | unknown (name : String) (ty : Option Ty)
  | ite (c t e : Expr)
  | and (a b : Expr)
  | or (a b : Expr)
  | not (e : Expr)
  | eq (a b : Expr)
  | less (a b : Expr)
  | lesseq (a b : Expr)
  | greater (a b : Expr)
  | greatereq (a b : Expr)
  | add (a b : Expr)
  | sub (a b : Expr)
  | mul (a b : Expr)
  | neg (e : Expr)
  | isIn (a b : Expr)
  | contains (a b : Expr)
  | containsAll (a b : Expr)
  | containsAny (a b : Expr)
  | isEmpty (e : Expr)
  | like (e : Expr) (pat : String)
  | isEntityType (e : Expr) (ty : CName)
  | set (es : List Expr)
  | record (fields : List (String × Expr))
  | getAttr (e : Expr) (attr : String)
  | hasAttr (e : Expr) (attr : String)
  | getTag (e k : Expr)
  | hasTag (e k : Expr)
  | call (fn : CName) (args : List Expr)

/-- Modelled from the spec (section 3, `AttrValue`, defined in `abac.rs`):
the literal-only subset of expressions used for attribute data. -/
inductive AttrValueM where
  | boolLit (b : Bool)
  | intLit (i : Int)
  | stringLit (s : String)
  | uidLit (u : EntityUID)
  | extFuncCall (fn : CName) (args : List AttrValueM)
  | set (vs : List AttrValueM)
  | record (fields : List (String × AttrValueM))

/-- Concrete values (`ast::Value`), restricted to the shapes
`generate_value_for_type` constructs. -/
inductive ValueM where
  | bool (b : Bool)
  | int (i : Int)
  | string (s : String)
  | euid (u : EntityUID)
  | set (vs : List ValueM)
  | record (fields : List (String × ValueM))

/-! ### Keyed maps

Rust-side records are built in a `HashMap` before construction; the model
uses an association list with overwriting insertion. -/

/-- The keys of an association list. -/
def keys {α : Type} (l : List (String × α)) : List String := l.map Prod.fst

/-- Insertion with `HashMap` semantics: overwrite the value if the key is
present, append otherwise. -/
def insertA {α : Type} : List (String × α) → String → α → List (String × α)
  | [], k, v => [(k, v)]
  | (k', v') :: rest, k, v =>
    if k' = k then (k, v) :: rest else (k', v') :: insertA rest k v

/-- Key distinctness of an association list, as a Bool. -/
def nodupKeys {α : Type} : List (String × α) → Bool
  | [] => true
  | (k, _) :: rest => !((keys rest).contains k) && nodupKeys rest

/-! ### The generation monad

State: the oracle's remaining draws plus the unknown pool.  Errors: `Err`. -/

/-- The unknown pool (`abac::UnknownPool`): an append-only list of
(type, value) registrations.  Modelled from the spec (section 6,
`UnknownPool: alloc(type, value) -> name`). -/
def UnknownPoolSt : Type := List (Ty × ValueM)

/-- Generator state: the oracle's remaining draw list (the `Unstructured`
byte cursor) and the unknown pool. -/
structure GenState where
  u : List Nat
  pool : List (Ty × ValueM)

/-- The generation monad: state plus error. -/
def GenM (α : Type) : Type := GenState → Except Err (α × GenState)

/-- Monadic return. -/
def pureG {α : Type} (a : α) : GenM α := fun s => .ok (a, s)

/-- Monadic bind. -/
def bindG {α β : Type} (m : GenM α) (f : α → GenM β) : GenM β := fun s =>
  match m s with
  | .error e => .error e
  | .ok (a, s') => f a s'

instance : Monad GenM where
  pure := pureG
  bind := bindG

/-- Abort generation with an error. -/
def throwG {α : Type} (e : Err) : GenM α := fun _ => .error e



/-! ### Oracle primitives

Modelled from the spec (section 6, decision oracle): every primitive
consumes one draw.  An exhausted oracle yields draw 0, mirroring the
`arbitrary` crate's behavior of returning the low end of a range when out of
data. -/

/-- Consume the next oracle draw (0 when exhausted). -/
def nextNat : GenM Nat := fun s =>
  match s.u with
  | [] => .ok (0, s)
  | n :: rest => .ok (n, { s with u := rest })

/-- The oracle's remaining supply, `Unstructured::len`.  Modelled from the
spec (section 6, `remainingLength`). -/
def oracleLen : GenM Nat := fun s => .ok (s.u.length, s)

/-- Choose uniformly from a slice (`Unstructured::choose`): error on an
empty slice, otherwise index by one draw. -/
def chooseL {α : Type} (xs : List α) : GenM α :=
  match xs with
  | [] => throwG .emptyChoose
  | x :: rest => do
    let n ← nextNat
    pure ((x :: rest).getD (n % (rest.length + 1)) x)

/-- `Unstructured::choose_index`, with the source's `.expect(..)` applied to
its result: an empty range is a panic. -/
def chooseIndexPanics (len : Nat) : GenM Nat :=
  if len = 0 then throwG .panicked
  else do
    let n ← nextNat
    pure (n % len)

/-- `Unstructured::ratio(a, b)`: true with probability a/b.  Modelled from
the spec (section 6, `ratio(num, den) -> bool`). -/
def ratioM (a b : Nat) : GenM Bool := do
  let n ← nextNat
  pure (decide (n % b < a))

/-- `Unstructured::int_in_range(lo..=hi)`.  Modelled from the spec
(section 6, `intInRange(lo, hi) -> int`). -/
def intInRange (lo hi : Nat) : GenM Nat := do
  let n ← nextNat
  pure (lo + n % (hi + 1 - lo))

/-- Index selection for a weighted menu: walk the cumulative weights. -/
def weightedIndexAux : List Nat → Nat → Nat → Nat
  | [], _, i => i
  | w :: ws, n, i => if n < w then i else weightedIndexAux ws (n - w) (i + 1)

/-- The `gen!` weighted-choice macro.  Modelled from the spec (section 4.1):
one oracle decision selects a branch with probability proportional to its
weight; only the selected branch runs. -/
def pickWeighted (weights : List Nat) : GenM Nat := do
  let n ← nextNat
  pure (weightedIndexAux weights (n % weights.sum) 0)

/-- The `uniform!` macro: a uniform choice among `k` alternatives.
Modelled from the spec (section 4.1). -/
def uniformM (k : Nat) : GenM Nat := do
  let n ← nextNat
  pure (n % k)

/-- The iteration count of `Unstructured::arbitrary_loop(min, max, body)`:
one draw fixes how many times the body runs.  Modelled from the spec
(section 6, `boundedLoop`). -/
def loopCount (lo hi : Nat) : GenM Nat := do
  let n ← nextNat
  pure (lo + n % (hi + 1 - lo))

/-- Register a value in the unknown pool under a fresh name
(`UnknownPool::alloc`).  Modelled from the spec (sections 3 and 6). -/
def allocUnknown (ty : Ty) (v : ValueM) : GenM String := fun s =>
  .ok ("unknown" ++ toString s.pool.length,
    { s with pool := s.pool ++ [(ty, v)] })

/-! ### Generic loop combinators

`arbitrary_loop` bodies, argument lists and the record overlay loop, shared
by the generator family.  The generator body they run is passed in as a
closure. -/

/-- Run a body `n` times collecting results (a list-building
`arbitrary_loop`). -/
def loopM {α : Type} (body : GenM α) : Nat → GenM (List α)
  | 0 => pure []
  | k + 1 => do
    let x ← body
    let rest ← loopM body k
    pure (x :: rest)

/-- Run a key-value body `n` times, inserting each pair into an accumulating
keyed map (a record-building `arbitrary_loop` over a `HashMap`). -/
def kvLoopM {α : Type} (body : GenM (String × α)) :
    Nat → List (String × α) → GenM (List (String × α))
  | 0, r => pure r
  | k + 1, r => do
    let p ← body
    kvLoopM body k (insertA r p.1 p.2)

/-- Map a generator over a list (extension-call argument generation). -/
def mapMG {τ α : Type} (f : τ → GenM α) : List τ → GenM (List α)
  | [] => pure []
  | t :: ts => do
    let x ← f t
    let rest ← mapMG f ts
    pure (x :: rest)

/-- The declared-attribute overlay loop shared by the three record
generators.  For each declared attribute in order: a required attribute is
always generated and inserted; an optional one is generated after a 1/2 coin
draw, except that when `force` is set (the `r.contains_key` disjunct of
`generate_attr_value_for_schematype` / `generate_value_for_schematype`) an
optional attribute whose key is already present is included without a draw.
`generate_expr_for_schematype`'s overlay has no such disjunct (`force` is
false there). -/
def overlayM {α : Type} (force : Bool) (genVal : SchemaTy → GenM α) :
    List (String × SchemaTy × Bool) → List (String × α) →
    GenM (List (String × α))
  | [], r => pure r
  | (a, ty, req) :: rest, r => do
    let included ←
      if req then pure true
      else if force && (keys r).contains a then pure true
      else ratioM 1 2
    if included then do
      let v ← genVal ty
      overlayM force genVal rest (insertA r a v)
    else
      overlayM force genVal rest r

/-! ### Collaborators

The schema, settings, constant pool, extension-function registry, hierarchy
and raw-`arbitrary` draws live outside `expr.rs`; they are modelled from the
specification (sections 3 and 6) as read-only data consulted through one
oracle draw per choice. -/

/-- `settings.rs` `ABACSettings`: the options `expr.rs` consults. -/
structure ABACSettings where
  max_depth : Nat
  max_width : Nat
  enable_like : Bool
  enable_extensions : Bool
  enable_unknowns : Bool
  enable_arbitrary_func_call : Bool

/-- Modelled from the spec (section 6, `ConstantPool`): pools of interesting
literal constants per kind, indexed by one oracle draw. -/
structure ConstantPool where
  int_constants : Nat → Int
  string_constants : Nat → String
  ip_strs : Nat → String
  decimal_strs : Nat → String
  datetime_strs : Nat → String
  duration_strs : Nat → String
  pattern_literals : Nat → String

/-- Modelled from the spec (section 6, `rawArbitrary<T>`): interpretations
of `u.arbitrary::<T>()` primitive draws, one oracle draw each. -/
structure RawArb where
  raw_bool : Nat → Bool
  raw_string : Nat → String
  raw_euid : Nat → EntityUID
  raw_ty : Nat → Ty
  raw_ty_nonext : Nat → Ty
  raw_var : Nat → Var
  raw_name : Nat → CName
  raw_eid : Nat → String

/-- An extension function signature, from the registry
(`AvailableExtensionFunctions`, `abac.rs`). -/
structure ExtFunc where
  name : CName
  parameter_types : List Ty
  return_ty : Ty
deriving DecidableEq

/-- Modelled from the spec (section 6, `AvailableExtensionFunctions`):
lookup of extension functions, all of them, by exact return type, or the
constructor class by return type. -/
structure AvailableExtFuncs where
  all_funcs : List ExtFunc
  funcs_for_type : Ty → List ExtFunc
  constructors_for_type : Ty → List ExtFunc

/-- The kind of a declared entity type (`json_schema::EntityTypeKind`):
enum entities expose no attributes; standard ones list their attribute
names (for the `has` production). -/
inductive EntityKindM where
  | enum
  | standard (attrs : List String)

/-- Modelled from the spec (sections 4.6 and 6, `Schema`): the schema
lookups `expr.rs` performs, as read-only candidate lists that oracle draws
select from. -/
structure SchemaM where
  entity_types : List CName
  entity_types_map : List (CName × EntityKindM)
  attrs_pool : List (String × SchemaTy)
  attr_for_schematype : SchemaTy → List (CName × String)
  attr_for_type : Ty → List (CName × String)
  entity_with_tag_schematype : SchemaTy → List CName
  entity_with_tag_type : Ty → List CName
  common_types : List (CName × SchemaTy)
  nspace : Option CName
  actions_eids : List String
  principal_types : List CName
  resource_types : List CName
  uid_enum_choices : CName → List String
  into_schematype : Ty → Option SchemaTy

/-- The generator's collaborator bundle (`ExprGenerator`'s fields, with the
raw-draw interpretations added).  The hierarchy, when present, maps entity
type names to their member entity ids. -/
structure Gen where
  schema : SchemaM
  settings : ABACSettings
  constant_pool : ConstantPool
  ext_funcs : AvailableExtFuncs
  hierarchy : Option (List (CName × List String))
  raw : RawArb

/-- `schema::lookup_common_type`: resolve a common-type name. -/
def lookup_common_type (g : Gen) (n : CName) : Option SchemaTy :=
  (g.schema.common_types.find? (fun p => p.1 == n)).map Prod.snd

/-- `schema::entity_type_name_to_schema_type`. -/
def entity_type_name_to_schema_type (n : CName) : SchemaTy := .entity n

/-- `InternalName::qualify_with_name`: qualify an unqualified name with the
schema's namespace; already-qualified names are unchanged.  Modelled from
the spec (section 4.4, namespace qualification). -/
def qualifyName (ns : Option CName) (n : CName) : CName :=
  if n.path = [] then
    match ns with
    | none => n
    | some m => { path := m.path ++ [m.base], base := n.base }
  else n

/-- `schema::uid_for_action_name`: the UID of a schema action, with the
`Action` entity type qualified by the namespace.  Modelled from the spec
(section 4.6). -/
def uid_for_action_name (ns : Option CName) (eid : String) : EntityUID :=
  { ty := qualifyName ns { path := [], base := "Action" }, eid := eid }

/-- `Schema::arbitrary_attr`: one attribute (name and schema type) from the
schema's attribute pool.  Modelled from the spec (section 6). -/
def arbitrary_attr (g : Gen) : GenM (String × SchemaTy) :=
  chooseL g.schema.attrs_pool

/-- `Schema::arbitrary_attr_for_schematype`: an (entity type, attribute
name) pair whose declared type is the given schema type.  Modelled from the
spec (section 6, helper queries). -/
def arbitrary_attr_for_schematype (g : Gen) (ty : SchemaTy) :
    GenM (CName × String) :=
  chooseL (g.schema.attr_for_schematype ty)

/-- `Schema::arbitrary_attr_for_type`, keyed by semantic type.  Modelled
from the spec (section 6, helper queries). -/
def arbitrary_attr_for_type (g : Gen) (ty : Ty) : GenM (CName × String) :=
  chooseL (g.schema.attr_for_type ty)

/-- `Schema::arbitrary_entity_type_with_tag_schematype`.  Modelled from the
spec (section 6, helper queries). -/
def arbitrary_entity_type_with_tag_schematype (g : Gen) (ty : SchemaTy) :
    GenM CName :=
  chooseL (g.schema.entity_with_tag_schematype ty)

/-- `Schema::arbitrary_entity_type_with_tag_type`.  Modelled from the spec
(section 6, helper queries). -/
def arbitrary_entity_type_with_tag_type (g : Gen) (ty : Ty) : GenM CName :=
  chooseL (g.schema.entity_with_tag_type ty)

/-- `Schema::try_into_schematype`: map a semantic type into a schema type
slot when representable.  Modelled from the spec (section 7,
`UnsupportedPosition`). -/
def try_into_schematype (g : Gen) (ty : Ty) : Option SchemaTy :=
  g.schema.into_schematype ty

/-- The `TryFrom<abac::Type> for ast::Type` conversion used to type unknown
placeholders.  Modelled from the spec (section 4.3: typed when the semantic
type is representable in the placeholder's static-type slot). -/
def try_into_static_type : Ty → Option Ty
  | .record => none
  | .entity => none
  | .setAny => none
  | .setOf t => (try_into_static_type t).map Ty.setOf
  | t => some t

/-- `ConstantPool::arbitrary_int_constant`. -/
def arbitrary_int_constant (g : Gen) : GenM Int := do
  let n ← nextNat
  pure (g.constant_pool.int_constants n)

/-- `ConstantPool::arbitrary_string_constant`. -/
def arbitrary_string_constant (g : Gen) : GenM String := do
  let n ← nextNat
  pure (g.constant_pool.string_constants n)

/-- `ConstantPool::arbitrary_ip_str`. -/
def arbitrary_ip_str (g : Gen) : GenM String := do
  let n ← nextNat
  pure (g.constant_pool.ip_strs n)

/-- `ConstantPool::arbitrary_decimal_str`. -/
def arbitrary_decimal_str (g : Gen) : GenM String := do
  let n ← nextNat
  pure (g.constant_pool.decimal_strs n)

/-- `ConstantPool::arbitrary_datetime_str`. -/
def arbitrary_datetime_str (g : Gen) : GenM String := do
  let n ← nextNat
  pure (g.constant_pool.datetime_strs n)

/-- `ConstantPool::arbitrary_duration_str`. -/
def arbitrary_duration_str (g : Gen) : GenM String := do
  let n ← nextNat
  pure (g.constant_pool.duration_strs n)

/-- `ConstantPool::arbitrary_pattern_literal`. -/
def arbitrary_pattern_literal (g : Gen) : GenM String := do
  let n ← nextNat
  pure (g.constant_pool.pattern_literals n)

/-- `AvailableExtensionFunctions::arbitrary_all`. -/
def ext_arbitrary_all (g : Gen) : GenM ExtFunc :=
  chooseL g.ext_funcs.all_funcs

/-- `AvailableExtensionFunctions::arbitrary_for_type`: an extension function
with the given exact return type. -/
def ext_arbitrary_for_type (g : Gen) (ty : Ty) : GenM ExtFunc :=
  chooseL (g.ext_funcs.funcs_for_type ty)

/-- `AvailableExtensionFunctions::arbitrary_constructor_for_type`.
Modelled from the spec (section 4.5: extension-typed data generation fails
if extensions are disabled; the registry exposes no constructors then). -/
def ext_arbitrary_constructor_for_type (g : Gen) (ty : Ty) : GenM ExtFunc :=
  if g.settings.enable_extensions then
    chooseL (g.ext_funcs.constructors_for_type ty)
  else throwG .extensionsDisabled

/-! ### Schema-type head resolution

`generate_expr_for_schematype` (and the three sibling schematype
generators) resolve `CommonTypeRef` by schema lookup (panicking on an
undefined reference) and disambiguate `EntityOrCommon` into a common type
or an entity reference, recursing at the same depth.  The model compresses
those same-depth resolution chains into one fuel-free head-resolution
function bounded by the number of common-type declarations: under the
acyclicity invariant of the spec (section 3) a chain never revisits a
declaration, so this bound reproduces the source's behavior exactly, while
a cyclic schema (divergence in the source) resolves to `none` (a hard
fault) here. -/

/-- Resolve the head of a schema type: follow `CommonTypeRef` (undefined
reference resolves to `none`, the source's panic) and `EntityOrCommon`
(unresolvable name becomes an entity reference). -/
def resolveHeadFuel (g : Gen) : Nat → SchemaTy → Option SchemaTy
  | 0, _ => none
  | fuel + 1, .commonRef n =>
    match lookup_common_type g n with
    | some t => resolveHeadFuel g fuel t
    | none => none
  | fuel + 1, .entityOrCommon n =>
    match lookup_common_type g n with
    | some t => resolveHeadFuel g fuel t
    | none => some (.entity n)
  | _ + 1, t => some t

/-- Head resolution at the fuel bound given by the schema size. -/
def resolveHead (g : Gen) (t : SchemaTy) : Option SchemaTy :=
  resolveHeadFuel g (g.schema.common_types.length + 1) t

/-- Acyclicity of the schema's common-type references, stated as stability
of head resolution at the schema-size fuel bound (a resolution chain that
terminates at all terminates within one step per declaration). -/
def CommonAcyclic (g : Gen) : Prop :=
  ∀ t, resolveHeadFuel g (g.schema.common_types.length + 1) t
      = resolveHeadFuel g (g.schema.common_types.length + 2) t

/-! ### Non-recursive generator pieces -/

/-- `ExprGenerator::should_generate_unknown` (`expr.rs` 2570-2578): when
unknowns are enabled, draw uniformly from `[0, settings.max_depth]` and
report whether the draw is at most `settings.max_depth - max_depth`.  The
subtraction is on `usize`: when `max_depth > settings.max_depth` it
underflows, which panics (debug assertions on). -/
def should_generate_unknown (g : Gen) (max_depth : Nat) : GenM Bool :=
  if g.settings.enable_unknowns then
    if max_depth ≤ g.settings.max_depth then do
      let chance := g.settings.max_depth - max_depth
      let choice ← intInRange 0 g.settings.max_depth
      pure (decide (choice ≤ chance))
    else throwG .panicked
  else pure false

/-- `hierarchy::generate_uid_with_type` (no hierarchy supplied): an enum
entity type draws one of its declared choices, otherwise the entity id is a
raw draw.  Modelled from the spec (section 4.6). -/
def generate_uid_with_type (g : Gen) (ty : CName) : GenM EntityUID :=
  match g.schema.uid_enum_choices ty with
  | [] => do
    let n ← nextNat
    pure { ty := ty, eid := g.raw.raw_eid n }
  | c :: cs => do
    let e ← chooseL (c :: cs)
    pure { ty := ty, eid := e }

/-- `Hierarchy::arbitrary_uid_with_type`: a UID of the given type drawn
from the hierarchy's member list.  Modelled from the spec (section 6,
`Hierarchy`). -/
def hierarchy_uid_with_type (h : List (CName × List String)) (ty : CName) :
    GenM EntityUID := do
  let eids := ((h.find? (fun p => p.1 == ty)).map Prod.snd).getD []
  let e ← chooseL eids
  pure { ty := ty, eid := e }

/-- `ExprGenerator::arbitrary_uid_with_type` (`expr.rs` 2549-2558). -/
def arbitrary_uid_with_type (g : Gen) (ty : CName) : GenM EntityUID :=
  match g.hierarchy with
  | none => generate_uid_with_type g ty
  | some h => hierarchy_uid_with_type h ty

/-- `ExprGenerator::arbitrary_principal_uid` (`expr.rs` 2498-2504). -/
def arbitrary_principal_uid (g : Gen) : GenM EntityUID := do
  let ty ← chooseL g.schema.principal_types
  arbitrary_uid_with_type g ty

/-- `ExprGenerator::arbitrary_action_uid` (`expr.rs` 2518-2526). -/
def arbitrary_action_uid (g : Gen) : GenM EntityUID := do
  let a ← chooseL g.schema.actions_eids
  pure (uid_for_action_name g.schema.nspace a)

/-- `ExprGenerator::arbitrary_resource_uid` (`expr.rs` 2533-2539). -/
def arbitrary_resource_uid (g : Gen) : GenM EntityUID := do
  let ty ← chooseL g.schema.resource_types
  arbitrary_uid_with_type g ty

/-- `ExprGenerator::generate_uid` (`expr.rs` 2476-2483): a uniform choice
among a principal, action, or resource UID. -/
def generate_uid (g : Gen) : GenM EntityUID := do
  let k ← uniformM 3
  match k with
  | 0 => arbitrary_principal_uid g
  | 1 => arbitrary_action_uid g
  | _ => arbitrary_resource_uid g

/-- `ExprGenerator::generate_literal` (`expr.rs` 2459-2471): a weighted
choice among bool, int, string, existing-UID and arbitrary-UID literals. -/
def generate_literal (g : Gen) : GenM Expr := do
  let i ← pickWeighted [11, 10, 10, 20, 4]
  match i with
  | 0 => do
    let n ← nextNat
    pure (.lit (.bool (g.raw.raw_bool n)))
  | 1 => do
    let v ← arbitrary_int_constant g
    pure (.lit (.int v))
  | 2 => do
    let v ← arbitrary_string_constant g
    pure (.lit (.string v))
  | 3 => do
    let uid ← generate_uid g
    pure (.lit (.euid uid))
  | _ => do
    let n ← nextNat
    pure (.lit (.euid (g.raw.raw_euid n)))

/-- `ExprGenerator::generate_literal_or_var` (`expr.rs` 2449-2455): a
variable with probability 1/4, otherwise a literal. -/
def generate_literal_or_var (g : Gen) : GenM Expr := do
  let b ← ratioM 1 4
  if b then do
    let n ← nextNat
    pure (.var (g.raw.raw_var n))
  else generate_literal g

/-- `ExprGenerator::arbitrary_ext_constructor_call_for_type`
(`expr.rs` 1849-1896): a call of an extension constructor returning the
target type, built generically over the produced node type through `mkStr`
and `mkExt`.  The source's assertions (return type matches, name is
unqualified, generated arity matches) and its `unreachable!` arm are
panics. -/
def arbitrary_ext_constructor_call_for_type {E : Type} (g : Gen)
    (target : Ty) (mkStr : String → E) (mkExt : CName → List E → E) :
    GenM E := do
  let func ← ext_arbitrary_constructor_for_type g target
  if func.return_ty = target then pure () else throwG .panicked
  if func.name.path = [] then pure () else throwG .panicked
  let args ←
    if func.name.base = "ip" then do
      let s ← arbitrary_ip_str g
      pure [mkStr s]
    else if func.name.base = "decimal" then do
      let s ← arbitrary_decimal_str g
      pure [mkStr s]
    else if func.name.base = "datetime" then do
      let s ← arbitrary_datetime_str g
      pure [mkStr s]
    else if func.name.base = "offset" then do
      let base_datetime_str ← arbitrary_datetime_str g
      let offset_duration_str ← arbitrary_duration_str g
      pure [mkExt { path := [], base := "datetime" }
              [mkStr base_datetime_str],
            mkExt { path := [], base := "duration" }
              [mkStr offset_duration_str]]
    else if func.name.base = "duration" then do
      let s ← arbitrary_duration_str g
      pure [mkStr s]
    else throwG .panicked
  if args.length = func.parameter_types.length then pure ()
  else throwG .panicked
  pure (mkExt func.name args)

/-- `record_schematype_with_attr` (`expr.rs` 2583-2602): a record schema
type with one required attribute of the given name and type, and
`additional_attributes` set. -/
def record_schematype_with_attr (attr_name : String)
    (attr_type : SchemaTy) : SchemaTy :=
  .record [(attr_name, attr_type, true)] true

/-! ### The generator family

`fuel` decreases at every nested generator call, measuring call-stack
depth; `max_depth` is the source's recursion budget. -/

set_option maxHeartbeats 2000000

mutual

/-- `ExprGenerator::generate_expr` (`expr.rs` 60-265): a fully general
expression with no type obligation.  Depth 0 forces a literal-or-variable;
otherwise a weighted menu (literal/var 2, equality 1, negation 1, and a
secondary menu 1). -/
def generate_expr (g : Gen) (max_depth : Nat) (fuel : Nat) : GenM Expr :=
  match fuel with
  | 0 => throwG .outOfFuel
  | fuel + 1 =>
    if max_depth = 0 then generate_literal_or_var g
    else do
      let i ← pickWeighted [2, 1, 1, 1]
      match i with
      | 0 => generate_literal_or_var g
      | 1 => do
        let a ← generate_expr g (max_depth - 1) fuel
        let b ← generate_expr g (max_depth - 1) fuel
        pure (.eq a b)
      | 2 => do
        let a ← generate_expr g (max_depth - 1) fuel
        pure (.not a)
      | _ => do
        let j ← pickWeighted
          [2, 2, 2, 1, 1, 1, 1, 1, 1, 1, 1, 6, 1, 1, 1, 1, 2, 1, 1, 1, 1,
           7, 4, 4]
        match j with
        | 0 => do
          let c ← generate_expr g (max_depth - 1) fuel
          let t ← generate_expr g (max_depth - 1) fuel
          let e ← generate_expr g (max_depth - 1) fuel
          pure (.ite c t e)
        | 1 => do
          let a ← generate_expr g (max_depth - 1) fuel
          let b ← generate_expr g (max_depth - 1) fuel
          pure (.and a b)
        | 2 => do
          let a ← generate_expr g (max_depth - 1) fuel
          let b ← generate_expr g (max_depth - 1) fuel
          pure (.or a b)
        | 3 => do
          let a ← generate_expr g (max_depth - 1) fuel
          let b ← generate_expr g (max_depth - 1) fuel
          pure (.less a b)
        | 4 => do
          let a ← generate_expr g (max_depth - 1) fuel
          let b ← generate_expr g (max_depth - 1) fuel
          pure (.lesseq a b)
        | 5 => do
          let a ← generate_expr g (max_depth - 1) fuel
          let b ← generate_expr g (max_depth - 1) fuel
          pure (.greater a b)
        | 6 => do
          let a ← generate_expr g (max_depth - 1) fuel
          let b ← generate_expr g (max_depth - 1) fuel
          pure (.greatereq a b)
        | 7 => do
          let a ← generate_expr g (max_depth - 1) fuel
          let b ← generate_expr g (max_depth - 1) fuel
          pure (.add a b)
        | 8 => do
          let a ← generate_expr g (max_depth - 1) fuel
          let b ← generate_expr g (max_depth - 1) fuel
          pure (.sub a b)
        | 9 => do
          let a ← generate_expr g (max_depth - 1) fuel
          let b ← generate_expr g (max_depth - 1) fuel
          pure (.mul a b)
        | 10 => do
          let a ← generate_expr g (max_depth - 1) fuel
          pure (.neg a)
        | 11 => do
          let a ← generate_expr g (max_depth - 1) fuel
          let b ← generate_expr g (max_depth - 1) fuel
          pure (.isIn a b)
        | 12 => do
          let a ← generate_expr g (max_depth - 1) fuel
          let b ← generate_expr g (max_depth - 1) fuel
          pure (.contains a b)
        | 13 => do
          let a ← generate_expr g (max_depth - 1) fuel
          let b ← generate_expr g (max_depth - 1) fuel
          pure (.containsAll a b)
        | 14 => do
          let a ← generate_expr g (max_depth - 1) fuel
          let b ← generate_expr g (max_depth - 1) fuel
          pure (.containsAny a b)
        | 15 => do
          let a ← generate_expr g (max_depth - 1) fuel
          pure (.isEmpty a)
        | 16 =>
          if g.settings.enable_like then do
            let a ← generate_expr g (max_depth - 1) fuel
            let p ← arbitrary_pattern_literal g
            pure (.like a p)
          else throwG .likeDisabled
        | 17 => do
          let a ← generate_expr g (max_depth - 1) fuel
          let n ← chooseL g.schema.entity_types
          pure (.isEntityType a n)
        | 18 => do
          let c ← loopCount 0 g.settings.max_width
          let l ← loopM (generate_expr g (max_depth - 1) fuel) c
          pure (.set l)
        | 19 => do
          let c ← loopCount 0 g.settings.max_width
          let r ← kvLoopM
            (do
              let p ← arbitrary_attr g
              let e ← generate_expr g (max_depth - 1) fuel
              pure (p.1, e)) c []
          pure (.record r)
        | 20 => generate_expr_ext_branch g max_depth fuel
        | 21 => do
          let k ← pickWeighted [1, 6]
          let attr_name ←
            match k with
            | 0 => do
              let n ← nextNat
              pure (g.raw.raw_string n)
            | _ => do
              let p ← arbitrary_attr g
              pure p.1
          let e ← generate_expr g (max_depth - 1) fuel
          -- a string-literal base would not round-trip through the pretty
          -- printer, so it is wrapped in a single-key record
          let e2 :=
            match e with
            | .lit (.string str) => Expr.record [(str, Expr.lit (.string str))]
            | _ => e
          pure (.getAttr e2 attr_name)
        | 22 => do
          let k ← uniformM 2
          let attr_name ←
            match k with
            | 0 => do
              let p ← arbitrary_attr g
              pure p.1
            | _ => do
              let n ← nextNat
              pure (g.raw.raw_string n)
          let e ← generate_expr g (max_depth - 1) fuel
          pure (.hasAttr e attr_name)
        | _ => do
          let k ← uniformM 2
          let tag_name ←
            match k with
            | 0 => generate_expr g (max_depth - 1) fuel
            | _ => do
              let p ← arbitrary_attr g
              pure (Expr.lit (.string p.1))
          let e ← generate_expr g (max_depth - 1) fuel
          pure (.hasTag e tag_name)
termination_by structural fuel

/-- The extension-function-call production of `generate_expr`
(`expr.rs` 188-215), factored out: with `enable_arbitrary_func_call` the
arity and name each keep the declared value only with probability 9/10;
without the flag no ratio is drawn and the declared arity and name are
always used. -/
def generate_expr_ext_branch (g : Gen) (max_depth : Nat) (fuel : Nat) :
    GenM Expr :=
  match fuel with
  | 0 => throwG .outOfFuel
  | fuel + 1 => do
    if g.settings.enable_extensions then pure ()
    else throwG .extensionsDisabled
    let func ← ext_arbitrary_all g
    let arity ←
      if g.settings.enable_arbitrary_func_call then do
        let b ← ratioM 9 10
        if b then pure func.parameter_types.length
        else intInRange 0 4
      else pure func.parameter_types.length
    let fn_name ←
      if g.settings.enable_arbitrary_func_call then do
        let b ← ratioM 9 10
        if b then pure func.name
        else do
          let n ← nextNat
          pure (g.raw.raw_name n)
      else pure func.name
    let args ← loopM (generate_expr g (max_depth - 1) fuel) arity
    pure (.call fn_name args)
termination_by structural fuel

/-- `ExprGenerator::generate_expr_for_type` (`expr.rs` 272-1285): an
expression intended to have the given semantic type.  The unknown
short-circuit runs first; each type then dispatches to its weighted menu,
with terminal fallbacks at depth 0 or under 10 remaining oracle bytes. -/
def generate_expr_for_type (g : Gen) (target_type : Ty)
    (max_depth : Nat) (fuel : Nat) : GenM Expr :=
  match fuel with
  | 0 => throwG .outOfFuel
  | fuel + 1 => do
    let gu ← should_generate_unknown g max_depth
    if gu then do
      let v ← generate_value_for_type g target_type max_depth fuel
      let name ← allocUnknown target_type v
      match try_into_static_type target_type with
      | some t => pure (.unknown name (some t))
      | none => pure (.unknown name none)
    else
      match target_type with
      | .bool => do
        let len ← oracleLen
        if max_depth = 0 ∨ len < 10 then do
          let n ← nextNat
          pure (.lit (.bool (g.raw.raw_bool n)))
        else do
          let i ← pickWeighted
            [2, 5, 2, 5, 5, 5, 5, 1, 1, 1, 1, 11, 2, 2, 1, 1, 1, 2, 2, 2,
             1, 1, 1, 2, 1, 1, 2]
          match i with
          | 0 => do
            let n ← nextNat
            pure (.lit (.bool (g.raw.raw_bool n)))
          | 1 => do
            let tn ← nextNat
            let ty := g.raw.raw_ty tn
            let a ← generate_expr_for_type g ty (max_depth - 1) fuel
            let b ← generate_expr_for_type g ty (max_depth - 1) fuel
            pure (.eq a b)
          | 2 => do
            let t1 ← nextNat
            let t2 ← nextNat
            let a ← generate_expr_for_type g (g.raw.raw_ty t1)
              (max_depth - 1) fuel
            let b ← generate_expr_for_type g (g.raw.raw_ty t2)
              (max_depth - 1) fuel
            pure (.eq a b)
          | 3 => do
            let a ← generate_expr_for_type g .bool (max_depth - 1) fuel
            pure (.not a)
          | 4 => do
            let c ← generate_expr_for_type g .bool (max_depth - 1) fuel
            let t ← generate_expr_for_type g .bool (max_depth - 1) fuel
            let e ← generate_expr_for_type g .bool (max_depth - 1) fuel
            pure (.ite c t e)
          | 5 => do
            let a ← generate_expr_for_type g .bool (max_depth - 1) fuel
            let b ← generate_expr_for_type g .bool (max_depth - 1) fuel
            pure (.and a b)
          | 6 => do
            let a ← generate_expr_for_type g .bool (max_depth - 1) fuel
            let b ← generate_expr_for_type g .bool (max_depth - 1) fuel
            pure (.or a b)
          | 7 => do
            let a ← generate_expr_for_type g .long (max_depth - 1) fuel
            let b ← generate_expr_for_type g .long (max_depth - 1) fuel
            pure (.less a b)
          | 8 => do
            let a ← generate_expr_for_type g .long (max_depth - 1) fuel
            let b ← generate_expr_for_type g .long (max_depth - 1) fuel
            pure (.lesseq a b)
          | 9 => do
            let a ← generate_expr_for_type g .long (max_depth - 1) fuel
            let b ← generate_expr_for_type g .long (max_depth - 1) fuel
            pure (.greater a b)
          | 10 => do
            let a ← generate_expr_for_type g .long (max_depth - 1) fuel
            let b ← generate_expr_for_type g .long (max_depth - 1) fuel
            pure (.greatereq a b)
          | 11 => do
            let a ← generate_expr_for_type g .entity (max_depth - 1) fuel
            let b ← generate_expr_for_type g .entity (max_depth - 1) fuel
            pure (.isIn a b)
          | 12 => do
            let a ← generate_expr_for_type g .entity (max_depth - 1) fuel
            let b ← generate_expr_for_type g (.setOf .entity)
              (max_depth - 1) fuel
            pure (.isIn a b)
          | 13 => do
            let tn ← nextNat
            let element_ty := g.raw.raw_ty tn
            let element ← generate_expr_for_type g element_ty
              (max_depth - 1) fuel
            let st ← generate_expr_for_type g (.setOf element_ty)
              (max_depth - 1) fuel
            pure (.contains st element)
          | 14 => do
            let t1 ← nextNat
            let a ← generate_expr_for_type g (.setOf (g.raw.raw_ty t1))
              (max_depth - 1) fuel
            let t2 ← nextNat
            let b ← generate_expr_for_type g (.setOf (g.raw.raw_ty t2))
              (max_depth - 1) fuel
            pure (.containsAll a b)
          | 15 => do
            let t1 ← nextNat
            let a ← generate_expr_for_type g (.setOf (g.raw.raw_ty t1))
              (max_depth - 1) fuel
            let t2 ← nextNat
            let b ← generate_expr_for_type g (.setOf (g.raw.raw_ty t2))
              (max_depth - 1) fuel
            pure (.containsAny a b)
          | 16 => do
            let t1 ← nextNat
            let a ← generate_expr_for_type g (.setOf (g.raw.raw_ty t1))
              (max_depth - 1) fuel
            pure (.isEmpty a)
          | 17 =>
            if g.settings.enable_like then do
              let a ← generate_expr_for_type g .string (max_depth - 1) fuel
              let p ← arbitrary_pattern_literal g
              pure (.like a p)
            else throwG .likeDisabled
          | 18 => do
            let a ← generate_expr_for_type g .entity (max_depth - 1) fuel
            let n ← chooseL g.schema.entity_types
            pure (.isEntityType a n)
          | 19 => generate_ext_func_call_for_type g .bool (max_depth - 1) fuel
          | 20 => do
            let p ← arbitrary_attr_for_schematype g .boolean
            let base ← generate_expr_for_schematype g
              (entity_type_name_to_schema_type p.1) (max_depth - 1) fuel
            pure (.getAttr base p.2)
          | 21 => do
            let an ← arbitrary_string_constant g
            let base ← generate_expr_for_schematype g
              (record_schematype_with_attr an .boolean) (max_depth - 1) fuel
            pure (.getAttr base an)
          | 22 => do
            let ety ← arbitrary_entity_type_with_tag_schematype g .boolean
            let base ← generate_expr_for_schematype g
              (entity_type_name_to_schema_type ety) (max_depth - 1) fuel
            let k ← generate_expr_for_schematype g .string
              (max_depth - 1) fuel
            pure (.getTag base k)
          | 23 => do
            let idx ← chooseIndexPanics g.schema.entity_types.length
            match g.schema.entity_types_map.get? idx with
            | none => throwG .panicked
            | some p => do
              let attr_names :=
                match p.2 with
                | .enum => []
                | .standard attrs => attrs
              let an ← chooseL attr_names
              let base ← generate_expr_for_schematype g
                (entity_type_name_to_schema_type p.1) (max_depth - 1) fuel
              pure (.hasAttr base an)
          | 24 => do
            let base ← generate_expr_for_type g .entity (max_depth - 1) fuel
            let an ← arbitrary_string_constant g
            pure (.hasAttr base an)
          | 25 => do
            let base ← generate_expr_for_type g .entity (max_depth - 1) fuel
            let k ← generate_expr_for_type g .string (max_depth - 1) fuel
            pure (.hasTag base k)
          | _ => do
            let base ← generate_expr_for_type g .record (max_depth - 1) fuel
            let an ← arbitrary_string_constant g
            pure (.hasAttr base an)
      | .long => do
        let len ← oracleLen
        if max_depth = 0 ∨ len < 10 then do
          let v ← arbitrary_int_constant g
          pure (.lit (.int v))
        else do
          let i ← pickWeighted [16, 5, 1, 1, 1, 1, 1, 4, 4, 3]
          match i with
          | 0 => do
            let v ← arbitrary_int_constant g
            pure (.lit (.int v))
          | 1 => do
            let c ← generate_expr_for_type g .bool (max_depth - 1) fuel
            let t ← generate_expr_for_type g .long (max_depth - 1) fuel
            let e ← generate_expr_for_type g .long (max_depth - 1) fuel
            pure (.ite c t e)
          | 2 => do
            let a ← generate_expr_for_type g .long (max_depth - 1) fuel
            let b ← generate_expr_for_type g .long (max_depth - 1) fuel
            pure (.add a b)
          | 3 => do
            let a ← generate_expr_for_type g .long (max_depth - 1) fuel
            let b ← generate_expr_for_type g .long (max_depth - 1) fuel
            pure (.sub a b)
          | 4 => do
            let a ← generate_expr_for_type g .long (max_depth - 1) fuel
            let b ← generate_expr_for_type g .long (max_depth - 1) fuel
            pure (.mul a b)
          | 5 => do
            let a ← generate_expr_for_type g .long (max_depth - 1) fuel
            pure (.neg a)
          | 6 => generate_ext_func_call_for_type g .long (max_depth - 1) fuel
          | 7 => do
            let p ← arbitrary_attr_for_schematype g .long
            let base ← generate_expr_for_schematype g
              (entity_type_name_to_schema_type p.1) (max_depth - 1) fuel
            pure (.getAttr base p.2)
          | 8 => do
            let an ← arbitrary_string_constant g
            let base ← generate_expr_for_schematype g
              (record_schematype_with_attr an .long) (max_depth - 1) fuel
            pure (.getAttr base an)
          | _ => do
            let ety ← arbitrary_entity_type_with_tag_schematype g .long
            let base ← generate_expr_for_schematype g
              (entity_type_name_to_schema_type ety) (max_depth - 1) fuel
            let k ← generate_expr_for_schematype g .string
              (max_depth - 1) fuel
            pure (.getTag base k)
      | .string => do
        let len ← oracleLen
        if max_depth = 0 ∨ len < 10 then do
          let v ← arbitrary_string_constant g
          pure (.lit (.string v))
        else do
          let i ← pickWeighted [16, 5, 1, 4, 4, 3]
          match i with
          | 0 => do
            let v ← arbitrary_string_constant g
            pure (.lit (.string v))
          | 1 => do
            let c ← generate_expr_for_type g .bool (max_depth - 1) fuel
            let t ← generate_expr_for_type g .string (max_depth - 1) fuel
            let e ← generate_expr_for_type g .string (max_depth - 1) fuel
            pure (.ite c t e)
          | 2 => generate_ext_func_call_for_type g .string (max_depth - 1) fuel
          | 3 => do
            let p ← arbitrary_attr_for_schematype g .string
            let base ← generate_expr_for_schematype g
              (entity_type_name_to_schema_type p.1) (max_depth - 1) fuel
            pure (.getAttr base p.2)
          | 4 => do
            let an ← arbitrary_string_constant g
            let base ← generate_expr_for_schematype g
              (record_schematype_with_attr an .string) (max_depth - 1) fuel
            pure (.getAttr base an)
          | _ => do
            let ety ← arbitrary_entity_type_with_tag_schematype g .string
            let base ← generate_expr_for_schematype g
              (entity_type_name_to_schema_type ety) (max_depth - 1) fuel
            let k ← generate_expr_for_schematype g .string
              (max_depth - 1) fuel
            pure (.getTag base k)
      | .setAny | .setOf _ => do
        let len ← oracleLen
        if max_depth = 0 ∨ len < 10 then pure (.set [])
        else do
          let i ← pickWeighted [6, 2, 1, 4, 3, 3]
          match i with
          | 0 => do
            let element_ty ←
              match Ty.setElem target_type with
              | some ty => pure ty
              | none => do
                let n ← nextNat
                pure (g.raw.raw_ty n)
            let c ← loopCount 0 g.settings.max_width
            let l ← loopM
              (generate_expr_for_type g element_ty (max_depth - 1) fuel) c
            pure (.set l)
          | 1 => do
            let c ← generate_expr_for_type g .bool (max_depth - 1) fuel
            let t ← generate_expr_for_type g target_type (max_depth - 1) fuel
            let e ← generate_expr_for_type g target_type (max_depth - 1) fuel
            pure (.ite c t e)
          | 2 =>
            generate_ext_func_call_for_type g target_type (max_depth - 1) fuel
          | 3 => do
            let p ← arbitrary_attr_for_type g target_type
            let base ← generate_expr_for_schematype g
              (entity_type_name_to_schema_type p.1) (max_depth - 1) fuel
            pure (.getAttr base p.2)
          | 4 => do
            let an ← arbitrary_string_constant g
            match try_into_schematype g target_type with
            | some schematy => do
              let base ← generate_expr_for_schematype g
                (record_schematype_with_attr an schematy)
                (max_depth - 1) fuel
              pure (.getAttr base an)
            | none => throwG .incorrectFormat
          | _ => do
            let ety ← arbitrary_entity_type_with_tag_type g target_type
            let base ← generate_expr_for_schematype g
              (entity_type_name_to_schema_type ety) (max_depth - 1) fuel
            let k ← generate_expr_for_schematype g .string
              (max_depth - 1) fuel
            pure (.getTag base k)
      | .record => do
        let len ← oracleLen
        if max_depth = 0 ∨ len < 10 then throwG .tooDeep
        else do
          let i ← pickWeighted [2, 2, 1, 4, 3, 3]
          match i with
          | 0 => do
            let c ← loopCount 0 g.settings.max_width
            let r ← kvLoopM
              (do
                let tn ← nextNat
                let v ← generate_expr_for_type g (g.raw.raw_ty tn)
                  (max_depth - 1) fuel
                let an ← arbitrary_string_constant g
                pure (an, v)) c []
            pure (.record r)
          | 1 => do
            let c ← generate_expr_for_type g .bool (max_depth - 1) fuel
            let t ← generate_expr_for_type g .record (max_depth - 1) fuel
            let e ← generate_expr_for_type g .record (max_depth - 1) fuel
            pure (.ite c t e)
          | 2 => generate_ext_func_call_for_type g .record (max_depth - 1) fuel
          | 3 => do
            let p ← arbitrary_attr_for_schematype g (.record [] true)
            let base ← generate_expr_for_schematype g
              (entity_type_name_to_schema_type p.1) (max_depth - 1) fuel
            pure (.getAttr base p.2)
          | 4 => do
            let an ← arbitrary_string_constant g
            let base ← generate_expr_for_schematype g
              (record_schematype_with_attr an (.record [] true))
              (max_depth - 1) fuel
            pure (.getAttr base an)
          | _ => do
            let ety ← arbitrary_entity_type_with_tag_type g target_type
            let base ← generate_expr_for_schematype g
              (entity_type_name_to_schema_type ety) (max_depth - 1) fuel
            let k ← generate_expr_for_schematype g .string
              (max_depth - 1) fuel
            pure (.getTag base k)
      | .entity => do
        let len ← oracleLen
        if max_depth = 0 ∨ len < 10 then do
          let v ← chooseL [Var.principal, Var.action, Var.resource]
          pure (.var v)
        else do
          let i ← pickWeighted [11, 2, 6, 6, 6, 2, 1, 6, 5, 5]
          match i with
          | 0 => do
            let uid ← generate_uid g
            pure (.lit (.euid uid))
          | 1 => do
            let n ← nextNat
            pure (.lit (.euid (g.raw.raw_euid n)))
          | 2 => pure (.var .principal)
          | 3 => pure (.var .action)
          | 4 => pure (.var .resource)
          | 5 => do
            let c ← generate_expr_for_type g .bool (max_depth - 1) fuel
            let t ← generate_expr_for_type g .entity (max_depth - 1) fuel
            let e ← generate_expr_for_type g .entity (max_depth - 1) fuel
            pure (.ite c t e)
          | 6 => generate_ext_func_call_for_type g .entity (max_depth - 1) fuel
          | 7 => do
            let ety0 ← chooseL g.schema.entity_types
            let p ← arbitrary_attr_for_schematype g
              (entity_type_name_to_schema_type ety0)
            let base ← generate_expr_for_schematype g
              (entity_type_name_to_schema_type p.1) (max_depth - 1) fuel
            pure (.getAttr base p.2)
          | 8 => do
            let an ← arbitrary_string_constant g
            let ety0 ← chooseL g.schema.entity_types
            let base ← generate_expr_for_schematype g
              (record_schematype_with_attr an
                (entity_type_name_to_schema_type ety0)) (max_depth - 1) fuel
            pure (.getAttr base an)
          | _ => do
            let ety0 ← chooseL g.schema.entity_types
            let ety ← arbitrary_entity_type_with_tag_schematype g
              (entity_type_name_to_schema_type ety0)
            let base ← generate_expr_for_schematype g
              (entity_type_name_to_schema_type ety) (max_depth - 1) fuel
            let k ← generate_expr_for_schematype g .string
              (max_depth - 1) fuel
            pure (.getTag base k)
      | .ipaddr | .decimal | .datetime | .duration => do
        if g.settings.enable_extensions then pure ()
        else throwG .extensionsDisabled
        let len ← oracleLen
        if max_depth = 0 ∨ len < 10 then
          arbitrary_ext_constructor_call_for_type g target_type
            (fun s => Expr.lit (.string s)) Expr.call
        else do
          let type_name :=
            match target_type with
            | .ipaddr => "ipaddr"
            | .decimal => "decimal"
            | .datetime => "datetime"
            | _ => "duration"
          let i ← pickWeighted [2, 9, 2, 2, 5]
          match i with
          | 0 => do
            let c ← generate_expr_for_type g .bool (max_depth - 1) fuel
            let t ← generate_expr_for_type g target_type (max_depth - 1) fuel
            let e ← generate_expr_for_type g target_type (max_depth - 1) fuel
            pure (.ite c t e)
          | 1 =>
            generate_ext_func_call_for_type g target_type (max_depth - 1) fuel
          | 2 => do
            let p ← arbitrary_attr_for_schematype g (.extension type_name)
            let base ← generate_expr_for_schematype g
              (entity_type_name_to_schema_type p.1) (max_depth - 1) fuel
            pure (.getAttr base p.2)
          | 3 => do
            let an ← arbitrary_string_constant g
            let base ← generate_expr_for_schematype g
              (record_schematype_with_attr an (.extension type_name))
              (max_depth - 1) fuel
            pure (.getAttr base an)
          | _ => do
            let ety ← arbitrary_entity_type_with_tag_schematype g
              (.extension type_name)
            let base ← generate_expr_for_schematype g
              (entity_type_name_to_schema_type ety) (max_depth - 1) fuel
            let k ← generate_expr_for_schematype g .string
              (max_depth - 1) fuel
            pure (.getTag base k)
termination_by structural fuel

/-- `ExprGenerator::generate_expr_for_schematype` (`expr.rs` 1296-1691):
an expression for a structural schema type.  `CommonTypeRef` and
`EntityOrCommon` are resolved by `resolveHead` (same-depth recursion in the
source); the resolved head then dispatches. -/
def generate_expr_for_schematype (g : Gen) (target_type : SchemaTy)
    (max_depth : Nat) (fuel : Nat) : GenM Expr :=
  match fuel with
  | 0 => throwG .outOfFuel
  | fuel + 1 =>
    match resolveHead g target_type with
    | none => throwG .panicked
    | some rt =>
      match rt with
      | .boolean => generate_expr_for_type g .bool max_depth fuel
      | .long => generate_expr_for_type g .long max_depth fuel
      | .string => generate_expr_for_type g .string max_depth fuel
      | .extension name =>
        if name = "ipaddr" then generate_expr_for_type g .ipaddr max_depth fuel
        else if name = "decimal" then
          generate_expr_for_type g .decimal max_depth fuel
        else if name = "datetime" then
          generate_expr_for_type g .datetime max_depth fuel
        else if name = "duration" then
          generate_expr_for_type g .duration max_depth fuel
        else throwG .panicked
      | .set element_ty => do
        let len ← oracleLen
        if max_depth = 0 ∨ len < 10 then pure (.set [])
        else do
          let i ← pickWeighted [6, 2, 1, 4, 3, 3]
          match i with
          | 0 => do
            let c ← loopCount 0 g.settings.max_width
            let l ← loopM
              (generate_expr_for_schematype g element_ty (max_depth - 1)
                fuel) c
            pure (.set l)
          | 1 => do
            -- the source generates both arms at the element type here
            let c ← generate_expr_for_type g .bool (max_depth - 1) fuel
            let t ← generate_expr_for_schematype g element_ty
              (max_depth - 1) fuel
            let e ← generate_expr_for_schematype g element_ty
              (max_depth - 1) fuel
            pure (.ite c t e)
          | 2 =>
            generate_ext_func_call_for_schematype g element_ty (max_depth - 1)
              fuel
          | 3 => do
            let p ← arbitrary_attr_for_schematype g (.set element_ty)
            let base ← generate_expr_for_schematype g
              (entity_type_name_to_schema_type p.1) (max_depth - 1) fuel
            pure (.getAttr base p.2)
          | 4 => do
            let an ← arbitrary_string_constant g
            let base ← generate_expr_for_schematype g
              (record_schematype_with_attr an (.set element_ty))
              (max_depth - 1) fuel
            pure (.getAttr base an)
          | _ => do
            let ety ← arbitrary_entity_type_with_tag_schematype g
              (.set element_ty)
            let base ← generate_expr_for_schematype g
              (entity_type_name_to_schema_type ety) (max_depth - 1) fuel
            let k ← generate_expr_for_schematype g .string
              (max_depth - 1) fuel
            pure (.getTag base k)
      | .record attributes additional => do
        let len ← oracleLen
        if max_depth = 0 ∨ len < 10 then throwG .tooDeep
        else do
          let i ← pickWeighted [2, 14, 2, 1, 4, 3, 3]
          match i with
          | 0 => do
            let r0 ←
              if additional then do
                let c ← loopCount 0 g.settings.max_width
                kvLoopM
                  (do
                    let tn ← nextNat
                    let attr_type :=
                      if g.settings.enable_extensions then g.raw.raw_ty tn
                      else g.raw.raw_ty_nonext tn
                    let sn ← nextNat
                    let attr_name := g.raw.raw_string sn
                    let v ← generate_expr_for_type g attr_type
                      (max_depth - 1) fuel
                    pure (attr_name, v)) c []
              else pure []
            let r ← overlayM false
              (fun ty2 =>
                generate_expr_for_schematype g ty2 (max_depth - 1) fuel)
              attributes r0
            pure (.record r)
          -- the `context` production is unimplemented in the source and
          -- returns TooDeep unconditionally, at the largest weight (14)
          | 1 => throwG .tooDeep
          | 2 => do
            let c ← generate_expr_for_type g .bool (max_depth - 1) fuel
            let t ← generate_expr_for_schematype g rt (max_depth - 1) fuel
            let e ← generate_expr_for_schematype g rt (max_depth - 1) fuel
            pure (.ite c t e)
          | 3 =>
            generate_ext_func_call_for_schematype g rt (max_depth - 1) fuel
          | 4 => do
            let p ← arbitrary_attr_for_schematype g rt
            let base ← generate_expr_for_schematype g
              (entity_type_name_to_schema_type p.1) (max_depth - 1) fuel
            pure (.getAttr base p.2)
          | 5 => do
            let an ← arbitrary_string_constant g
            let base ← generate_expr_for_schematype g
              (record_schematype_with_attr an rt) (max_depth - 1) fuel
            pure (.getAttr base an)
          | _ => do
            let ety ← arbitrary_entity_type_with_tag_schematype g rt
            let base ← generate_expr_for_schematype g
              (entity_type_name_to_schema_type ety) (max_depth - 1) fuel
            let k ← generate_expr_for_schematype g .string
              (max_depth - 1) fuel
            pure (.getTag base k)
      | .entity name => do
        let len ← oracleLen
        if max_depth = 0 ∨ len < 10 then do
          let v ← chooseL [Var.principal, Var.action, Var.resource]
          pure (.var v)
        else do
          let i ← pickWeighted [13, 6, 6, 6, 2, 1, 6, 5, 5]
          match i with
          | 0 => do
            let etn := qualifyName g.schema.nspace name
            let uid ← arbitrary_uid_with_type g etn
            pure (.lit (.euid uid))
          | 1 => pure (.var .principal)
          | 2 => pure (.var .action)
          | 3 => pure (.var .resource)
          | 4 => do
            let c ← generate_expr_for_type g .bool (max_depth - 1) fuel
            let t ← generate_expr_for_schematype g rt (max_depth - 1) fuel
            let e ← generate_expr_for_schematype g rt (max_depth - 1) fuel
            pure (.ite c t e)
          | 5 => generate_ext_func_call_for_type g .entity (max_depth - 1) fuel
          | 6 => do
            let p ← arbitrary_attr_for_schematype g rt
            let base ← generate_expr_for_schematype g
              (entity_type_name_to_schema_type p.1) (max_depth - 1) fuel
            pure (.getAttr base p.2)
          | 7 => do
            let an ← arbitrary_string_constant g
            let base ← generate_expr_for_schematype g
              (record_schematype_with_attr an rt) (max_depth - 1) fuel
            pure (.getAttr base an)
          | _ => do
            let ety ← arbitrary_entity_type_with_tag_schematype g rt
            let base ← generate_expr_for_schematype g
              (entity_type_name_to_schema_type ety) (max_depth - 1) fuel
            let k ← generate_expr_for_schematype g .string
              (max_depth - 1) fuel
            pure (.getTag base k)
      | .entityOrCommon _ => throwG .panicked
      | .commonRef _ => throwG .panicked
termination_by structural fuel

/-- `ExprGenerator::generate_ext_func_call_for_type` (`expr.rs` 1750-1764):
a call of an extension function with the given exact return type; each
argument is generated at the given depth.  The source's `assert_eq!` on the
return type is a panic. -/
def generate_ext_func_call_for_type (g : Gen) (target_type : Ty)
    (max_depth : Nat) (fuel : Nat) : GenM Expr :=
  match fuel with
  | 0 => throwG .outOfFuel
  | fuel + 1 => do
    let func ← ext_arbitrary_for_type g target_type
    if func.return_ty = target_type then pure () else throwG .panicked
    let args ← mapMG
      (fun p => generate_expr_for_type g p max_depth fuel)
      func.parameter_types
    pure (.call func.name args)
termination_by structural fuel

/-- `ExprGenerator::generate_ext_func_call_for_schematype`
(`expr.rs` 1772-1842): resolve the head, dispatch primitive and extension
heads to `generate_ext_func_call_for_type`, and fail with `EmptyChoose` on
set/record/entity heads (no extension function returns those). -/
def generate_ext_func_call_for_schematype (g : Gen) (target_type : SchemaTy)
    (max_depth : Nat) (fuel : Nat) : GenM Expr :=
  match fuel with
  | 0 => throwG .outOfFuel
  | fuel + 1 =>
    match resolveHead g target_type with
    | none => throwG .panicked
    | some rt =>
      match rt with
      | .boolean => generate_ext_func_call_for_type g .bool max_depth fuel
      | .long => generate_ext_func_call_for_type g .long max_depth fuel
      | .string => generate_ext_func_call_for_type g .string max_depth fuel
      | .extension name =>
        if name = "ipaddr" then
          generate_ext_func_call_for_type g .ipaddr max_depth fuel
        else if name = "decimal" then
          generate_ext_func_call_for_type g .decimal max_depth fuel
        else if name = "datetime" then
          generate_ext_func_call_for_type g .datetime max_depth fuel
        else if name = "duration" then
          generate_ext_func_call_for_type g .duration max_depth fuel
        else throwG .panicked
      | .set _ => throwG .emptyChoose
      | .record _ _ => throwG .emptyChoose
      | .entity _ => throwG .emptyChoose
      | .entityOrCommon _ => throwG .panicked
      | .commonRef _ => throwG .panicked
termination_by structural fuel

/-- `ExprGenerator::generate_attr_value_for_type` (`expr.rs` 1906-1991):
literal-only attribute data for a semantic type.  Primitive and entity
types are single literal draws; extension types are constructor calls
failing at depth 0; sets and records recurse into literal generation
only. -/
def generate_attr_value_for_type (g : Gen) (target_type : Ty)
    (max_depth : Nat) (fuel : Nat) : GenM AttrValueM :=
  match fuel with
  | 0 => throwG .outOfFuel
  | fuel + 1 =>
    match target_type with
    | .bool => do
      let n ← nextNat
      pure (.boolLit (g.raw.raw_bool n))
    | .long => do
      let v ← arbitrary_int_constant g
      pure (.intLit v)
    | .string => do
      let v ← arbitrary_string_constant g
      pure (.stringLit v)
    | .entity => do
      let uid ← generate_uid g
      pure (.uidLit uid)
    | .ipaddr | .decimal | .datetime | .duration =>
      if max_depth = 0 then throwG .tooDeep
      else
        arbitrary_ext_constructor_call_for_type g target_type
          AttrValueM.stringLit AttrValueM.extFuncCall
    | .setAny | .setOf _ =>
      if max_depth = 0 then pure (.set [])
      else do
        let element_ty ←
          match Ty.setElem target_type with
          | none => do
            let n ← nextNat
            pure (if g.settings.enable_extensions then g.raw.raw_ty n
              else g.raw.raw_ty_nonext n)
          | some ty => pure ty
        let c ← loopCount 0 g.settings.max_width
        let l ← loopM
          (generate_attr_value_for_type g element_ty (max_depth - 1) fuel) c
        pure (.set l)
    | .record =>
      if max_depth = 0 then pure (.record [])
      else do
        let c ← loopCount 0 g.settings.max_width
        let r ← kvLoopM
          (do
            let p ← arbitrary_attr g
            let v ← generate_attr_value_for_schematype g p.2
              (max_depth - 1) fuel
            pure (p.1, v)) c []
        pure (.record r)
termination_by structural fuel

/-- `ExprGenerator::generate_attr_value_for_schematype`
(`expr.rs` 2028-2187): literal-only attribute data for a schema type.  The
record case first maybe adds synthetic additional attributes, then overlays
the declared attributes with the collision-forcing optional rule
(`overlayM true`).  An extension head with extensions disabled is a source
panic. -/
def generate_attr_value_for_schematype (g : Gen) (target_type : SchemaTy)
    (max_depth : Nat) (fuel : Nat) : GenM AttrValueM :=
  match fuel with
  | 0 => throwG .outOfFuel
  | fuel + 1 =>
    match resolveHead g target_type with
    | none => throwG .panicked
    | some rt =>
      match rt with
      | .boolean => generate_attr_value_for_type g .bool max_depth fuel
      | .long => generate_attr_value_for_type g .long max_depth fuel
      | .string => generate_attr_value_for_type g .string max_depth fuel
      | .set element_ty =>
        if max_depth = 0 then pure (.set [])
        else do
          let c ← loopCount 0 g.settings.max_width
          let l ← loopM
            (generate_attr_value_for_schematype g element_ty
              (max_depth - 1) fuel) c
          pure (.set l)
      | .record attributes additional =>
        if max_depth = 0 then throwG .tooDeep
        else do
          let r0 ←
            if additional then do
              let c ← loopCount 0 g.settings.max_width
              kvLoopM
                (do
                  let p ← arbitrary_attr g
                  let v ← generate_attr_value_for_schematype g p.2
                    (max_depth - 1) fuel
                  pure (p.1, v)) c []
            else pure []
          let r ← overlayM true
            (fun ty2 =>
              generate_attr_value_for_schematype g ty2 (max_depth - 1) fuel)
            attributes r0
          pure (.record r)
      | .entity name => do
        let etn := qualifyName g.schema.nspace name
        let uid ← arbitrary_uid_with_type g etn
        pure (.uidLit uid)
      | .extension name => do
        if g.settings.enable_extensions then pure () else throwG .panicked
        if name = "ipaddr" then
          generate_attr_value_for_type g .ipaddr max_depth fuel
        else if name = "decimal" then
          generate_attr_value_for_type g .decimal max_depth fuel
        else if name = "datetime" then
          generate_attr_value_for_type g .datetime max_depth fuel
        else if name = "duration" then
          generate_attr_value_for_type g .duration max_depth fuel
        else throwG .panicked
      | .entityOrCommon _ => throwG .panicked
      | .commonRef _ => throwG .panicked
termination_by structural fuel

/-- `ExprGenerator::generate_value_for_type` (`expr.rs` 2205-2279): a
concrete `Value` of a semantic type.  The catch-all arm of the source sends
every extension type to `Err(ExtensionsDisabled)`, regardless of the
settings. -/
def generate_value_for_type (g : Gen) (target_type : Ty)
    (max_depth : Nat) (fuel : Nat) : GenM ValueM :=
  match fuel with
  | 0 => throwG .outOfFuel
  | fuel + 1 =>
    match target_type with
    | .bool => do
      let n ← nextNat
      pure (.bool (g.raw.raw_bool n))
    | .long => do
      let v ← arbitrary_int_constant g
      pure (.int v)
    | .string => do
      let v ← arbitrary_string_constant g
      pure (.string v)
    | .entity => do
      let uid ← generate_uid g
      pure (.euid uid)
    | .setAny | .setOf _ =>
      if max_depth = 0 then pure (.set [])
      else do
        let element_ty ←
          match Ty.setElem target_type with
          | none => do
            let n ← nextNat
            pure (if g.settings.enable_extensions then g.raw.raw_ty n
              else g.raw.raw_ty_nonext n)
          | some ty => pure ty
        let c ← loopCount 0 g.settings.max_width
        let l ← loopM
          (generate_value_for_type g element_ty (max_depth - 1) fuel) c
        pure (.set l)
    | .record =>
      if max_depth = 0 then pure (.record [])
      else do
        let c ← loopCount 0 g.settings.max_width
        let r ← kvLoopM
          (do
            let p ← arbitrary_attr g
            let v ← generate_value_for_schematype g p.2 (max_depth - 1) fuel
            pure (p.1, v)) c []
        pure (.record r)
    | .ipaddr | .decimal | .datetime | .duration =>
      throwG .extensionsDisabled
termination_by structural fuel

/-- `ExprGenerator::generate_value_for_schematype` (`expr.rs` 2282-2421):
a concrete `Value` of a schema type; same record overlay as the
attr-value version (`overlayM true`); the catch-all arm sends extension
heads to `Err(ExtensionsDisabled)`. -/
def generate_value_for_schematype (g : Gen) (target_type : SchemaTy)
    (max_depth : Nat) (fuel : Nat) : GenM ValueM :=
  match fuel with
  | 0 => throwG .outOfFuel
  | fuel + 1 =>
    match resolveHead g target_type with
    | none => throwG .panicked
    | some rt =>
      match rt with
      | .boolean => generate_value_for_type g .bool max_depth fuel
      | .long => generate_value_for_type g .long max_depth fuel
      | .string => generate_value_for_type g .string max_depth fuel
      | .set element_ty =>
        if max_depth = 0 then pure (.set [])
        else do
          let c ← loopCount 0 g.settings.max_width
          let l ← loopM
            (generate_value_for_schematype g element_ty (max_depth - 1)
              fuel) c
          pure (.set l)
      | .record attributes additional =>
        if max_depth = 0 then throwG .tooDeep
        else do
          let r0 ←
            if additional then do
              let c ← loopCount 0 g.settings.max_width
              kvLoopM
                (do
                  let p ← arbitrary_attr g
                  let v ← generate_value_for_schematype g p.2
                    (max_depth - 1) fuel
                  pure (p.1, v)) c []
            else pure []
          let r ← overlayM true
            (fun ty2 =>
              generate_value_for_schematype g ty2 (max_depth - 1) fuel)
            attributes r0
          pure (.record r)
      | .entity name => do
        let etn := qualifyName g.schema.nspace name
        let uid ← arbitrary_uid_with_type g etn
        pure (.euid uid)
      | .extension _ => throwG .extensionsDisabled
      | .entityOrCommon _ => throwG .panicked
      | .commonRef _ => throwG .panicked
termination_by structural fuel

end

/-! ### Structural predicates on generated trees -/

mutual

/-- Every record literal inside the expression has pairwise-distinct
keys. -/
def exprOk : Expr → Bool
  | .lit _ => true
  | .var _ => true
  | .unknown _ _ => true
  | .ite a b c => exprOk a && exprOk b && exprOk c
  | .and a b => exprOk a && exprOk b
  | .or a b => exprOk a && exprOk b
  | .not e => exprOk e
  | .eq a b => exprOk a && exprOk b
  | .less a b => exprOk a && exprOk b
  | .lesseq a b => exprOk a && exprOk b
  | .greater a b => exprOk a && exprOk b
  | .greatereq a b => exprOk a && exprOk b
  | .add a b => exprOk a && exprOk b
  | .sub a b => exprOk a && exprOk b
  | .mul a b => exprOk a && exprOk b
  | .neg e => exprOk e
  | .isIn a b => exprOk a && exprOk b
  | .contains a b => exprOk a && exprOk b
  | .containsAll a b => exprOk a && exprOk b
  | .containsAny a b => exprOk a && exprOk b
  | .isEmpty e => exprOk e
  | .like e _ => exprOk e
  | .isEntityType e _ => exprOk e
  | .set es => exprListOk es
  | .record fields => nodupKeys fields && exprPairsOk fields
  | .getAttr e _ => exprOk e
  | .hasAttr e _ => exprOk e
  | .getTag e k => exprOk e && exprOk k
  | .hasTag e k => exprOk e && exprOk k
  | .call _ args => exprListOk args

/-- `exprOk` on every element. -/
def exprListOk : List Expr → Bool
  | [] => true
  | e :: es => exprOk e && exprListOk es

/-- `exprOk` on every value of a keyed map. -/
def exprPairsOk : List (String × Expr) → Bool
  | [] => true
  | (_, e) :: ps => exprOk e && exprPairsOk ps

end

mutual

/-- Every record literal inside the attribute value has pairwise-distinct
keys. -/
def attrValueOk : AttrValueM → Bool
  | .boolLit _ => true
  | .intLit _ => true
  | .stringLit _ => true
  | .uidLit _ => true
  | .extFuncCall _ args => attrValueListOk args
  | .set vs => attrValueListOk vs
  | .record fields => nodupKeys fields && attrValuePairsOk fields

/-- `attrValueOk` on every element. -/
def attrValueListOk : List AttrValueM → Bool
  | [] => true
  | v :: vs => attrValueOk v && attrValueListOk vs

/-- `attrValueOk` on every value of a keyed map. -/
def attrValuePairsOk : List (String × AttrValueM) → Bool
  | [] => true
  | (_, v) :: ps => attrValueOk v && attrValuePairsOk ps

end

mutual

/-- Every record inside the value has pairwise-distinct keys. -/
def valueOk : ValueM → Bool
  | .bool _ => true
  | .int _ => true
  | .string _ => true
  | .euid _ => true
  | .set vs => valueListOk vs
  | .record fields => nodupKeys fields && valuePairsOk fields

/-- `valueOk` on every element. -/
def valueListOk : List ValueM → Bool
  | [] => true
  | v :: vs => valueOk v && valueListOk vs

/-- `valueOk` on every value of a keyed map. -/
def valuePairsOk : List (String × ValueM) → Bool
  | [] => true
  | (_, v) :: ps => valueOk v && valuePairsOk ps

end

/-- A computation never reports fuel exhaustion (its call-stack need stays
within the supplied fuel). -/
def NoOF {α : Type} (m : GenM α) : Prop :=
  ∀ s, m s ≠ .error Err.outOfFuel

/-- Every successful result of the computation satisfies the predicate. -/
def SatG {α : Type} (m : GenM α) (P : α → Bool) : Prop :=
  ∀ s a s', m s = .ok (a, s') → P a = true

/-! ### Concrete instances, for witnesses and counterexamples -/

/-- An unqualified name. -/
def cname (s : String) : CName := { path := [], base := s }

/-- A concrete constant pool. -/
def pool0 : ConstantPool where
  int_constants := fun n => Int.ofNat n
  string_constants := fun n => "s" ++ toString n
  ip_strs := fun n => "ip" ++ toString n
  decimal_strs := fun n => "dec" ++ toString n
  datetime_strs := fun n => "dt" ++ toString n
  duration_strs := fun n => "du" ++ toString n
  pattern_literals := fun n => "pat" ++ toString n

/-- Concrete raw-draw interpretations. -/
def raw0 : RawArb where
  raw_bool := fun n => decide (n % 2 = 1)
  raw_string := fun n => "r" ++ toString n
  raw_euid := fun n => { ty := cname "E", eid := "e" ++ toString n }
  raw_ty := fun _ => Ty.string
  raw_ty_nonext := fun _ => Ty.string
  raw_var := fun _ => Var.context
  raw_name := fun _ => cname "fn"
  raw_eid := fun n => "x" ++ toString n

/-- A concrete one-entity schema with no common types. -/
def schema0 : SchemaM where
  entity_types := [cname "E"]
  entity_types_map := [(cname "E", .standard ["a"])]
  attrs_pool := [("a", SchemaTy.boolean)]
  attr_for_schematype := fun _ => []
  attr_for_type := fun _ => []
  entity_with_tag_schematype := fun _ => []
  entity_with_tag_type := fun _ => []
  common_types := []
  nspace := none
  actions_eids := ["act"]
  principal_types := [cname "E"]
  resource_types := [cname "E"]
  uid_enum_choices := fun _ => []
  into_schematype := fun _ => none

/-- An empty extension-function registry. -/
def extfuncs0 : AvailableExtFuncs where
  all_funcs := []
  funcs_for_type := fun _ => []
  constructors_for_type := fun _ => []

/-- Default settings: depth 3, width 2, everything but unknowns and
arbitrary calls enabled. -/
def settings0 : ABACSettings where
  max_depth := 3
  max_width := 2
  enable_like := true
  enable_extensions := true
  enable_unknowns := false
  enable_arbitrary_func_call := false

/-- The base concrete generator. -/
def g0 : Gen where
  schema := schema0
  settings := settings0
  constant_pool := pool0
  ext_funcs := extfuncs0
  hierarchy := none
  raw := raw0

/-- `g0` with unknowns enabled. -/
def g0u : Gen := { g0 with settings := { settings0 with enable_unknowns := true } }

/-- A one-function extension registry: one general function `foo`
returning Bool, and the `ip` constructor returning IPAddr. -/
def extfuncs1 : AvailableExtFuncs where
  all_funcs :=
    [{ name := cname "foo", parameter_types := [Ty.bool],
       return_ty := Ty.bool }]
  funcs_for_type := fun t =>
    if t = Ty.bool then
      [{ name := cname "foo", parameter_types := [Ty.bool],
         return_ty := Ty.bool }]
    else []
  constructors_for_type := fun t =>
    if t = Ty.ipaddr then
      [{ name := cname "ip", parameter_types := [Ty.string],
         return_ty := Ty.ipaddr }]
    else []

/-- `g0` with the one-function registry. -/
def g1 : Gen := { g0 with ext_funcs := extfuncs1 }

/-- `g0` with extensions disabled. -/
def g0d : Gen :=
  { g0 with settings := { settings0 with enable_extensions := false } }

/-- The shape claim C4 asserts of extension-typed attribute values: a call
of a constructor drawn from the registry for the target type, applied to a
pool-drawn string literal — except the two-argument `offset` constructor,
whose arguments are nested `datetime`/`duration` constructor calls on
pool-drawn string literals. -/
def CtorCallShape (g : Gen) (t : Ty) (v : AttrValueM) : Prop :=
  ∃ f, f ∈ g.ext_funcs.constructors_for_type t ∧ f.return_ty = t ∧
    ((∃ k, f.name.base = "ip"
        ∧ v = .extFuncCall f.name [.stringLit (g.constant_pool.ip_strs k)])
      ∨ (∃ k, f.name.base = "decimal"
        ∧ v = .extFuncCall f.name
            [.stringLit (g.constant_pool.decimal_strs k)])
      ∨ (∃ k, f.name.base = "datetime"
        ∧ v = .extFuncCall f.name
            [.stringLit (g.constant_pool.datetime_strs k)])
      ∨ (∃ k, f.name.base = "duration"
        ∧ v = .extFuncCall f.name
            [.stringLit (g.constant_pool.duration_strs k)])
      ∨ (∃ k1 k2, f.name.base = "offset"
        ∧ v = .extFuncCall f.name
            [.extFuncCall (cname "datetime")
              [.stringLit (g.constant_pool.datetime_strs k1)],
             .extFuncCall (cname "duration")
              [.stringLit (g.constant_pool.duration_strs k2)]]))

/-- `g0` with every raw string draw mapped to the attribute name `"a"`,
so that the synthetic additional-attribute loop of the expression
generator collides with the declared attribute `"a"`. -/
def gC : Gen := { g0 with raw := { raw0 with raw_string := fun _ => "a" } }

/-- A record schema type with a single optional Boolean attribute `"a"`
and `additional_attributes` on. -/
def tC : SchemaTy := SchemaTy.record [("a", SchemaTy.boolean, false)] true

/-! ## Lemmas and theorems -/

theorem keys_insertA {α : Type} (l : List (String × α)) (k : String) (v : α)
    (a : String) : a ∈ keys (insertA l k v) ↔ a = k ∨ a ∈ keys l := by
  induction l with
  | nil => simp [insertA, keys]
  | cons hd tl ih =>
    obtain ⟨k', v'⟩ := hd
    simp only [insertA]
    by_cases hk : k' = k
    · rw [if_pos hk]
      subst hk
      simp only [keys, List.map_cons, List.mem_cons]
      tauto
    · rw [if_neg hk]
      simp only [keys, List.map_cons, List.mem_cons] at ih ⊢
      rw [ih]
      tauto

theorem contains_iff_mem (l : List String) (a : String) :
    l.contains a = true ↔ a ∈ l := by
  simp [List.contains, List.elem_iff]

theorem nodupKeys_insertA {α : Type} (l : List (String × α)) (k : String)
    (v : α) (h : nodupKeys l = true) : nodupKeys (insertA l k v) = true := by
  induction l with
  | nil => simp [insertA, nodupKeys, keys]
  | cons hd tl ih =>
    obtain ⟨k', v'⟩ := hd
    simp only [nodupKeys, Bool.and_eq_true, Bool.not_eq_true'] at h
    by_cases hk : k' = k
    · subst hk
      simpa [insertA, nodupKeys] using h
    · simp only [insertA, if_neg hk, nodupKeys, Bool.and_eq_true,
        Bool.not_eq_true']
      refine ⟨?_, ih h.2⟩
      by_cases hc : (keys (insertA tl k v)).contains k' = true
      · rw [contains_iff_mem] at hc
        rw [keys_insertA] at hc
        rcases hc with hc | hc
        · exact absurd hc hk
        · rw [← contains_iff_mem] at hc
          rw [h.1] at hc
          exact absurd hc (by simp)
      · simpa using hc

theorem values_insertA {α : Type} (l : List (String × α)) (k : String)
    (v : α) (x : α) (hx : x ∈ (insertA l k v).map Prod.snd) :
    x ∈ l.map Prod.snd ∨ x = v := by
  induction l with
  | nil => simpa [insertA] using hx
  | cons hd tl ih =>
    obtain ⟨k', v'⟩ := hd
    by_cases hk : k' = k
    · subst hk
      rw [insertA, if_pos rfl, List.map_cons, List.mem_cons] at hx
      rcases hx with hx | hx
      · right; exact hx
      · left
        rw [List.map_cons, List.mem_cons]
        right; exact hx
    · rw [insertA, if_neg hk, List.map_cons, List.mem_cons] at hx
      rcases hx with hx | hx
      · left
        rw [List.map_cons, List.mem_cons]
        left; exact hx
      · rcases ih hx with h | h
        · left
          rw [List.map_cons, List.mem_cons]
          right; exact h
        · right; exact h

@[simp] theorem bind_eq_bindG {α β : Type} (m : GenM α) (f : α → GenM β) :
    m >>= f = bindG m f := rfl

@[simp] theorem pure_eq_pureG {α : Type} (a : α) :
    (pure a : GenM α) = pureG a := rfl

theorem bindG_eq_ok {α β : Type} (m : GenM α) (f : α → GenM β)
    (s : GenState) (b : β) (s2 : GenState) :
    bindG m f s = .ok (b, s2) ↔
      ∃ a s1, m s = .ok (a, s1) ∧ f a s1 = .ok (b, s2) := by
  unfold bindG
  cases h : m s with
  | error e => simp
  | ok p =>
    obtain ⟨a, s1⟩ := p
    simp only [h]
    constructor
    · intro h2
      exact ⟨a, s1, rfl, h2⟩
    · rintro ⟨a1, s11, heq, h2⟩
      rw [Except.ok.injEq, Prod.mk.injEq] at heq
      obtain ⟨rfl, rfl⟩ := heq
      exact h2

theorem bindG_eq_error {α β : Type} (m : GenM α) (f : α → GenM β)
    (s : GenState) (e : Err) :
    bindG m f s = .error e ↔
      m s = .error e ∨ ∃ a s1, m s = .ok (a, s1) ∧ f a s1 = .error e := by
  unfold bindG
  cases h : m s with
  | error e' => simp
  | ok p =>
    obtain ⟨a, s1⟩ := p
    simp only [h]
    constructor
    · intro h2
      exact Or.inr ⟨a, s1, rfl, h2⟩
    · rintro (h2 | ⟨a1, s11, heq, h2⟩)
      · exact absurd h2 (by simp)
      · rw [Except.ok.injEq, Prod.mk.injEq] at heq
        obtain ⟨rfl, rfl⟩ := heq
        exact h2

/-! Claim C2: the unknown-injection decision. -/

/-- C2: with unknowns enabled and `max_depth` within bounds,
`should_generate_unknown` returns true exactly when the uniform draw from
`[0, settings.max_depth]` is at most `settings.max_depth - max_depth`;
consequently any draw that triggers injection at the root
(`max_depth = settings.max_depth`) also triggers it near a leaf
(`max_depth = 1`) and, when `settings.max_depth ≥ 2` so that root and leaf
are distinct positions, some draw triggers injection at the leaf but not at
the root.  With unknowns disabled it always returns false. -/
theorem should_generate_unknown_spec (g : Gen) :
    (∀ max_depth n rest pool,
      g.settings.enable_unknowns = true →
      max_depth ≤ g.settings.max_depth →
      should_generate_unknown g max_depth ⟨n :: rest, pool⟩
        = .ok (decide (n % (g.settings.max_depth + 1)
            ≤ g.settings.max_depth - max_depth), ⟨rest, pool⟩))
    ∧ (∀ max_depth s,
      g.settings.enable_unknowns = false →
      should_generate_unknown g max_depth s = .ok (false, s))
    ∧ (g.settings.enable_unknowns = true →
      2 ≤ g.settings.max_depth →
      (∀ n rest pool,
        should_generate_unknown g g.settings.max_depth ⟨n :: rest, pool⟩
          = .ok (true, ⟨rest, pool⟩) →
        should_generate_unknown g 1 ⟨n :: rest, pool⟩
          = .ok (true, ⟨rest, pool⟩))
      ∧ ∃ n : Nat,
          should_generate_unknown g 1 ⟨[n], []⟩ = .ok (true, ⟨[], []⟩) ∧
          should_generate_unknown g g.settings.max_depth ⟨[n], []⟩
            = .ok (false, ⟨[], []⟩)) := by
  have key : ∀ max_depth n rest pool,
      g.settings.enable_unknowns = true →
      max_depth ≤ g.settings.max_depth →
      should_generate_unknown g max_depth ⟨n :: rest, pool⟩
        = .ok (decide (n % (g.settings.max_depth + 1)
            ≤ g.settings.max_depth - max_depth), ⟨rest, pool⟩) := by
    intro max_depth n rest pool hu hle
    unfold should_generate_unknown
    rw [if_pos hu, if_pos hle]
    simp [intInRange, nextNat, bindG, pureG]
  refine ⟨key, ?_, ?_⟩
  · intro max_depth s hu
    unfold should_generate_unknown
    rw [if_neg (by simp [hu])]
    rfl
  · intro hu hmax
    constructor
    · intro n rest pool h
      rw [key g.settings.max_depth n rest pool hu le_rfl] at h
      rw [key 1 n rest pool hu (by omega)]
      have hz : n % (g.settings.max_depth + 1) = 0 := by
        have := (Except.ok.injEq _ _).mp h
        have h2 := congrArg Prod.fst this.symm
        simp only at h2
        have := of_decide_eq_true h2.symm
        omega
      simp [hz]
    · refine ⟨1, ?_, ?_⟩
      · rw [key 1 1 [] [] hu (by omega)]
        have h1 : (1 : Nat) % (g.settings.max_depth + 1) = 1 :=
          Nat.mod_eq_of_lt (by omega)
        simp [h1]
        omega
      · rw [key g.settings.max_depth 1 [] [] hu le_rfl]
        have h1 : (1 : Nat) % (g.settings.max_depth + 1) = 1 :=
          Nat.mod_eq_of_lt (by omega)
        simp [h1]

/-- Witness for C2 at the concrete generator `g0u`
(`settings.max_depth = 3`). -/
theorem should_generate_unknown_spec_witness :
    should_generate_unknown g0u 2 ⟨[1], []⟩ = .ok (true, ⟨[], []⟩) ∧
    should_generate_unknown g0 2 ⟨[1], []⟩ = .ok (false, ⟨[1], []⟩) ∧
    ∃ n : Nat,
      should_generate_unknown g0u 1 ⟨[n], []⟩ = .ok (true, ⟨[], []⟩) ∧
      should_generate_unknown g0u g0u.settings.max_depth ⟨[n], []⟩
        = .ok (false, ⟨[], []⟩) := by
  obtain ⟨k1, k2, k3⟩ := should_generate_unknown_spec g0u
  refine ⟨?_, ?_, (k3 rfl (by decide)).2⟩
  · have := k1 2 1 [] [] rfl (by decide)
    simpa using this
  · exact (should_generate_unknown_spec g0).2.1 2 ⟨[1], []⟩ rfl

/-! Claim C9: the unsigned underflow in `should_generate_unknown` when
`max_depth` exceeds the configured depth. -/

/-- C9: with unknowns enabled, entering `generate_expr_for_type` with
`max_depth > settings.max_depth` makes `should_generate_unknown` compute
`settings.max_depth - max_depth` on an unsigned integer, which underflows
(a panic); so the call fails before any production runs, and panic-freedom
of this entry point needs the precondition
`max_depth ≤ settings.max_depth`. -/
theorem generate_expr_for_type_underflow_panic (g : Gen) (t : Ty)
    (max_depth fuel : Nat) (s : GenState)
    (hu : g.settings.enable_unknowns = true)
    (hd : g.settings.max_depth < max_depth) (hf : 1 ≤ fuel) :
    generate_expr_for_type g t max_depth fuel s = .error .panicked := by
  cases fuel with
  | zero => exact absurd hf (by omega)
  | succ f =>
    have hsgu : ∀ s' : GenState,
        should_generate_unknown g max_depth s' = .error .panicked := by
      intro s'
      unfold should_generate_unknown
      rw [if_pos hu, if_neg (by omega)]
      rfl
    simp only [generate_expr_for_type, bind_eq_bindG]
    rw [bindG_eq_error]
    exact Or.inl (hsgu s)

/-- Witness for C9 at the concrete generator `g0u`
(`settings.max_depth = 3`, `max_depth = 4`). -/
theorem generate_expr_for_type_underflow_panic_witness :
    generate_expr_for_type g0u .bool 4 1 ⟨[0, 0, 0], []⟩
      = .error .panicked := by
  exact generate_expr_for_type_underflow_panic g0u .bool 4 1 ⟨[0, 0, 0], []⟩
    rfl (by decide) (by decide)

theorem bindG_step {α β : Type} {m : GenM α} {f : α → GenM β} {s : GenState}
    {a : α} {s1 : GenState} (h : m s = .ok (a, s1)) :
    bindG m f s = f a s1 := by
  unfold bindG
  rw [h]

theorem should_generate_unknown_off (g : Gen) (max_depth : Nat)
    (hu : g.settings.enable_unknowns = false) (s : GenState) :
    should_generate_unknown g max_depth s = .ok (false, s) := by
  unfold should_generate_unknown
  rw [if_neg (by simp [hu])]
  rfl

/-! Claim C7: `generate_expr_for_type` at type Long and depth 0. -/

/-- C7 counterexample: with unknowns enabled, the unknown short-circuit
always fires at depth 0 (the draw from `[0, max]` is always at most
`max - 0`), so `generate_expr_for_type(Long, 0)` returns an unknown
placeholder, not a long literal. -/
theorem generate_expr_for_type_long_depth0_csx :
    generate_expr_for_type g0u .long 0 5 ⟨[], []⟩
      = .ok (.unknown "unknown0" (some .long), ⟨[], [(Ty.long, ValueM.int 0)]⟩)
    ∧ ¬ ∃ i s', generate_expr_for_type g0u .long 0 5 ⟨[], []⟩
      = .ok (Expr.lit (.int i), s') := by
  refine ⟨rfl, ?_⟩
  rintro ⟨i, s', h⟩
  rw [show generate_expr_for_type g0u .long 0 5 ⟨[], []⟩
      = .ok (.unknown "unknown0" (some .long),
          ⟨[], [(Ty.long, ValueM.int 0)]⟩) from rfl] at h
  simp at h

/-- C7 amended: provided unknown injection is disabled,
`generate_expr_for_type(Long, 0, oracle)` returns a long literal for any
oracle content — in particular never an if-then-else, addition,
subtraction, or multiplication node.  (With unknowns enabled the unknown
short-circuit always fires at depth 0 and an unknown placeholder is
returned instead.) -/
theorem generate_expr_for_type_long_depth0 (g : Gen) (fuel : Nat)
    (s : GenState) (hu : g.settings.enable_unknowns = false)
    (hf : 1 ≤ fuel) :
    ∃ i s', generate_expr_for_type g .long 0 fuel s
      = .ok (Expr.lit (.int i), s') := by
  cases fuel with
  | zero => exact absurd hf (by omega)
  | succ f =>
    obtain ⟨su, sp⟩ := s
    refine ⟨g.constant_pool.int_constants (su.headD 0), ⟨su.tail, sp⟩, ?_⟩
    cases su with
    | nil =>
      simp [generate_expr_for_type, bindG, should_generate_unknown_off g 0 hu,
        oracleLen, nextNat, arbitrary_int_constant, pureG]
    | cons n rest =>
      simp [generate_expr_for_type, bindG, should_generate_unknown_off g 0 hu,
        oracleLen, nextNat, arbitrary_int_constant, pureG]

/-- Witness for the amended C7 at the concrete generator `g0`. -/
theorem generate_expr_for_type_long_depth0_witness :
    ∃ i s', generate_expr_for_type g0 .long 0 5 ⟨[7, 8], []⟩
      = .ok (Expr.lit (.int i), s') :=
  generate_expr_for_type_long_depth0 g0 5 ⟨[7, 8], []⟩ rfl (by omega)

/-! Claim C6: `generate_expr_for_type` at type Record has no terminal
production. -/

/-- C6 counterexample: with unknowns enabled the unknown short-circuit
always fires at depth 0 and `generate_value_for_type(Record, 0)` succeeds
with an empty record, so `generate_expr_for_type(Record, 0)` returns an
unknown placeholder rather than the TooDeep error. -/
theorem generate_expr_for_type_record_terminal_csx :
    generate_expr_for_type g0u .record 0 5 ⟨[], []⟩
      = .ok (.unknown "unknown0" none, ⟨[], [(Ty.record, ValueM.record [])]⟩)
    ∧ generate_expr_for_type g0u .record 0 5 ⟨[], []⟩
      ≠ .error .tooDeep := by
  refine ⟨rfl, ?_⟩
  rw [show generate_expr_for_type g0u .record 0 5 ⟨[], []⟩
      = .ok (.unknown "unknown0" none,
          ⟨[], [(Ty.record, ValueM.record [])]⟩) from rfl]
  simp

/-- C6 amended: provided unknown injection is disabled,
`generate_expr_for_type` at target type Record returns the TooDeep error
whenever `max_depth = 0` or fewer than 10 oracle bytes remain, for any
oracle content: there is no non-recursive record production.  (With
unknowns enabled the short-circuit can return an unknown placeholder
instead.) -/
theorem generate_expr_for_type_record_terminal (g : Gen)
    (max_depth fuel : Nat) (s : GenState)
    (hu : g.settings.enable_unknowns = false)
    (hcond : max_depth = 0 ∨ s.u.length < 10) (hf : 1 ≤ fuel) :
    generate_expr_for_type g .record max_depth fuel s = .error .tooDeep := by
  cases fuel with
  | zero => exact absurd hf (by omega)
  | succ f =>
    rcases hcond with h | h
    · subst h
      simp [generate_expr_for_type, bindG,
        should_generate_unknown_off g 0 hu, oracleLen, throwG]
    · simp [generate_expr_for_type, bindG,
        should_generate_unknown_off g max_depth hu, oracleLen, throwG, h]

/-- Witness for the amended C6 at the concrete generator `g0`. -/
theorem generate_expr_for_type_record_terminal_witness :
    generate_expr_for_type g0 .record 3 5 ⟨[1, 2, 3], []⟩
      = .error .tooDeep :=
  generate_expr_for_type_record_terminal g0 3 5 ⟨[1, 2, 3], []⟩ rfl
    (Or.inr (by decide)) (by omega)

/-! Claim C10: the weight-14 unconditional TooDeep production in the
schematype record menu. -/

/-- C10: in `generate_expr_for_schematype` for a record schema type with
recursion budget left and enough oracle bytes, the weighted menu
`[2, 14, 2, 1, 4, 3, 3]` contains a production of weight 14 — the largest
weight of that menu — that returns TooDeep unconditionally (the
unimplemented `context` production): every draw whose residue modulo the
total weight 29 falls in `[2, 16)` selects it, so schema-record-directed
generation fails with TooDeep on such oracles even though the budget is
not exhausted. -/
theorem generate_expr_for_schematype_record_context_tooDeep :
    (∀ w ∈ ([2, 14, 2, 1, 4, 3, 3] : List Nat), w ≤ 14)
    ∧ ∀ (g : Gen) (attrs : List (String × SchemaTy × Bool)) (addl : Bool)
        (max_depth fuel n : Nat) (rest : List Nat)
        (pool : List (Ty × ValueM)),
        1 ≤ max_depth → 9 ≤ rest.length → 2 ≤ n % 29 → n % 29 < 16 →
        1 ≤ fuel →
        generate_expr_for_schematype g (.record attrs addl) max_depth fuel
          ⟨n :: rest, pool⟩ = .error .tooDeep := by
  constructor
  · decide
  · intro g attrs addl max_depth fuel n rest pool hd hlen hn1 hn2 hf
    cases fuel with
    | zero => exact absurd hf (by omega)
    | succ f =>
      have hidx : weightedIndexAux [2, 14, 2, 1, 4, 3, 3] (n % 29) 0 = 1 := by
        simp only [weightedIndexAux]
        rw [if_neg (by omega), if_pos (by omega)]
      have hno : ¬ (max_depth = 0 ∨ rest.length + 1 < 10) := by omega
      simp [generate_expr_for_schematype, resolveHead, resolveHeadFuel,
        bindG, oracleLen, pickWeighted, nextNat, pureG, hno, hidx, throwG]

/-- Witness for C10 at the concrete generator `g0` with draw 2 (residue 2
selects the weight-14 production). -/
theorem generate_expr_for_schematype_record_context_tooDeep_witness :
    generate_expr_for_schematype g0 (.record [] false) 1 1
      ⟨2 :: List.replicate 9 0, []⟩ = .error .tooDeep :=
  generate_expr_for_schematype_record_context_tooDeep.2 g0 [] false 1 1 2
    (List.replicate 9 0) [] (by omega) (by simp) (by omega) (by omega)
    (by omega)

theorem bindG_pureG {α β : Type} (a : α) (f : α → GenM β) (s : GenState) :
    bindG (pureG a) f s = f a s := rfl

theorem nextNat_eq (s : GenState) :
    nextNat s = .ok (s.u.headD 0, ⟨s.u.tail, s.pool⟩) := by
  obtain ⟨su, sp⟩ := s
  cases su <;> rfl

theorem getD_mem_or {α : Type} :
    ∀ (l : List α) (i : Nat) (d : α), l.getD i d ∈ l ∨ l.getD i d = d
  | [], _, _ => Or.inr rfl
  | x :: xs, 0, d => Or.inl (by simp)
  | x :: xs, i + 1, d => by
    rw [List.getD_cons_succ]
    rcases getD_mem_or xs i d with h | h
    · exact Or.inl (List.mem_cons_of_mem x h)
    · exact Or.inr h

theorem chooseL_mem {α : Type} (xs : List α) (s : GenState) (a : α)
    (s' : GenState) (h : chooseL xs s = .ok (a, s')) : a ∈ xs := by
  cases xs with
  | nil => exact absurd h (by simp [chooseL, throwG])
  | cons x rest =>
    simp only [chooseL, bind_eq_bindG, pure_eq_pureG] at h
    rw [bindG_step (nextNat_eq s)] at h
    rw [show pureG ((x :: rest).getD (s.u.headD 0 % (rest.length + 1)) x)
        ⟨s.u.tail, s.pool⟩
        = Except.ok ((x :: rest).getD (s.u.headD 0 % (rest.length + 1)) x,
            ⟨s.u.tail, s.pool⟩) from rfl] at h
    rw [Except.ok.injEq, Prod.mk.injEq] at h
    obtain ⟨rfl, rfl⟩ := h
    rcases getD_mem_or (x :: rest) (s.u.headD 0 % (rest.length + 1)) x with
      hm | hm
    · exact hm
    · rw [hm]; simp

theorem chooseL_ok {α : Type} (x : α) (rest : List α) (s : GenState) :
    ∃ a s', chooseL (x :: rest) s = .ok (a, s') ∧ a ∈ x :: rest := by
  refine ⟨(x :: rest).getD (s.u.headD 0 % (rest.length + 1)) x,
    ⟨s.u.tail, s.pool⟩, ?_, ?_⟩
  · simp only [chooseL, bind_eq_bindG, pure_eq_pureG]
    rw [bindG_step (nextNat_eq s)]
    rfl
  · rcases getD_mem_or (x :: rest) (s.u.headD 0 % (rest.length + 1)) x with
      hm | hm
    · exact hm
    · rw [hm]; simp

theorem loopM_length {α : Type} (body : GenM α) :
    ∀ (n : Nat) (s : GenState) (l : List α) (s' : GenState),
      loopM body n s = .ok (l, s') → l.length = n := by
  intro n
  induction n with
  | zero =>
    intro s l s' h
    simp only [loopM, pure_eq_pureG, pureG, Except.ok.injEq,
      Prod.mk.injEq] at h
    obtain ⟨rfl, rfl⟩ := h
    rfl
  | succ k ih =>
    intro s l s' h
    simp only [loopM, bind_eq_bindG] at h
    rw [bindG_eq_ok] at h
    obtain ⟨y, s1, hy, h⟩ := h
    rw [bindG_eq_ok] at h
    obtain ⟨rest, s2, hrest, h⟩ := h
    simp only [pure_eq_pureG, pureG, Except.ok.injEq, Prod.mk.injEq] at h
    obtain ⟨rfl, rfl⟩ := h
    simp [ih s1 rest s2 hrest]

theorem mapMG_length {τ α : Type} (f : τ → GenM α) :
    ∀ (ts : List τ) (s : GenState) (l : List α) (s' : GenState),
      mapMG f ts s = .ok (l, s') → l.length = ts.length := by
  intro ts
  induction ts with
  | nil =>
    intro s l s' h
    simp only [mapMG, pure_eq_pureG, pureG, Except.ok.injEq,
      Prod.mk.injEq] at h
    obtain ⟨rfl, rfl⟩ := h
    rfl
  | cons t ts ih =>
    intro s l s' h
    simp only [mapMG, bind_eq_bindG] at h
    rw [bindG_eq_ok] at h
    obtain ⟨y, s1, hy, h⟩ := h
    rw [bindG_eq_ok] at h
    obtain ⟨rest, s2, hrest, h⟩ := h
    simp only [pure_eq_pureG, pureG, Except.ok.injEq, Prod.mk.injEq] at h
    obtain ⟨rfl, rfl⟩ := h
    simp [ih s1 rest s2 hrest]

/-! Claim C5: arity and name fidelity of extension calls when
`enable_arbitrary_func_call` is off. -/

/-- C5: with `enable_arbitrary_func_call = false`, every call produced by
`generate_expr`'s extension-call production and by
`generate_ext_func_call_for_type` carries the name of a function drawn from
the registry and an argument count equal to that function's declared
parameter count (the arity-mismatch and arbitrary-name draws never
happen). -/
theorem ext_call_arity_fidelity :
    (∀ (g : Gen) (max_depth fuel : Nat) (s : GenState) (e : Expr)
        (s' : GenState),
      g.settings.enable_arbitrary_func_call = false →
      generate_expr_ext_branch g max_depth fuel s = .ok (e, s') →
      ∃ f, f ∈ g.ext_funcs.all_funcs ∧ ∃ args,
        e = Expr.call f.name args ∧
        args.length = f.parameter_types.length)
    ∧ (∀ (g : Gen) (t : Ty) (max_depth fuel : Nat) (s : GenState) (e : Expr)
        (s' : GenState),
      g.settings.enable_arbitrary_func_call = false →
      generate_ext_func_call_for_type g t max_depth fuel s = .ok (e, s') →
      ∃ f, f ∈ g.ext_funcs.funcs_for_type t ∧ ∃ args,
        e = Expr.call f.name args ∧
        args.length = f.parameter_types.length) := by
  constructor
  · intro g max_depth fuel s e s' hu hok
    cases fuel with
    | zero =>
      exact absurd hok (by simp [generate_expr_ext_branch, throwG])
    | succ f =>
      cases hext : g.settings.enable_extensions with
      | false =>
        simp only [generate_expr_ext_branch, bind_eq_bindG] at hok
        rw [hext] at hok
        rw [if_neg (by simp)] at hok
        simp [bindG, throwG] at hok
      | true =>
        simp only [generate_expr_ext_branch, bind_eq_bindG] at hok
        simp [bindG_eq_ok, bindG_pureG, pureG, hu, hext] at hok
        obtain ⟨func, s1, hfunc, args, hargs, he⟩ := hok
        exact ⟨func, chooseL_mem _ s func s1 hfunc, args, he.symm,
          loopM_length _ _ s1 args s' hargs⟩
  · intro g t max_depth fuel s e s' hu hok
    cases fuel with
    | zero =>
      exact absurd hok (by simp [generate_ext_func_call_for_type, throwG])
    | succ f =>
      simp only [generate_ext_func_call_for_type, bind_eq_bindG] at hok
      simp [bindG_eq_ok, bindG_pureG, pureG, throwG, apply_ite] at hok
      obtain ⟨func, s1, hfunc, hok⟩ := hok
      have hmem := chooseL_mem (g.ext_funcs.funcs_for_type t) s func s1 hfunc
      by_cases hr : func.return_ty = t
      · rw [if_pos hr] at hok
        simp [bindG_eq_ok, bindG_pureG, pureG] at hok
        obtain ⟨args, hargs, he⟩ := hok
        exact ⟨func, hmem, args, he.symm,
          mapMG_length _ _ s1 args s' hargs⟩
      · rw [if_neg hr] at hok
        simp [bindG, throwG] at hok

/-- Witness for C5 at the one-function registry `g1`. -/
theorem ext_call_arity_fidelity_witness :
    (∃ f, f ∈ g1.ext_funcs.all_funcs ∧ ∃ args,
      Expr.call (cname "foo") [Expr.var Var.context] = Expr.call f.name args ∧
      args.length = f.parameter_types.length)
    ∧ ∃ f, f ∈ g1.ext_funcs.funcs_for_type .bool ∧ ∃ args,
      Expr.call (cname "foo") [Expr.lit (.bool false)] = Expr.call f.name args ∧
      args.length = f.parameter_types.length :=
  ⟨ext_call_arity_fidelity.1 g1 1 2 ⟨[0, 0, 0, 0, 0, 0], []⟩
      (Expr.call (cname "foo") [Expr.var Var.context]) ⟨[0, 0, 0], []⟩
      rfl rfl,
    ext_call_arity_fidelity.2 g1 .bool 0 2 ⟨[0, 0, 0], []⟩
      (Expr.call (cname "foo") [Expr.lit (.bool false)]) ⟨[0], []⟩
      rfl rfl⟩

theorem arbitrary_ip_str_eq (g : Gen) (s : GenState) :
    arbitrary_ip_str g s
      = .ok (g.constant_pool.ip_strs (s.u.headD 0), ⟨s.u.tail, s.pool⟩) := by
  show bindG nextNat _ s = _
  rw [bindG_step (nextNat_eq s)]
  rfl

theorem arbitrary_decimal_str_eq (g : Gen) (s : GenState) :
    arbitrary_decimal_str g s
      = .ok (g.constant_pool.decimal_strs (s.u.headD 0),
          ⟨s.u.tail, s.pool⟩) := by
  show bindG nextNat _ s = _
  rw [bindG_step (nextNat_eq s)]
  rfl

theorem arbitrary_datetime_str_eq (g : Gen) (s : GenState) :
    arbitrary_datetime_str g s
      = .ok (g.constant_pool.datetime_strs (s.u.headD 0),
          ⟨s.u.tail, s.pool⟩) := by
  show bindG nextNat _ s = _
  rw [bindG_step (nextNat_eq s)]
  rfl

theorem arbitrary_duration_str_eq (g : Gen) (s : GenState) :
    arbitrary_duration_str g s
      = .ok (g.constant_pool.duration_strs (s.u.headD 0),
          ⟨s.u.tail, s.pool⟩) := by
  show bindG nextNat _ s = _
  rw [bindG_step (nextNat_eq s)]
  rfl

theorem bindG_pureU {α β : Type} (a : α) (f : α → GenM β) (s : GenState) :
    bindG (pure a) f s = f a s := rfl

theorem arbitrary_ext_constructor_call_shape {E : Type} (g : Gen) (t : Ty)
    (mkStr : String → E) (mkExt : CName → List E → E) (s : GenState) (v : E)
    (s' : GenState)
    (hok : arbitrary_ext_constructor_call_for_type g t mkStr mkExt s
      = .ok (v, s')) :
    ∃ f, f ∈ g.ext_funcs.constructors_for_type t ∧ f.return_ty = t ∧
      ((∃ k, f.name.base = "ip"
          ∧ v = mkExt f.name [mkStr (g.constant_pool.ip_strs k)])
        ∨ (∃ k, f.name.base = "decimal"
          ∧ v = mkExt f.name [mkStr (g.constant_pool.decimal_strs k)])
        ∨ (∃ k, f.name.base = "datetime"
          ∧ v = mkExt f.name [mkStr (g.constant_pool.datetime_strs k)])
        ∨ (∃ k, f.name.base = "duration"
          ∧ v = mkExt f.name [mkStr (g.constant_pool.duration_strs k)])
        ∨ (∃ k1 k2, f.name.base = "offset"
          ∧ v = mkExt f.name
              [mkExt (cname "datetime")
                [mkStr (g.constant_pool.datetime_strs k1)],
               mkExt (cname "duration")
                [mkStr (g.constant_pool.duration_strs k2)]])) := by
  simp only [arbitrary_ext_constructor_call_for_type, bind_eq_bindG,
    ext_arbitrary_constructor_for_type] at hok
  by_cases hext : g.settings.enable_extensions = true
  case neg =>
    rw [if_neg hext] at hok
    simp [bindG, throwG] at hok
  case pos =>
    rw [if_pos hext] at hok
    rw [bindG_eq_ok] at hok
    obtain ⟨func, s1, hfunc, hok⟩ := hok
    have hmem := chooseL_mem _ s func s1 hfunc
    by_cases hr : func.return_ty = t
    case neg =>
      rw [if_neg hr] at hok
      simp [bindG, throwG] at hok
    case pos =>
      rw [if_pos hr, bindG_pureU] at hok
      by_cases hp : func.name.path = []
      case neg =>
        rw [if_neg hp] at hok
        simp [bindG, throwG] at hok
      case pos =>
        rw [if_pos hp, bindG_pureU] at hok
        refine ⟨func, hmem, hr, ?_⟩
        by_cases hb1 : func.name.base = "ip"
        · rw [if_pos hb1] at hok
          rw [bindG_step (arbitrary_ip_str_eq g s1)] at hok
          rw [bindG_pureU] at hok
          split at hok
          · rw [bindG_pureU] at hok
            simp only [pure_eq_pureG, pureG, Except.ok.injEq,
              Prod.mk.injEq] at hok
            obtain ⟨rfl, rfl⟩ := hok.symm
            exact Or.inl ⟨_, hb1, rfl⟩
          · simp [bindG, throwG] at hok
        · rw [if_neg hb1] at hok
          by_cases hb2 : func.name.base = "decimal"
          · rw [if_pos hb2] at hok
            rw [bindG_step (arbitrary_decimal_str_eq g s1)] at hok
            rw [bindG_pureU] at hok
            split at hok
            · rw [bindG_pureU] at hok
              simp only [pure_eq_pureG, pureG, Except.ok.injEq,
                Prod.mk.injEq] at hok
              obtain ⟨rfl, rfl⟩ := hok.symm
              exact Or.inr (Or.inl ⟨_, hb2, rfl⟩)
            · simp [bindG, throwG] at hok
          · rw [if_neg hb2] at hok
            by_cases hb3 : func.name.base = "datetime"
            · rw [if_pos hb3] at hok
              rw [bindG_step (arbitrary_datetime_str_eq g s1)] at hok
              rw [bindG_pureU] at hok
              split at hok
              · rw [bindG_pureU] at hok
                simp only [pure_eq_pureG, pureG, Except.ok.injEq,
                  Prod.mk.injEq] at hok
                obtain ⟨rfl, rfl⟩ := hok.symm
                exact Or.inr (Or.inr (Or.inl ⟨_, hb3, rfl⟩))
              · simp [bindG, throwG] at hok
            · rw [if_neg hb3] at hok
              by_cases hb4 : func.name.base = "offset"
              · rw [if_pos hb4] at hok
                rw [bindG_step (arbitrary_datetime_str_eq g s1)] at hok
                rw [bindG_step (arbitrary_duration_str_eq g _)] at hok
                rw [bindG_pureU] at hok
                split at hok
                · rw [bindG_pureU] at hok
                  simp only [pure_eq_pureG, pureG, Except.ok.injEq,
                    Prod.mk.injEq] at hok
                  obtain ⟨rfl, rfl⟩ := hok.symm
                  exact Or.inr (Or.inr (Or.inr (Or.inr ⟨_, _, hb4, rfl⟩)))
                · simp [bindG, throwG] at hok
              · rw [if_neg hb4] at hok
                by_cases hb5 : func.name.base = "duration"
                · rw [if_pos hb5] at hok
                  rw [bindG_step (arbitrary_duration_str_eq g s1)] at hok
                  rw [bindG_pureU] at hok
                  split at hok
                  · rw [bindG_pureU] at hok
                    simp only [pure_eq_pureG, pureG, Except.ok.injEq,
                      Prod.mk.injEq] at hok
                    obtain ⟨rfl, rfl⟩ := hok.symm
                    exact Or.inr (Or.inr (Or.inr (Or.inl ⟨_, hb5, rfl⟩)))
                  · simp [bindG, throwG] at hok
                · rw [if_neg hb5] at hok
                  simp [bindG, throwG] at hok

theorem arbitrary_ext_constructor_call_ok {E : Type} (g : Gen) (t : Ty)
    (mkStr : String → E) (mkExt : CName → List E → E) (s : GenState)
    (hext : g.settings.enable_extensions = true)
    (hne : g.ext_funcs.constructors_for_type t ≠ [])
    (hwf : ∀ f ∈ g.ext_funcs.constructors_for_type t,
      f.return_ty = t ∧ f.name.path = [] ∧
      (((f.name.base = "ip" ∨ f.name.base = "decimal"
          ∨ f.name.base = "datetime" ∨ f.name.base = "duration")
          ∧ f.parameter_types.length = 1)
        ∨ (f.name.base = "offset" ∧ f.parameter_types.length = 2))) :
    ∃ v s', arbitrary_ext_constructor_call_for_type g t mkStr mkExt s
      = .ok (v, s') := by
  obtain ⟨x, rest, hc⟩ :
      ∃ x rest, g.ext_funcs.constructors_for_type t = x :: rest := by
    cases h : g.ext_funcs.constructors_for_type t with
    | nil => exact absurd h hne
    | cons a b => exact ⟨a, b, rfl⟩
  simp only [arbitrary_ext_constructor_call_for_type, bind_eq_bindG,
    ext_arbitrary_constructor_for_type]
  rw [if_pos hext, hc]
  obtain ⟨f, s1, hch, hmem⟩ := chooseL_ok x rest s
  rw [bindG_step hch]
  rw [← hc] at hmem
  obtain ⟨hr, hp, hshape⟩ := hwf f hmem
  rw [if_pos hr, bindG_pureU, if_pos hp, bindG_pureU]
  rcases hshape with ⟨hb, hlen⟩ | ⟨hb, hlen⟩
  · rcases hb with hb | hb | hb | hb
    · rw [if_pos hb, bindG_step (arbitrary_ip_str_eq g s1), bindG_pureU,
        if_pos (by simp [hlen]), bindG_pureU]
      exact ⟨_, _, rfl⟩
    · rw [if_neg (by rw [hb]; decide), if_pos hb,
        bindG_step (arbitrary_decimal_str_eq g s1), bindG_pureU,
        if_pos (by simp [hlen]), bindG_pureU]
      exact ⟨_, _, rfl⟩
    · rw [if_neg (by rw [hb]; decide), if_neg (by rw [hb]; decide),
        if_pos hb, bindG_step (arbitrary_datetime_str_eq g s1), bindG_pureU,
        if_pos (by simp [hlen]), bindG_pureU]
      exact ⟨_, _, rfl⟩
    · rw [if_neg (by rw [hb]; decide), if_neg (by rw [hb]; decide),
        if_neg (by rw [hb]; decide), if_neg (by rw [hb]; decide),
        if_pos hb, bindG_step (arbitrary_duration_str_eq g s1), bindG_pureU,
        if_pos (by simp [hlen]), bindG_pureU]
      exact ⟨_, _, rfl⟩
  · rw [if_neg (by rw [hb]; decide), if_neg (by rw [hb]; decide),
      if_neg (by rw [hb]; decide), if_pos hb,
      bindG_step (arbitrary_datetime_str_eq g s1)]
    rw [bindG_step (arbitrary_duration_str_eq g _), bindG_pureU,
      if_pos (by simp [hlen]), bindG_pureU]
    exact ⟨_, _, rfl⟩

/-! Claim C4: the literal-only value generators at extension target
types. -/

/-- C4 counterexample: `generate_value_for_type` fails with
`ExtensionsDisabled` on an extension target type even when extensions are
enabled and the budget is not exhausted — its match has no extension arm,
so it never produces a constructor call. -/
theorem generate_value_for_type_ext_csx :
    g0.settings.enable_extensions = true ∧
    generate_value_for_type g0 .ipaddr 1 1 ⟨[], []⟩
      = .error .extensionsDisabled :=
  ⟨rfl, rfl⟩

/-- C4 amended: `generate_value_for_type` always fails with
`ExtensionsDisabled` on extension target types, regardless of settings or
budget.  `generate_attr_value_for_type` is the generator the claim
describes: it fails with TooDeep at depth 0 and with `ExtensionsDisabled`
when extensions are off; every success is a call of a registry constructor
for the target type applied to a pool-drawn string literal (`ip`,
`decimal`, `datetime`, `duration`) or, for the two-argument `offset`
constructor, to nested `datetime`/`duration` constructor calls on
pool-drawn literals; and with budget left, extensions on, and a well-formed
nonempty constructor registry it succeeds. -/
theorem ext_value_generators_spec :
    (∀ (g : Gen) (t : Ty) (max_depth fuel : Nat) (s : GenState),
      (t = .ipaddr ∨ t = .decimal ∨ t = .datetime ∨ t = .duration) →
      1 ≤ fuel →
      generate_value_for_type g t max_depth fuel s
        = .error .extensionsDisabled)
    ∧ (∀ (g : Gen) (t : Ty) (fuel : Nat) (s : GenState),
      (t = .ipaddr ∨ t = .decimal ∨ t = .datetime ∨ t = .duration) →
      1 ≤ fuel →
      generate_attr_value_for_type g t 0 fuel s = .error .tooDeep)
    ∧ (∀ (g : Gen) (t : Ty) (max_depth fuel : Nat) (s : GenState),
      (t = .ipaddr ∨ t = .decimal ∨ t = .datetime ∨ t = .duration) →
      1 ≤ max_depth → 1 ≤ fuel →
      g.settings.enable_extensions = false →
      generate_attr_value_for_type g t max_depth fuel s
        = .error .extensionsDisabled)
    ∧ (∀ (g : Gen) (t : Ty) (max_depth fuel : Nat) (s : GenState)
        (v : AttrValueM) (s' : GenState),
      (t = .ipaddr ∨ t = .decimal ∨ t = .datetime ∨ t = .duration) →
      generate_attr_value_for_type g t max_depth fuel s = .ok (v, s') →
      CtorCallShape g t v)
    ∧ (∀ (g : Gen) (t : Ty) (max_depth fuel : Nat) (s : GenState),
      (t = .ipaddr ∨ t = .decimal ∨ t = .datetime ∨ t = .duration) →
      1 ≤ max_depth → 1 ≤ fuel →
      g.settings.enable_extensions = true →
      g.ext_funcs.constructors_for_type t ≠ [] →
      (∀ f ∈ g.ext_funcs.constructors_for_type t,
        f.return_ty = t ∧ f.name.path = [] ∧
        (((f.name.base = "ip" ∨ f.name.base = "decimal"
            ∨ f.name.base = "datetime" ∨ f.name.base = "duration")
            ∧ f.parameter_types.length = 1)
          ∨ (f.name.base = "offset" ∧ f.parameter_types.length = 2))) →
      ∃ v s', generate_attr_value_for_type g t max_depth fuel s
        = .ok (v, s')) := by
  refine ⟨?_, ?_, ?_, ?_, ?_⟩
  · intro g t max_depth fuel s ht hf
    cases fuel with
    | zero => exact absurd hf (by omega)
    | succ f => rcases ht with rfl | rfl | rfl | rfl <;> rfl
  · intro g t fuel s ht hf
    cases fuel with
    | zero => exact absurd hf (by omega)
    | succ f => rcases ht with rfl | rfl | rfl | rfl <;> rfl
  · intro g t max_depth fuel s ht hd hf hext
    cases fuel with
    | zero => exact absurd hf (by omega)
    | succ f =>
      cases max_depth with
      | zero => exact absurd hd (by omega)
      | succ d =>
        rcases ht with rfl | rfl | rfl | rfl <;>
          simp [generate_attr_value_for_type,
            arbitrary_ext_constructor_call_for_type,
            ext_arbitrary_constructor_for_type, hext, bindG, throwG]
  · intro g t max_depth fuel s v s' ht hok
    cases fuel with
    | zero =>
      rcases ht with rfl | rfl | rfl | rfl <;>
        exact absurd hok (by simp [generate_attr_value_for_type, throwG])
    | succ f =>
      by_cases hd0 : max_depth = 0
      · subst hd0
        rcases ht with rfl | rfl | rfl | rfl <;>
          exact absurd hok (by simp [generate_attr_value_for_type, throwG])
      · rcases ht with rfl | rfl | rfl | rfl <;>
        · simp only [generate_attr_value_for_type] at hok
          rw [if_neg hd0] at hok
          exact arbitrary_ext_constructor_call_shape g _ _ _ s v s' hok
  · intro g t max_depth fuel s ht hd hf hext hne hwf
    cases fuel with
    | zero => exact absurd hf (by omega)
    | succ f =>
      cases max_depth with
      | zero => exact absurd hd (by omega)
      | succ d =>
        rcases ht with rfl | rfl | rfl | rfl <;>
        · simp only [generate_attr_value_for_type]
          rw [if_neg (Nat.succ_ne_zero d)]
          exact arbitrary_ext_constructor_call_ok g _ _ _ s hext hne hwf

/-- Witness for C4 at the concrete registries `g0`, `g0d`, `g1`. -/
theorem ext_value_generators_spec_witness :
    generate_value_for_type g0 .decimal 2 1 ⟨[], []⟩
      = .error .extensionsDisabled
    ∧ generate_attr_value_for_type g1 .ipaddr 0 1 ⟨[0, 0], []⟩
      = .error .tooDeep
    ∧ generate_attr_value_for_type g0d .ipaddr 1 1 ⟨[0, 0], []⟩
      = .error .extensionsDisabled
    ∧ CtorCallShape g1 .ipaddr
        (.extFuncCall (cname "ip") [.stringLit "ip0"])
    ∧ ∃ v s', generate_attr_value_for_type g1 .ipaddr 1 1 ⟨[0, 0], []⟩
      = .ok (v, s') := by
  obtain ⟨h1, h2, h3, h4, h5⟩ := ext_value_generators_spec
  refine ⟨h1 g0 .decimal 2 1 ⟨[], []⟩ (Or.inr (Or.inl rfl)) (by omega),
    h2 g1 .ipaddr 1 ⟨[0, 0], []⟩ (Or.inl rfl) (by omega),
    h3 g0d .ipaddr 1 1 ⟨[0, 0], []⟩ (Or.inl rfl) (by omega) (by omega) rfl,
    h4 g1 .ipaddr 1 1 ⟨[0, 0], []⟩
      (.extFuncCall (cname "ip") [.stringLit "ip0"]) ⟨[], []⟩
      (Or.inl rfl) rfl,
    h5 g1 .ipaddr 1 1 ⟨[0, 0], []⟩ (Or.inl rfl) (by omega) (by omega) rfl
      (by decide) (by decide)⟩

theorem overlayM_step_true {α : Type} (force : Bool) (gv : SchemaTy → GenM α)
    (a : String) (ty : SchemaTy) (rest : List (String × SchemaTy × Bool))
    (r r' : List (String × α)) (s s' : GenState)
    (hok : (bindG (gv ty)
        (fun v => overlayM force gv rest (insertA r a v))) s = .ok (r', s'))
    (ih : ∀ (r : List (String × α)) (s : GenState) (r' : List (String × α))
        (s' : GenState), overlayM force gv rest r s = .ok (r', s') →
        (∀ b, b ∈ keys r → b ∈ keys r')
        ∧ (∀ p ∈ rest, p.2.2 = true → p.1 ∈ keys r')) :
    (∀ b, b ∈ keys r → b ∈ keys r')
    ∧ a ∈ keys r'
    ∧ (∀ p ∈ rest, p.2.2 = true → p.1 ∈ keys r') := by
  rw [bindG_eq_ok] at hok
  obtain ⟨v, s2, hv, hok⟩ := hok
  obtain ⟨hkeep, hreq⟩ := ih (insertA r a v) s2 r' s' hok
  refine ⟨fun b hb => hkeep b ((keys_insertA r a v b).mpr (Or.inr hb)),
    hkeep a ((keys_insertA r a v a).mpr (Or.inl rfl)), hreq⟩

theorem overlayM_keys {α : Type} (force : Bool) (gv : SchemaTy → GenM α) :
    ∀ (attrs : List (String × SchemaTy × Bool)) (r : List (String × α))
      (s : GenState) (r' : List (String × α)) (s' : GenState),
      overlayM force gv attrs r s = .ok (r', s') →
      (∀ a, a ∈ keys r → a ∈ keys r')
      ∧ (∀ p ∈ attrs, p.2.2 = true → p.1 ∈ keys r') := by
  intro attrs
  induction attrs with
  | nil =>
    intro r s r' s' hok
    simp only [overlayM, pure_eq_pureG, pureG, Except.ok.injEq,
      Prod.mk.injEq] at hok
    obtain ⟨rfl, rfl⟩ := hok
    exact ⟨fun a ha => ha, fun p hp => absurd hp (by simp)⟩
  | cons hd rest ih =>
    obtain ⟨a, ty, req⟩ := hd
    intro r s r' s' hok
    simp only [overlayM, bind_eq_bindG] at hok
    have hhead : ∀ p ∈ [(a, ty, req)] ++ rest, p = (a, ty, req) ∨ p ∈ rest := by
      intro p hp; exact List.mem_cons.mp hp
    by_cases hreq : req = true
    · rw [if_pos hreq, bindG_pureU, if_pos rfl] at hok
      obtain ⟨hkeep, hmem, hrest⟩ := overlayM_step_true force gv a ty rest
        r r' s s' hok ih
      refine ⟨hkeep, ?_⟩
      intro p hp hpreq
      rcases List.mem_cons.mp hp with rfl | hp
      · exact hmem
      · exact hrest p hp hpreq
    · rw [if_neg hreq] at hok
      by_cases hfc : (force && (keys r).contains a) = true
      · rw [if_pos hfc, bindG_pureU, if_pos rfl] at hok
        obtain ⟨hkeep, hmem, hrest⟩ := overlayM_step_true force gv a ty rest
          r r' s s' hok ih
        refine ⟨hkeep, ?_⟩
        intro p hp hpreq
        rcases List.mem_cons.mp hp with rfl | hp
        · exact hmem
        · exact hrest p hp hpreq
      · rw [if_neg hfc, bindG_eq_ok] at hok
        obtain ⟨b, s1, hb, hok⟩ := hok
        cases b with
        | true =>
          rw [if_pos rfl] at hok
          obtain ⟨hkeep, hmem, hrest⟩ := overlayM_step_true force gv a ty rest
            r r' s1 s' hok ih
          refine ⟨hkeep, ?_⟩
          intro p hp hpreq
          rcases List.mem_cons.mp hp with rfl | hp
          · exact hmem
          · exact hrest p hp hpreq
        | false =>
          rw [if_neg (by simp)] at hok
          obtain ⟨hkeep, hrest⟩ := ih r s1 r' s' hok
          refine ⟨hkeep, ?_⟩
          intro p hp hpreq
          rcases List.mem_cons.mp hp with rfl | hp
          · exact absurd hpreq hreq
          · exact hrest p hp hpreq

theorem overlayM_forced_single {α : Type} (gv : SchemaTy → GenM α)
    (a : String) (ty : SchemaTy) (r : List (String × α)) (s : GenState)
    (hmem : a ∈ keys r) :
    overlayM true gv [(a, ty, false)] r s
      = bindG (gv ty) (fun v => pureG (insertA r a v)) s := by
  have hc : (keys r).contains a = true := (contains_iff_mem _ _).mpr hmem
  simp only [overlayM, bind_eq_bindG, Bool.false_eq_true, if_false,
    Bool.true_and, hc, if_true, bindG_pureU]
  rfl

theorem overlayM_skip_single {α : Type} (gv : SchemaTy → GenM α)
    (a : String) (ty : SchemaTy) (r : List (String × α)) (n : Nat)
    (rest : List Nat) (pool : List (Ty × ValueM)) (hodd : ¬ n % 2 < 1) :
    overlayM false gv [(a, ty, false)] r ⟨n :: rest, pool⟩
      = .ok (r, ⟨rest, pool⟩) := by
  simp only [overlayM, bind_eq_bindG, Bool.false_eq_true, if_false,
    Bool.false_and, ratioM, bind_eq_bindG]
  have hd : decide (n % 2 < 1) = false := by simpa using hodd
  rw [show (bindG (bindG nextNat fun m => pure (decide (m % 2 < 1)))
      (fun y => if y = true
        then bindG (gv ty) (fun v => pure (insertA r a v)) else pure r))
      ⟨n :: rest, pool⟩
    = (if decide (n % 2 < 1) = true
        then bindG (gv ty) (fun v => pure (insertA r a v)) else pure r)
      ⟨rest, pool⟩ from rfl, hd]
  rfl

theorem resolveHead_record (g : Gen) (attrs : List (String × SchemaTy × Bool))
    (addl : Bool) :
    resolveHead g (.record attrs addl) = some (.record attrs addl) := by
  simp [resolveHead, resolveHeadFuel]

theorem oracleLen_eq (s : GenState) : oracleLen s = .ok (s.u.length, s) := rfl

theorem pickWeighted_eq (w : List Nat) (s : GenState) :
    pickWeighted w s
      = .ok (weightedIndexAux w (s.u.headD 0 % w.sum) 0,
          ⟨s.u.tail, s.pool⟩) := by
  simp [pickWeighted, bind_eq_bindG, bindG, nextNat_eq, pure_eq_pureG, pureG]

theorem extFS_record_ne_ok (g : Gen)
    (attrs : List (String × SchemaTy × Bool)) (addl : Bool)
    (d fuel : Nat) (s : GenState) (x : Expr × GenState) :
    generate_ext_func_call_for_schematype g (.record attrs addl) d fuel s
      ≠ .ok x := by
  cases fuel with
  | zero => simp [generate_ext_func_call_for_schematype, throwG]
  | succ fuel =>
    simp [generate_ext_func_call_for_schematype, resolveHead_record, throwG]

theorem fS_record_required (g : Gen)
    (attrs : List (String × SchemaTy × Bool)) (addl : Bool)
    (d fuel : Nat) (s : GenState) (l : List (String × Expr)) (s' : GenState)
    (hok : generate_expr_for_schematype g (.record attrs addl) d fuel s
      = .ok (.record l, s')) :
    ∀ a ty, (a, ty, true) ∈ attrs → a ∈ keys l := by
  cases fuel with
  | zero => simp [generate_expr_for_schematype, throwG] at hok
  | succ fuel =>
    simp only [generate_expr_for_schematype, resolveHead_record,
      bind_eq_bindG] at hok
    rw [bindG_step (oracleLen_eq s)] at hok
    by_cases hshort : d = 0 ∨ s.u.length < 10
    · rw [if_pos hshort] at hok
      simp [throwG] at hok
    · rw [if_neg hshort] at hok
      rw [bindG_step (pickWeighted_eq [2, 14, 2, 1, 4, 3, 3] s)] at hok
      generalize weightedIndexAux [2, 14, 2, 1, 4, 3, 3]
        (s.u.headD 0 % [2, 14, 2, 1, 4, 3, 3].sum) 0 = i at hok
      match i with
      | 0 =>
        simp only [] at hok
        by_cases haddl : addl = true
        · rw [if_pos haddl, bindG_eq_ok] at hok
          obtain ⟨c, s1, hc, hok⟩ := hok
          rw [bindG_eq_ok] at hok
          obtain ⟨r0, s2, hr0, hok⟩ := hok
          rw [bindG_eq_ok] at hok
          obtain ⟨r, s3, hov, hok⟩ := hok
          simp only [pure_eq_pureG, pureG, Except.ok.injEq, Prod.mk.injEq,
            Expr.record.injEq] at hok
          obtain ⟨rfl, rfl⟩ := hok
          intro a ty hmem
          exact (overlayM_keys false _ attrs r0 s2 r s3 hov).2
            (a, ty, true) hmem rfl
        · rw [if_neg haddl, bindG_pureU, bindG_eq_ok] at hok
          obtain ⟨r, s2, hov, hok⟩ := hok
          simp only [pure_eq_pureG, pureG, Except.ok.injEq, Prod.mk.injEq,
            Expr.record.injEq] at hok
          obtain ⟨rfl, rfl⟩ := hok
          intro a ty hmem
          exact (overlayM_keys false _ attrs [] _ r s2 hov).2
            (a, ty, true) hmem rfl
      | 1 => simp [throwG] at hok
      | 2 => simp [bindG_eq_ok, pure_eq_pureG, pureG] at hok
      | 3 => exact absurd hok (extFS_record_ne_ok g attrs addl (d - 1) fuel _ _)
      | 4 => simp [bindG_eq_ok, pure_eq_pureG, pureG] at hok
      | 5 => simp [bindG_eq_ok, pure_eq_pureG, pureG] at hok
      | (j + 6) => simp [bindG_eq_ok, pure_eq_pureG, pureG] at hok

theorem aFS_record_required (g : Gen)
    (attrs : List (String × SchemaTy × Bool)) (addl : Bool)
    (d fuel : Nat) (s : GenState) (v : AttrValueM) (s' : GenState)
    (hok : generate_attr_value_for_schematype g (.record attrs addl) d fuel s
      = .ok (v, s')) :
    ∃ r, v = .record r ∧ ∀ a ty, (a, ty, true) ∈ attrs → a ∈ keys r := by
  cases fuel with
  | zero => simp [generate_attr_value_for_schematype, throwG] at hok
  | succ fuel =>
    simp only [generate_attr_value_for_schematype, resolveHead_record,
      bind_eq_bindG] at hok
    by_cases hd0 : d = 0
    · rw [if_pos hd0] at hok
      simp [throwG] at hok
    · rw [if_neg hd0] at hok
      by_cases haddl : addl = true
      · rw [if_pos haddl, bindG_eq_ok] at hok
        obtain ⟨c, s1, hc, hok⟩ := hok
        rw [bindG_eq_ok] at hok
        obtain ⟨r0, s2, hr0, hok⟩ := hok
        rw [bindG_eq_ok] at hok
        obtain ⟨r, s3, hov, hok⟩ := hok
        simp only [pure_eq_pureG, pureG, Except.ok.injEq, Prod.mk.injEq] at hok
        obtain ⟨rfl, rfl⟩ := hok
        refine ⟨r, rfl, fun a ty hmem => ?_⟩
        exact (overlayM_keys true _ attrs r0 s2 r s3 hov).2
          (a, ty, true) hmem rfl
      · rw [if_neg haddl, bindG_pureU, bindG_eq_ok] at hok
        obtain ⟨r, s2, hov, hok⟩ := hok
        simp only [pure_eq_pureG, pureG, Except.ok.injEq, Prod.mk.injEq] at hok
        obtain ⟨rfl, rfl⟩ := hok
        refine ⟨r, rfl, fun a ty hmem => ?_⟩
        exact (overlayM_keys true _ attrs [] _ r s2 hov).2
          (a, ty, true) hmem rfl

theorem vFS_record_required (g : Gen)
    (attrs : List (String × SchemaTy × Bool)) (addl : Bool)
    (d fuel : Nat) (s : GenState) (v : ValueM) (s' : GenState)
    (hok : generate_value_for_schematype g (.record attrs addl) d fuel s
      = .ok (v, s')) :
    ∃ r, v = .record r ∧ ∀ a ty, (a, ty, true) ∈ attrs → a ∈ keys r := by
  cases fuel with
  | zero => simp [generate_value_for_schematype, throwG] at hok
  | succ fuel =>
    simp only [generate_value_for_schematype, resolveHead_record,
      bind_eq_bindG] at hok
    by_cases hd0 : d = 0
    · rw [if_pos hd0] at hok
      simp [throwG] at hok
    · rw [if_neg hd0] at hok
      by_cases haddl : addl = true
      · rw [if_pos haddl, bindG_eq_ok] at hok
        obtain ⟨c, s1, hc, hok⟩ := hok
        rw [bindG_eq_ok] at hok
        obtain ⟨r0, s2, hr0, hok⟩ := hok
        rw [bindG_eq_ok] at hok
        obtain ⟨r, s3, hov, hok⟩ := hok
        simp only [pure_eq_pureG, pureG, Except.ok.injEq, Prod.mk.injEq] at hok
        obtain ⟨rfl, rfl⟩ := hok
        refine ⟨r, rfl, fun a ty hmem => ?_⟩
        exact (overlayM_keys true _ attrs r0 s2 r s3 hov).2
          (a, ty, true) hmem rfl
      · rw [if_neg haddl, bindG_pureU, bindG_eq_ok] at hok
        obtain ⟨r, s2, hov, hok⟩ := hok
        simp only [pure_eq_pureG, pureG, Except.ok.injEq, Prod.mk.injEq] at hok
        obtain ⟨rfl, rfl⟩ := hok
        refine ⟨r, rfl, fun a ty hmem => ?_⟩
        exact (overlayM_keys true _ attrs [] _ r s2 hov).2
          (a, ty, true) hmem rfl

/-- C3 counterexample: in `generate_expr_for_schematype`, a declared
optional attribute whose name collides with a previously injected
synthetic "additional" attribute is NOT forcibly included: on an odd
overlay coin the synthetic entry survives, so the record binds `"a"`
(declared Boolean) to a string literal.  The run: menu draw 0 selects the
record production, the additional-attribute loop runs once and inserts
`("a", "s7")` (a string expression), and the overlay coin draw 1 skips
the declared Boolean attribute `"a"` despite the collision. -/
theorem generate_expr_for_schematype_no_forced_overwrite_csx :
    tC = SchemaTy.record [("a", SchemaTy.boolean, false)] true
    ∧ generate_expr_for_schematype gC tC 1 9
        ⟨[0, 1, 0, 0, 7, 1, 0, 0, 0, 0], []⟩
      = .ok (.record [("a", .lit (.string "s7"))], ⟨[0, 0, 0, 0], []⟩) :=
  ⟨rfl, rfl⟩

/-- C3 (amended): record literals produced by all three
schema-type-directed generators for a record schema type contain every
required declared attribute.  The forced inclusion of an optional
declared attribute whose name collides with a synthetic "additional"
attribute holds only in the attribute-value and value generators, whose
record overlay forces inclusion on collision and regenerates the value at
the declared type, overwriting the synthetic entry.  The expression
generator `generate_expr_for_schematype` omits the collision check: its
overlay still skips a colliding optional attribute whenever the 1/2 coin
draw is odd, leaving the synthetic entry (of a possibly different type)
in place. -/
theorem record_required_and_collision_overlay :
    (∀ (g : Gen) (attrs : List (String × SchemaTy × Bool)) (addl : Bool)
       (d fuel : Nat) (s : GenState) (l : List (String × Expr))
       (s' : GenState),
       generate_expr_for_schematype g (.record attrs addl) d fuel s
         = .ok (.record l, s') →
       ∀ a ty, (a, ty, true) ∈ attrs → a ∈ keys l)
    ∧ (∀ (g : Gen) (attrs : List (String × SchemaTy × Bool)) (addl : Bool)
       (d fuel : Nat) (s : GenState) (v : AttrValueM) (s' : GenState),
       generate_attr_value_for_schematype g (.record attrs addl) d fuel s
         = .ok (v, s') →
       ∃ r, v = .record r ∧ ∀ a ty, (a, ty, true) ∈ attrs → a ∈ keys r)
    ∧ (∀ (g : Gen) (attrs : List (String × SchemaTy × Bool)) (addl : Bool)
       (d fuel : Nat) (s : GenState) (v : ValueM) (s' : GenState),
       generate_value_for_schematype g (.record attrs addl) d fuel s
         = .ok (v, s') →
       ∃ r, v = .record r ∧ ∀ a ty, (a, ty, true) ∈ attrs → a ∈ keys r)
    ∧ (∀ (g : Gen) (a : String) (ty : SchemaTy)
       (r : List (String × AttrValueM)) (s : GenState) (d fuel : Nat),
       a ∈ keys r →
       overlayM true
         (fun t2 => generate_attr_value_for_schematype g t2 d fuel)
         [(a, ty, false)] r s
       = bindG (generate_attr_value_for_schematype g ty d fuel)
           (fun v => pureG (insertA r a v)) s)
    ∧ (∀ (g : Gen) (a : String) (ty : SchemaTy) (r : List (String × Expr))
       (n : Nat) (rest : List Nat) (pool : List (Ty × ValueM))
       (d fuel : Nat), ¬ n % 2 < 1 →
       overlayM false
         (fun t2 => generate_expr_for_schematype g t2 d fuel)
         [(a, ty, false)] r ⟨n :: rest, pool⟩
       = .ok (r, ⟨rest, pool⟩)) :=
  ⟨fS_record_required, aFS_record_required, vFS_record_required,
    fun g a ty r s d fuel hmem =>
      overlayM_forced_single
        (fun t2 => generate_attr_value_for_schematype g t2 d fuel)
        a ty r s hmem,
    fun g a ty r n rest pool d fuel hodd =>
      overlayM_skip_single
        (fun t2 => generate_expr_for_schematype g t2 d fuel)
        a ty r n rest pool hodd⟩

/-- Witness for the amended C3: a concrete run with a required Boolean
attribute yields a record containing it. -/
theorem record_required_and_collision_overlay_witness :
    "a" ∈ keys [("a", Expr.lit (Lit.bool false))] :=
  record_required_and_collision_overlay.1 g0
    [("a", SchemaTy.boolean, true)] false 1 9 ⟨List.replicate 10 0, []⟩
    [("a", Expr.lit (Lit.bool false))] ⟨List.replicate 8 0, []⟩ rfl
    "a" SchemaTy.boolean (by simp)

theorem SatG_pure {α : Type} {P : α → Bool} {a : α} (h : P a = true) :
    SatG (pure a) P := by
  intro s b s' hok
  simp only [pure_eq_pureG, pureG, Except.ok.injEq, Prod.mk.injEq] at hok
  obtain ⟨rfl, rfl⟩ := hok
  exact h

theorem SatG_throw {α : Type} {P : α → Bool} (e : Err) : SatG (throwG e) P := by
  intro s b s' hok
  simp [throwG] at hok

theorem SatG_bind {α β : Type} {m : GenM α} {Q : α → Bool} {f : α → GenM β}
    {P : β → Bool} (hm : SatG m Q)
    (hf : ∀ a, Q a = true → SatG (f a) P) : SatG (bindG m f) P := by
  intro s b s' hok
  rw [bindG_eq_ok] at hok
  obtain ⟨a, s1, ha, hok⟩ := hok
  exact hf a (hm s a s1 ha) s1 b s' hok

theorem SatG_true {α : Type} (m : GenM α) : SatG m (fun _ => true) :=
  fun _ _ _ _ => rfl

theorem SatG_bindA {α β : Type} {m : GenM α} {f : α → GenM β} {P : β → Bool}
    (hf : ∀ a, SatG (f a) P) : SatG (bindG m f) P :=
  SatG_bind (SatG_true m) (fun a _ => hf a)

theorem SatG_ite {α : Type} {P : α → Bool} {c : Prop} [Decidable c]
    {A B : GenM α} (hA : SatG A P) (hB : SatG B P) :
    SatG (if c then A else B) P := by
  by_cases h : c
  · rw [if_pos h]; exact hA
  · rw [if_neg h]; exact hB

theorem SatG_loopM {α : Type} {m : GenM α} {P : α → Bool} (hm : SatG m P) :
    ∀ c, SatG (loopM m c) (fun l => l.all P) := by
  intro c
  induction c with
  | zero => exact SatG_pure rfl
  | succ c ih =>
    simp only [loopM, bind_eq_bindG]
    refine SatG_bind hm (fun x hx => SatG_bind ih (fun l hl => SatG_pure ?_))
    simp [List.all_cons, hx, hl]

theorem SatG_mapMG {τ α : Type} {f : τ → GenM α} {P : α → Bool}
    (hf : ∀ t, SatG (f t) P) :
    ∀ ts, SatG (mapMG f ts) (fun l => l.all P) := by
  intro ts
  induction ts with
  | nil => exact SatG_pure rfl
  | cons t ts ih =>
    simp only [mapMG, bind_eq_bindG]
    refine SatG_bind (hf t)
      (fun x hx => SatG_bind ih (fun l hl => SatG_pure ?_))
    simp [List.all_cons, hx, hl]

theorem insertA_all {α : Type} {Pv : α → Bool} :
    ∀ (r : List (String × α)) (a : String) (v : α),
      r.all (fun p => Pv p.2) = true → Pv v = true →
      (insertA r a v).all (fun p => Pv p.2) = true := by
  intro r
  induction r with
  | nil => intro a v _ hv; simpa [insertA]
  | cons hd tl ih =>
    intro a v hall hv
    simp only [List.all_cons, Bool.and_eq_true] at hall
    by_cases he : hd.1 = a
    · simp only [insertA, he, if_pos rfl]
      simp [List.all_cons, hv, hall.2]
    · simp only [insertA, if_neg he]
      simp [List.all_cons, hall.1, ih a v hall.2 hv]

theorem SatG_kvLoopM {α : Type} {body : GenM (String × α)} {Pv : α → Bool}
    (hb : SatG body (fun p => Pv p.2)) :
    ∀ (c : Nat) (r : List (String × α)), nodupKeys r = true →
      r.all (fun p => Pv p.2) = true →
      SatG (kvLoopM body c r)
        (fun r2 => nodupKeys r2 && r2.all (fun p => Pv p.2)) := by
  intro c
  induction c with
  | zero =>
    intro r hnd hall
    exact SatG_pure (by simp [hnd, hall])
  | succ c ih =>
    intro r hnd hall
    simp only [kvLoopM, bind_eq_bindG]
    refine SatG_bind hb (fun p hp => ?_)
    exact ih (insertA r p.1 p.2) (nodupKeys_insertA r p.1 p.2 hnd)
      (insertA_all r p.1 p.2 hall hp)

theorem SatG_overlayM {α : Type} {force : Bool} {gv : SchemaTy → GenM α}
    {Pv : α → Bool} (hgv : ∀ ty, SatG (gv ty) Pv) :
    ∀ (attrs : List (String × SchemaTy × Bool)) (r : List (String × α)),
      nodupKeys r = true → r.all (fun p => Pv p.2) = true →
      SatG (overlayM force gv attrs r)
        (fun r2 => nodupKeys r2 && r2.all (fun p => Pv p.2)) := by
  intro attrs
  induction attrs with
  | nil =>
    intro r hnd hall
    exact SatG_pure (by simp [hnd, hall])
  | cons hd rest ih =>
    obtain ⟨a, ty, req⟩ := hd
    intro r hnd hall
    simp only [overlayM, bind_eq_bindG]
    have hKtrue : SatG (bindG (gv ty)
        (fun v => overlayM force gv rest (insertA r a v)))
        (fun r2 => nodupKeys r2 && r2.all (fun p => Pv p.2)) :=
      SatG_bind (hgv ty) (fun v hv =>
        ih (insertA r a v) (nodupKeys_insertA r a v hnd)
          (insertA_all r a v hall hv))
    have hKfalse : SatG (overlayM force gv rest r)
        (fun r2 => nodupKeys r2 && r2.all (fun p => Pv p.2)) :=
      ih r hnd hall
    refine SatG_ite ?_ (SatG_ite ?_ ?_) <;>
      refine SatG_bindA (fun y => ?_) <;> cases y <;>
      simp only [Bool.false_eq_true, if_false, if_pos rfl] <;>
      first
        | exact hKtrue
        | exact hKfalse

theorem exprListOk_eq_all :
    ∀ l : List Expr, exprListOk l = l.all exprOk := by
  intro l
  induction l with
  | nil => rfl
  | cons e es ih => simp [exprListOk, List.all_cons, ih]

theorem exprPairsOk_eq_all :
    ∀ l : List (String × Expr),
      exprPairsOk l = l.all (fun p => exprOk p.2) := by
  intro l
  induction l with
  | nil => rfl
  | cons p ps ih =>
    obtain ⟨a, e⟩ := p
    simp [exprPairsOk, List.all_cons, ih]

theorem attrValueListOk_eq_all :
    ∀ l : List AttrValueM, attrValueListOk l = l.all attrValueOk := by
  intro l
  induction l with
  | nil => rfl
  | cons v vs ih => simp [attrValueListOk, List.all_cons, ih]

theorem attrValuePairsOk_eq_all :
    ∀ l : List (String × AttrValueM),
      attrValuePairsOk l = l.all (fun p => attrValueOk p.2) := by
  intro l
  induction l with
  | nil => rfl
  | cons p ps ih =>
    obtain ⟨a, v⟩ := p
    simp [attrValuePairsOk, List.all_cons, ih]

theorem valueListOk_eq_all :
    ∀ l : List ValueM, valueListOk l = l.all valueOk := by
  intro l
  induction l with
  | nil => rfl
  | cons v vs ih => simp [valueListOk, List.all_cons, ih]

theorem valuePairsOk_eq_all :
    ∀ l : List (String × ValueM),
      valuePairsOk l = l.all (fun p => valueOk p.2) := by
  intro l
  induction l with
  | nil => rfl
  | cons p ps ih =>
    obtain ⟨a, v⟩ := p
    simp [valuePairsOk, List.all_cons, ih]

theorem SatG_generate_literal (g : Gen) : SatG (generate_literal g) exprOk := by
  simp only [generate_literal, bind_eq_bindG]
  refine SatG_bindA (fun i => ?_)
  match i with
  | 0 => exact SatG_bindA (fun n => SatG_pure rfl)
  | 1 => exact SatG_bindA (fun v => SatG_pure rfl)
  | 2 => exact SatG_bindA (fun v => SatG_pure rfl)
  | 3 => exact SatG_bindA (fun uid => SatG_pure rfl)
  | (k + 4) => exact SatG_bindA (fun n => SatG_pure rfl)

theorem SatG_generate_literal_or_var (g : Gen) :
    SatG (generate_literal_or_var g) exprOk := by
  simp only [generate_literal_or_var, bind_eq_bindG]
  refine SatG_bindA (fun b => ?_)
  cases b
  · simp only [Bool.false_eq_true, if_false]
    exact SatG_generate_literal g
  · simp only [if_pos rfl, bind_eq_bindG]
    exact SatG_bindA (fun n => SatG_pure rfl)

theorem SatG_ext_ctor_expr (g : Gen) (t : Ty) :
    SatG (arbitrary_ext_constructor_call_for_type g t
      (fun s => Expr.lit (.string s)) Expr.call) exprOk := by
  intro s a s' hok
  obtain ⟨f, _, _, h⟩ :=
    arbitrary_ext_constructor_call_shape g t _ _ s a s' hok
  rcases h with ⟨k, _, rfl⟩ | ⟨k, _, rfl⟩ | ⟨k, _, rfl⟩ | ⟨k, _, rfl⟩
    | ⟨k1, k2, _, rfl⟩ <;> rfl

theorem SatG_ext_ctor_attr (g : Gen) (t : Ty) :
    SatG (arbitrary_ext_constructor_call_for_type g t
      AttrValueM.stringLit AttrValueM.extFuncCall) attrValueOk := by
  intro s a s' hok
  obtain ⟨f, _, _, h⟩ :=
    arbitrary_ext_constructor_call_shape g t _ _ s a s' hok
  rcases h with ⟨k, _, rfl⟩ | ⟨k, _, rfl⟩ | ⟨k, _, rfl⟩ | ⟨k, _, rfl⟩
    | ⟨k1, k2, _, rfl⟩ <;> rfl

theorem SatG_bindThrow {α β : Type} {f : α → GenM β} {P : β → Bool} (e : Err) :
    SatG (bindG (throwG e) f) P := by
  intro s b s' hok
  simp [bindG, throwG] at hok

theorem SatG_pureG {α : Type} {P : α → Bool} {a : α} (h : P a = true) :
    SatG (pureG a) P := SatG_pure h

theorem generatorsOk : ∀ fuel : Nat,
    (∀ (g : Gen) (d : Nat), SatG (generate_expr g d fuel) exprOk)
    ∧ (∀ (g : Gen) (d : Nat), SatG (generate_expr_ext_branch g d fuel) exprOk)
    ∧ (∀ (g : Gen) (t : Ty) (d : Nat),
        SatG (generate_expr_for_type g t d fuel) exprOk)
    ∧ (∀ (g : Gen) (t : SchemaTy) (d : Nat),
        SatG (generate_expr_for_schematype g t d fuel) exprOk)
    ∧ (∀ (g : Gen) (t : Ty) (d : Nat),
        SatG (generate_ext_func_call_for_type g t d fuel) exprOk)
    ∧ (∀ (g : Gen) (t : SchemaTy) (d : Nat),
        SatG (generate_ext_func_call_for_schematype g t d fuel) exprOk)
    ∧ (∀ (g : Gen) (t : Ty) (d : Nat),
        SatG (generate_attr_value_for_type g t d fuel) attrValueOk)
    ∧ (∀ (g : Gen) (t : SchemaTy) (d : Nat),
        SatG (generate_attr_value_for_schematype g t d fuel) attrValueOk)
    ∧ (∀ (g : Gen) (t : Ty) (d : Nat),
        SatG (generate_value_for_type g t d fuel) valueOk)
    ∧ (∀ (g : Gen) (t : SchemaTy) (d : Nat),
        SatG (generate_value_for_schematype g t d fuel) valueOk) := by
  intro fuel
  induction fuel with
  | zero =>
    exact ⟨fun g d => SatG_throw _, fun g d => SatG_throw _,
      fun g t d => SatG_throw _, fun g t d => SatG_throw _,
      fun g t d => SatG_throw _, fun g t d => SatG_throw _,
      fun g t d => SatG_throw _, fun g t d => SatG_throw _,
      fun g t d => SatG_throw _, fun g t d => SatG_throw _⟩
  | succ fuel ih =>
    obtain ⟨ihE, ihEB, ihT, ihS, ihXT, ihXS, ihAT, ihAS, ihVT, ihVS⟩ := ih
    have hEB : ∀ (g : Gen) (d : Nat),
        SatG (generate_expr_ext_branch g d (fuel + 1)) exprOk := by
      intro g d
      simp only [generate_expr_ext_branch, bind_eq_bindG]
      refine SatG_ite ?_ (SatG_bindThrow _)
      refine SatG_bindA (fun u => ?_)
      refine SatG_bindA (fun func => ?_)
      repeat' first
        | refine SatG_bind (Q := fun l => l.all exprOk)
            (SatG_loopM (ihE g _) _)
            (fun args hargs => SatG_pure
              (by simp only [exprOk, exprListOk_eq_all]; exact hargs))
        | refine SatG_ite ?_ ?_
        | refine SatG_bindA (fun x => ?_)
    have hE : ∀ (g : Gen) (d : Nat),
        SatG (generate_expr g d (fuel + 1)) exprOk := by
      intro g d
      simp only [generate_expr, bind_eq_bindG]
      refine SatG_ite (SatG_generate_literal_or_var g) ?_
      refine SatG_bindA (fun i => ?_)
      match i with
      | 0 => exact SatG_generate_literal_or_var g
      | 1 =>
        exact SatG_bind (ihE g _) (fun a ha => SatG_bind (ihE g _)
          (fun b hb => SatG_pure (by simp [exprOk, ha, hb])))
      | 2 =>
        exact SatG_bind (ihE g _) (fun a ha => SatG_pure (by simp [exprOk, ha]))
      | (k + 3) =>
        refine SatG_bindA (fun j => ?_)
        match j with
        | 0 =>
          exact SatG_bind (ihE g _) (fun a ha => SatG_bind (ihE g _)
            (fun b hb => SatG_bind (ihE g _)
            (fun c2 hc => SatG_pure (by simp [exprOk, ha, hb, hc]))))
        | 1 =>
          exact SatG_bind (ihE g _) (fun a ha => SatG_bind (ihE g _)
            (fun b hb => SatG_pure (by simp [exprOk, ha, hb])))
        | 2 =>
          exact SatG_bind (ihE g _) (fun a ha => SatG_bind (ihE g _)
            (fun b hb => SatG_pure (by simp [exprOk, ha, hb])))
        | 3 =>
          exact SatG_bind (ihE g _) (fun a ha => SatG_bind (ihE g _)
            (fun b hb => SatG_pure (by simp [exprOk, ha, hb])))
        | 4 =>
          exact SatG_bind (ihE g _) (fun a ha => SatG_bind (ihE g _)
            (fun b hb => SatG_pure (by simp [exprOk, ha, hb])))
        | 5 =>
          exact SatG_bind (ihE g _) (fun a ha => SatG_bind (ihE g _)
            (fun b hb => SatG_pure (by simp [exprOk, ha, hb])))
        | 6 =>
          exact SatG_bind (ihE g _) (fun a ha => SatG_bind (ihE g _)
            (fun b hb => SatG_pure (by simp [exprOk, ha, hb])))
        | 7 =>
          exact SatG_bind (ihE g _) (fun a ha => SatG_bind (ihE g _)
            (fun b hb => SatG_pure (by simp [exprOk, ha, hb])))
        | 8 =>
          exact SatG_bind (ihE g _) (fun a ha => SatG_bind (ihE g _)
            (fun b hb => SatG_pure (by simp [exprOk, ha, hb])))
        | 9 =>
          exact SatG_bind (ihE g _) (fun a ha => SatG_bind (ihE g _)
            (fun b hb => SatG_pure (by simp [exprOk, ha, hb])))
        | 10 =>
          exact SatG_bind (ihE g _) (fun a ha => SatG_pure (by simp [exprOk, ha]))
        | 11 =>
          exact SatG_bind (ihE g _) (fun a ha => SatG_bind (ihE g _)
            (fun b hb => SatG_pure (by simp [exprOk, ha, hb])))
        | 12 =>
          exact SatG_bind (ihE g _) (fun a ha => SatG_bind (ihE g _)
            (fun b hb => SatG_pure (by simp [exprOk, ha, hb])))
        | 13 =>
          exact SatG_bind (ihE g _) (fun a ha => SatG_bind (ihE g _)
            (fun b hb => SatG_pure (by simp [exprOk, ha, hb])))
        | 14 =>
          exact SatG_bind (ihE g _) (fun a ha => SatG_bind (ihE g _)
            (fun b hb => SatG_pure (by simp [exprOk, ha, hb])))
        | 15 =>
          exact SatG_bind (ihE g _) (fun a ha => SatG_pure (by simp [exprOk, ha]))
        | 16 =>
          refine SatG_ite ?_ (SatG_throw _)
          exact SatG_bind (ihE g _) (fun a ha => SatG_bindA
            (fun p => SatG_pure (by simp [exprOk, ha])))
        | 17 =>
          exact SatG_bind (ihE g _) (fun a ha => SatG_bindA
            (fun n => SatG_pure (by simp [exprOk, ha])))
        | 18 =>
          exact SatG_bindA (fun c2 => SatG_bind (SatG_loopM (ihE g _) c2)
            (fun l hl => SatG_pure
              (by simp only [exprOk, exprListOk_eq_all]; exact hl)))
        | 19 =>
          refine SatG_bindA (fun c2 => ?_)
          refine SatG_bind (SatG_kvLoopM (SatG_bindA (fun p =>
            SatG_bind (ihE g _) (fun e he => SatG_pure he))) c2 [] rfl rfl)
            (fun r hr => ?_)
          exact SatG_pure
            (by simp only [exprOk, exprPairsOk_eq_all]; exact hr)
        | 20 => exact ihEB g _
        | 21 =>
          refine SatG_bindA (fun k2 => ?_)
          match k2 with
          | 0 =>
            refine SatG_bindA (fun n => ?_)
            refine SatG_bindA (fun an => ?_)
            refine SatG_bind (ihE g _) (fun e he => ?_)
            refine SatG_pure ?_
            simp only [exprOk]
            split
            · rfl
            · exact he
          | (k3 + 1) =>
            refine SatG_bindA (fun p => ?_)
            refine SatG_bindA (fun an => ?_)
            refine SatG_bind (ihE g _) (fun e he => ?_)
            refine SatG_pure ?_
            simp only [exprOk]
            split
            · rfl
            · exact he
        | 22 =>
          refine SatG_bindA (fun k2 => ?_)
          match k2 with
          | 0 =>
            exact SatG_bindA (fun p => SatG_bindA (fun an =>
              SatG_bind (ihE g _) (fun e he =>
                SatG_pure (by simp [exprOk, he]))))
          | (k3 + 1) =>
            exact SatG_bindA (fun n => SatG_bindA (fun an =>
              SatG_bind (ihE g _) (fun e he =>
                SatG_pure (by simp [exprOk, he]))))
        | (m + 23) =>
          refine SatG_bindA (fun k2 => ?_)
          match k2 with
          | 0 =>
            exact SatG_bind (ihE g _) (fun tag htag =>
              SatG_bind (ihE g _) (fun e he =>
                SatG_pure (by simp [exprOk, he, htag])))
          | (k3 + 1) =>
            exact SatG_bindA (fun p =>
              SatG_bind (Q := exprOk) (SatG_pure rfl) (fun tag htag =>
                SatG_bind (ihE g _) (fun e he =>
                  SatG_pure (by simp [exprOk, he, htag]))))
    have hT : ∀ (g : Gen) (t : Ty) (d : Nat),
        SatG (generate_expr_for_type g t d (fuel + 1)) exprOk := by
      intro g t d
      simp only [generate_expr_for_type, bind_eq_bindG]
      refine SatG_bindA (fun gu => ?_)
      cases gu with
      | true =>
        rw [if_pos rfl]
        refine SatG_bindA (fun v => ?_)
        refine SatG_bindA (fun name => ?_)
        rcases try_into_static_type t with _ | t2 <;> exact SatG_pure rfl
      | false =>
        rw [if_neg (by simp)]
        cases t with
        | bool =>
          refine SatG_bindA (fun len => ?_)
          refine SatG_ite (SatG_bindA (fun n => SatG_pure rfl)) ?_
          refine SatG_bindA (fun i => ?_)
          match i with
          | 0 => exact SatG_bindA (fun n => SatG_pure rfl)
          | 1 =>
            exact SatG_bindA (fun tn => SatG_bind (ihT g _ _) (fun a ha =>
              SatG_bind (ihT g _ _) (fun b hb =>
                SatG_pure (by simp [exprOk, ha, hb]))))
          | 2 =>
            exact SatG_bindA (fun t1 => SatG_bindA (fun t2 =>
              SatG_bind (ihT g _ _) (fun a ha =>
              SatG_bind (ihT g _ _) (fun b hb =>
                SatG_pure (by simp [exprOk, ha, hb])))))
          | 3 =>
            exact SatG_bind (ihT g _ _) (fun a ha => SatG_pure (by simp [exprOk, ha]))
          | 4 =>
            exact SatG_bind (ihT g _ _) (fun a ha => SatG_bind (ihT g _ _)
              (fun b hb => SatG_bind (ihT g _ _)
              (fun c2 hc => SatG_pure (by simp [exprOk, ha, hb, hc]))))
          | 5 =>
            exact SatG_bind (ihT g _ _) (fun a ha => SatG_bind (ihT g _ _)
              (fun b hb => SatG_pure (by simp [exprOk, ha, hb])))
          | 6 =>
            exact SatG_bind (ihT g _ _) (fun a ha => SatG_bind (ihT g _ _)
              (fun b hb => SatG_pure (by simp [exprOk, ha, hb])))
          | 7 =>
            exact SatG_bind (ihT g _ _) (fun a ha => SatG_bind (ihT g _ _)
              (fun b hb => SatG_pure (by simp [exprOk, ha, hb])))
          | 8 =>
            exact SatG_bind (ihT g _ _) (fun a ha => SatG_bind (ihT g _ _)
              (fun b hb => SatG_pure (by simp [exprOk, ha, hb])))
          | 9 =>
            exact SatG_bind (ihT g _ _) (fun a ha => SatG_bind (ihT g _ _)
              (fun b hb => SatG_pure (by simp [exprOk, ha, hb])))
          | 10 =>
            exact SatG_bind (ihT g _ _) (fun a ha => SatG_bind (ihT g _ _)
              (fun b hb => SatG_pure (by simp [exprOk, ha, hb])))
          | 11 =>
            exact SatG_bind (ihT g _ _) (fun a ha => SatG_bind (ihT g _ _)
              (fun b hb => SatG_pure (by simp [exprOk, ha, hb])))
          | 12 =>
            exact SatG_bind (ihT g _ _) (fun a ha => SatG_bind (ihT g _ _)
              (fun b hb => SatG_pure (by simp [exprOk, ha, hb])))
          | 13 =>
            exact SatG_bindA (fun tn => SatG_bind (ihT g _ _) (fun a ha =>
              SatG_bind (ihT g _ _) (fun b hb =>
                SatG_pure (by simp [exprOk, ha, hb]))))
          | 14 =>
            exact SatG_bindA (fun t1 => SatG_bind (ihT g _ _) (fun a ha =>
              SatG_bindA (fun t2 => SatG_bind (ihT g _ _) (fun b hb =>
                SatG_pure (by simp [exprOk, ha, hb])))))
          | 15 =>
            exact SatG_bindA (fun t1 => SatG_bind (ihT g _ _) (fun a ha =>
              SatG_bindA (fun t2 => SatG_bind (ihT g _ _) (fun b hb =>
                SatG_pure (by simp [exprOk, ha, hb])))))
          | 16 =>
            exact SatG_bindA (fun t1 => SatG_bind (ihT g _ _) (fun a ha =>
              SatG_pure (by simp [exprOk, ha])))
          | 17 =>
            refine SatG_ite ?_ (SatG_throw _)
            exact SatG_bind (ihT g _ _) (fun a ha => SatG_bindA
              (fun p => SatG_pure (by simp [exprOk, ha])))
          | 18 =>
            exact SatG_bind (ihT g _ _) (fun a ha => SatG_bindA
              (fun n => SatG_pure (by simp [exprOk, ha])))
          | 19 => exact ihXT g _ _
          | 20 =>
            exact SatG_bindA (fun p => SatG_bind (ihS g _ _)
              (fun base hb => SatG_pure (by simp [exprOk, hb])))
          | 21 =>
            exact SatG_bindA (fun p => SatG_bind (ihS g _ _)
              (fun base hb => SatG_pure (by simp [exprOk, hb])))
          | 22 =>
            exact SatG_bindA (fun ety => SatG_bind (ihS g _ _)
              (fun base hb => SatG_bind (ihS g _ _)
              (fun k2 hk => SatG_pure (by simp [exprOk, hb, hk]))))
          | 23 =>
            refine SatG_bindA (fun idx => ?_)
            cases hgi : g.schema.entity_types_map.get? idx with
            | none => exact SatG_throw _
            | some p =>
              exact SatG_bindA (fun an => SatG_bind (ihS g _ _)
                (fun base hb => SatG_pure (by simp [exprOk, hb])))
          | 24 =>
            exact SatG_bind (ihT g _ _) (fun base hb => SatG_bindA
              (fun an => SatG_pure (by simp [exprOk, hb])))
          | 25 =>
            exact SatG_bind (ihT g _ _) (fun a ha => SatG_bind (ihT g _ _)
              (fun b hb => SatG_pure (by simp [exprOk, ha, hb])))
          | (m + 26) =>
            exact SatG_bind (ihT g _ _) (fun base hb => SatG_bindA
              (fun an => SatG_pure (by simp [exprOk, hb])))
        | long =>
          refine SatG_bindA (fun len => ?_)
          refine SatG_ite (SatG_bindA (fun v => SatG_pure rfl)) ?_
          refine SatG_bindA (fun i => ?_)
          match i with
          | 0 => exact SatG_bindA (fun v => SatG_pure rfl)
          | 1 =>
            exact SatG_bind (ihT g _ _) (fun a ha => SatG_bind (ihT g _ _)
              (fun b hb => SatG_bind (ihT g _ _)
              (fun c2 hc => SatG_pure (by simp [exprOk, ha, hb, hc]))))
          | 2 =>
            exact SatG_bind (ihT g _ _) (fun a ha => SatG_bind (ihT g _ _)
              (fun b hb => SatG_pure (by simp [exprOk, ha, hb])))
          | 3 =>
            exact SatG_bind (ihT g _ _) (fun a ha => SatG_bind (ihT g _ _)
              (fun b hb => SatG_pure (by simp [exprOk, ha, hb])))
          | 4 =>
            exact SatG_bind (ihT g _ _) (fun a ha => SatG_bind (ihT g _ _)
              (fun b hb => SatG_pure (by simp [exprOk, ha, hb])))
          | 5 =>
            exact SatG_bind (ihT g _ _) (fun a ha => SatG_pure (by simp [exprOk, ha]))
          | 6 => exact ihXT g _ _
          | 7 =>
            exact SatG_bindA (fun p => SatG_bind (ihS g _ _)
              (fun base hb => SatG_pure (by simp [exprOk, hb])))
          | 8 =>
            exact SatG_bindA (fun p => SatG_bind (ihS g _ _)
              (fun base hb => SatG_pure (by simp [exprOk, hb])))
          | (m + 9) =>
            exact SatG_bindA (fun ety => SatG_bind (ihS g _ _)
              (fun base hb => SatG_bind (ihS g _ _)
              (fun k2 hk => SatG_pure (by simp [exprOk, hb, hk]))))
        | string =>
          refine SatG_bindA (fun len => ?_)
          refine SatG_ite (SatG_bindA (fun v => SatG_pure rfl)) ?_
          refine SatG_bindA (fun i => ?_)
          match i with
          | 0 => exact SatG_bindA (fun v => SatG_pure rfl)
          | 1 =>
            exact SatG_bind (ihT g _ _) (fun a ha => SatG_bind (ihT g _ _)
              (fun b hb => SatG_bind (ihT g _ _)
              (fun c2 hc => SatG_pure (by simp [exprOk, ha, hb, hc]))))
          | 2 => exact ihXT g _ _
          | 3 =>
            exact SatG_bindA (fun p => SatG_bind (ihS g _ _)
              (fun base hb => SatG_pure (by simp [exprOk, hb])))
          | 4 =>
            exact SatG_bindA (fun p => SatG_bind (ihS g _ _)
              (fun base hb => SatG_pure (by simp [exprOk, hb])))
          | (m + 5) =>
            exact SatG_bindA (fun ety => SatG_bind (ihS g _ _)
              (fun base hb => SatG_bind (ihS g _ _)
              (fun k2 hk => SatG_pure (by simp [exprOk, hb, hk]))))
        | setAny =>
          refine SatG_bindA (fun len => ?_)
          refine SatG_ite (SatG_pure rfl) ?_
          refine SatG_bindA (fun i => ?_)
          match i with
          | 0 =>
            repeat' first
              | refine SatG_bind (Q := fun l => l.all exprOk)
                  (SatG_loopM (ihT g _ _) _)
                  (fun l hl => SatG_pure
                    (by simp only [exprOk, exprListOk_eq_all]; exact hl))
              | refine SatG_bindA (fun x => ?_)
          | 1 =>
            exact SatG_bind (ihT g _ _) (fun a ha => SatG_bind (ihT g _ _)
              (fun b hb => SatG_bind (ihT g _ _)
              (fun c2 hc => SatG_pure (by simp [exprOk, ha, hb, hc]))))
          | 2 => exact ihXT g _ _
          | 3 =>
            exact SatG_bindA (fun p => SatG_bind (ihS g _ _)
              (fun base hb => SatG_pure (by simp [exprOk, hb])))
          | 4 =>
            refine SatG_bindA (fun an => ?_)
            cases hsi : try_into_schematype g Ty.setAny with
            | none => exact SatG_throw _
            | some sty =>
              exact SatG_bind (ihS g _ _) (fun base hb =>
                SatG_pure (by simp [exprOk, hb]))
          | (m + 5) =>
            exact SatG_bindA (fun ety => SatG_bind (ihS g _ _)
              (fun base hb => SatG_bind (ihS g _ _)
              (fun k2 hk => SatG_pure (by simp [exprOk, hb, hk]))))
        | setOf elem =>
          refine SatG_bindA (fun len => ?_)
          refine SatG_ite (SatG_pure rfl) ?_
          refine SatG_bindA (fun i => ?_)
          match i with
          | 0 =>
            repeat' first
              | refine SatG_bind (Q := fun l => l.all exprOk)
                  (SatG_loopM (ihT g _ _) _)
                  (fun l hl => SatG_pure
                    (by simp only [exprOk, exprListOk_eq_all]; exact hl))
              | refine SatG_bindA (fun x => ?_)
          | 1 =>
            exact SatG_bind (ihT g _ _) (fun a ha => SatG_bind (ihT g _ _)
              (fun b hb => SatG_bind (ihT g _ _)
              (fun c2 hc => SatG_pure (by simp [exprOk, ha, hb, hc]))))
          | 2 => exact ihXT g _ _
          | 3 =>
            exact SatG_bindA (fun p => SatG_bind (ihS g _ _)
              (fun base hb => SatG_pure (by simp [exprOk, hb])))
          | 4 =>
            refine SatG_bindA (fun an => ?_)
            cases hsi : try_into_schematype g (Ty.setOf elem) with
            | none => exact SatG_throw _
            | some sty =>
              exact SatG_bind (ihS g _ _) (fun base hb =>
                SatG_pure (by simp [exprOk, hb]))
          | (m + 5) =>
            exact SatG_bindA (fun ety => SatG_bind (ihS g _ _)
              (fun base hb => SatG_bind (ihS g _ _)
              (fun k2 hk => SatG_pure (by simp [exprOk, hb, hk]))))
        | record =>
          refine SatG_bindA (fun len => ?_)
          refine SatG_ite (SatG_throw _) ?_
          refine SatG_bindA (fun i => ?_)
          match i with
          | 0 =>
            refine SatG_bindA (fun c2 => ?_)
            refine SatG_bind (SatG_kvLoopM (SatG_bindA (fun tn =>
              SatG_bind (ihT g _ _) (fun v hv => SatG_bindA (fun an =>
                SatG_pure hv)))) c2 [] rfl rfl) (fun r hr => ?_)
            exact SatG_pure
              (by simp only [exprOk, exprPairsOk_eq_all]; exact hr)
          | 1 =>
            exact SatG_bind (ihT g _ _) (fun a ha => SatG_bind (ihT g _ _)
              (fun b hb => SatG_bind (ihT g _ _)
              (fun c2 hc => SatG_pure (by simp [exprOk, ha, hb, hc]))))
          | 2 => exact ihXT g _ _
          | 3 =>
            exact SatG_bindA (fun p => SatG_bind (ihS g _ _)
              (fun base hb => SatG_pure (by simp [exprOk, hb])))
          | 4 =>
            exact SatG_bindA (fun p => SatG_bind (ihS g _ _)
              (fun base hb => SatG_pure (by simp [exprOk, hb])))
          | (m + 5) =>
            exact SatG_bindA (fun ety => SatG_bind (ihS g _ _)
              (fun base hb => SatG_bind (ihS g _ _)
              (fun k2 hk => SatG_pure (by simp [exprOk, hb, hk]))))
        | entity =>
          refine SatG_bindA (fun len => ?_)
          refine SatG_ite (SatG_bindA (fun v => SatG_pure rfl)) ?_
          refine SatG_bindA (fun i => ?_)
          match i with
          | 0 => exact SatG_bindA (fun uid => SatG_pure rfl)
          | 1 => exact SatG_bindA (fun n => SatG_pure rfl)
          | 2 => exact SatG_pure rfl
          | 3 => exact SatG_pure rfl
          | 4 => exact SatG_pure rfl
          | 5 =>
            exact SatG_bind (ihT g _ _) (fun a ha => SatG_bind (ihT g _ _)
              (fun b hb => SatG_bind (ihT g _ _)
              (fun c2 hc => SatG_pure (by simp [exprOk, ha, hb, hc]))))
          | 6 => exact ihXT g _ _
          | 7 =>
            exact SatG_bindA (fun e0 => SatG_bindA (fun p =>
              SatG_bind (ihS g _ _) (fun base hb =>
                SatG_pure (by simp [exprOk, hb]))))
          | 8 =>
            exact SatG_bindA (fun an => SatG_bindA (fun e0 =>
              SatG_bind (ihS g _ _) (fun base hb =>
                SatG_pure (by simp [exprOk, hb]))))
          | (m + 9) =>
            exact SatG_bindA (fun e0 => SatG_bindA (fun ety =>
              SatG_bind (ihS g _ _) (fun base hb =>
              SatG_bind (ihS g _ _) (fun k2 hk =>
                SatG_pure (by simp [exprOk, hb, hk])))))
        | ipaddr =>
          refine SatG_ite ?_ (SatG_bindThrow _)
          refine SatG_bindA (fun u => ?_)
          refine SatG_bindA (fun len => ?_)
          refine SatG_ite (SatG_ext_ctor_expr g _) ?_
          refine SatG_bindA (fun i => ?_)
          match i with
          | 0 =>
            exact SatG_bind (ihT g _ _) (fun a ha => SatG_bind (ihT g _ _)
              (fun b hb => SatG_bind (ihT g _ _)
              (fun c2 hc => SatG_pure (by simp [exprOk, ha, hb, hc]))))
          | 1 => exact ihXT g _ _
          | 2 =>
            exact SatG_bindA (fun p => SatG_bind (ihS g _ _)
              (fun base hb => SatG_pure (by simp [exprOk, hb])))
          | 3 =>
            exact SatG_bindA (fun p => SatG_bind (ihS g _ _)
              (fun base hb => SatG_pure (by simp [exprOk, hb])))
          | (m + 4) =>
            exact SatG_bindA (fun ety => SatG_bind (ihS g _ _)
              (fun base hb => SatG_bind (ihS g _ _)
              (fun k2 hk => SatG_pure (by simp [exprOk, hb, hk]))))
        | decimal =>
          refine SatG_ite ?_ (SatG_bindThrow _)
          refine SatG_bindA (fun u => ?_)
          refine SatG_bindA (fun len => ?_)
          refine SatG_ite (SatG_ext_ctor_expr g _) ?_
          refine SatG_bindA (fun i => ?_)
          match i with
          | 0 =>
            exact SatG_bind (ihT g _ _) (fun a ha => SatG_bind (ihT g _ _)
              (fun b hb => SatG_bind (ihT g _ _)
              (fun c2 hc => SatG_pure (by simp [exprOk, ha, hb, hc]))))
          | 1 => exact ihXT g _ _
          | 2 =>
            exact SatG_bindA (fun p => SatG_bind (ihS g _ _)
              (fun base hb => SatG_pure (by simp [exprOk, hb])))
          | 3 =>
            exact SatG_bindA (fun p => SatG_bind (ihS g _ _)
              (fun base hb => SatG_pure (by simp [exprOk, hb])))
          | (m + 4) =>
            exact SatG_bindA (fun ety => SatG_bind (ihS g _ _)
              (fun base hb => SatG_bind (ihS g _ _)
              (fun k2 hk => SatG_pure (by simp [exprOk, hb, hk]))))
        | datetime =>
          refine SatG_ite ?_ (SatG_bindThrow _)
          refine SatG_bindA (fun u => ?_)
          refine SatG_bindA (fun len => ?_)
          refine SatG_ite (SatG_ext_ctor_expr g _) ?_
          refine SatG_bindA (fun i => ?_)
          match i with
          | 0 =>
            exact SatG_bind (ihT g _ _) (fun a ha => SatG_bind (ihT g _ _)
              (fun b hb => SatG_bind (ihT g _ _)
              (fun c2 hc => SatG_pure (by simp [exprOk, ha, hb, hc]))))
          | 1 => exact ihXT g _ _
          | 2 =>
            exact SatG_bindA (fun p => SatG_bind (ihS g _ _)
              (fun base hb => SatG_pure (by simp [exprOk, hb])))
          | 3 =>
            exact SatG_bindA (fun p => SatG_bind (ihS g _ _)
              (fun base hb => SatG_pure (by simp [exprOk, hb])))
          | (m + 4) =>
            exact SatG_bindA (fun ety => SatG_bind (ihS g _ _)
              (fun base hb => SatG_bind (ihS g _ _)
              (fun k2 hk => SatG_pure (by simp [exprOk, hb, hk]))))
        | duration =>
          refine SatG_ite ?_ (SatG_bindThrow _)
          refine SatG_bindA (fun u => ?_)
          refine SatG_bindA (fun len => ?_)
          refine SatG_ite (SatG_ext_ctor_expr g _) ?_
          refine SatG_bindA (fun i => ?_)
          match i with
          | 0 =>
            exact SatG_bind (ihT g _ _) (fun a ha => SatG_bind (ihT g _ _)
              (fun b hb => SatG_bind (ihT g _ _)
              (fun c2 hc => SatG_pure (by simp [exprOk, ha, hb, hc]))))
          | 1 => exact ihXT g _ _
          | 2 =>
            exact SatG_bindA (fun p => SatG_bind (ihS g _ _)
              (fun base hb => SatG_pure (by simp [exprOk, hb])))
          | 3 =>
            exact SatG_bindA (fun p => SatG_bind (ihS g _ _)
              (fun base hb => SatG_pure (by simp [exprOk, hb])))
          | (m + 4) =>
            exact SatG_bindA (fun ety => SatG_bind (ihS g _ _)
              (fun base hb => SatG_bind (ihS g _ _)
              (fun k2 hk => SatG_pure (by simp [exprOk, hb, hk]))))
    have hS : ∀ (g : Gen) (t : SchemaTy) (d : Nat),
        SatG (generate_expr_for_schematype g t d (fuel + 1)) exprOk := by
      intro g t d
      simp only [generate_expr_for_schematype, bind_eq_bindG]
      cases hres : resolveHead g t with
      | none => exact SatG_throw _
      | some rt =>
        cases rt with
        | boolean => exact ihT g _ _
        | long => exact ihT g _ _
        | string => exact ihT g _ _
        | extension name =>
          refine SatG_ite (ihT g _ _) (SatG_ite (ihT g _ _)
            (SatG_ite (ihT g _ _) (SatG_ite (ihT g _ _) (SatG_throw _))))
        | set ety2 =>
          refine SatG_bindA (fun len => ?_)
          refine SatG_ite (SatG_pure rfl) ?_
          refine SatG_bindA (fun i => ?_)
          match i with
          | 0 =>
            exact SatG_bindA (fun c2 =>
              SatG_bind (SatG_loopM (ihS g _ _) c2) (fun l hl =>
                SatG_pure
                  (by simp only [exprOk, exprListOk_eq_all]; exact hl)))
          | 1 =>
            exact SatG_bind (ihT g _ _) (fun a ha => SatG_bind (ihS g _ _)
              (fun b hb => SatG_bind (ihS g _ _)
              (fun c2 hc => SatG_pure (by simp [exprOk, ha, hb, hc]))))
          | 2 => exact ihXS g _ _
          | 3 =>
            exact SatG_bindA (fun p => SatG_bind (ihS g _ _)
              (fun base hb => SatG_pure (by simp [exprOk, hb])))
          | 4 =>
            exact SatG_bindA (fun p => SatG_bind (ihS g _ _)
              (fun base hb => SatG_pure (by simp [exprOk, hb])))
          | (m + 5) =>
            exact SatG_bindA (fun ety => SatG_bind (ihS g _ _)
              (fun base hb => SatG_bind (ihS g _ _)
              (fun k2 hk => SatG_pure (by simp [exprOk, hb, hk]))))
        | record attrs2 addl2 =>
          refine SatG_bindA (fun len => ?_)
          refine SatG_ite (SatG_throw _) ?_
          refine SatG_bindA (fun i => ?_)
          match i with
          | 0 =>
            refine SatG_ite ?_ ?_
            · refine SatG_bindA (fun c2 => ?_)
              refine SatG_bind (SatG_kvLoopM (SatG_bindA (fun tn =>
                SatG_bindA (fun sn => SatG_bind (ihT g _ _)
                  (fun v hv => SatG_pure hv)))) c2 [] rfl rfl)
                (fun y hy => ?_)
              rw [Bool.and_eq_true] at hy
              refine SatG_bind (SatG_overlayM (fun ty2 => ihS g ty2 _)
                attrs2 y hy.1 hy.2) (fun r hr => ?_)
              exact SatG_pure
                (by simp only [exprOk, exprPairsOk_eq_all]; exact hr)
            · refine SatG_bind (SatG_pure (P := fun r2 =>
                nodupKeys r2 && r2.all (fun p => exprOk p.2)) rfl)
                (fun y hy => ?_)
              rw [Bool.and_eq_true] at hy
              refine SatG_bind (SatG_overlayM (fun ty2 => ihS g ty2 _)
                attrs2 y hy.1 hy.2) (fun r hr => ?_)
              exact SatG_pure
                (by simp only [exprOk, exprPairsOk_eq_all]; exact hr)
          | 1 => exact SatG_throw _
          | 2 =>
            exact SatG_bind (ihT g _ _) (fun a ha => SatG_bind (ihS g _ _)
              (fun b hb => SatG_bind (ihS g _ _)
              (fun c2 hc => SatG_pure (by simp [exprOk, ha, hb, hc]))))
          | 3 => exact ihXS g _ _
          | 4 =>
            exact SatG_bindA (fun p => SatG_bind (ihS g _ _)
              (fun base hb => SatG_pure (by simp [exprOk, hb])))
          | 5 =>
            exact SatG_bindA (fun p => SatG_bind (ihS g _ _)
              (fun base hb => SatG_pure (by simp [exprOk, hb])))
          | (m + 6) =>
            exact SatG_bindA (fun ety => SatG_bind (ihS g _ _)
              (fun base hb => SatG_bind (ihS g _ _)
              (fun k2 hk => SatG_pure (by simp [exprOk, hb, hk]))))
        | entity name =>
          refine SatG_bindA (fun len => ?_)
          refine SatG_ite (SatG_bindA (fun v => SatG_pure rfl)) ?_
          refine SatG_bindA (fun i => ?_)
          match i with
          | 0 => exact SatG_bindA (fun uid => SatG_pure rfl)
          | 1 => exact SatG_pure rfl
          | 2 => exact SatG_pure rfl
          | 3 => exact SatG_pure rfl
          | 4 =>
            exact SatG_bind (ihT g _ _) (fun a ha => SatG_bind (ihS g _ _)
              (fun b hb => SatG_bind (ihS g _ _)
              (fun c2 hc => SatG_pure (by simp [exprOk, ha, hb, hc]))))
          | 5 => exact ihXT g _ _
          | 6 =>
            exact SatG_bindA (fun p => SatG_bind (ihS g _ _)
              (fun base hb => SatG_pure (by simp [exprOk, hb])))
          | 7 =>
            exact SatG_bindA (fun p => SatG_bind (ihS g _ _)
              (fun base hb => SatG_pure (by simp [exprOk, hb])))
          | (m + 8) =>
            exact SatG_bindA (fun ety => SatG_bind (ihS g _ _)
              (fun base hb => SatG_bind (ihS g _ _)
              (fun k2 hk => SatG_pure (by simp [exprOk, hb, hk]))))
        | entityOrCommon name => exact SatG_throw _
        | commonRef name => exact SatG_throw _
    have hXT : ∀ (g : Gen) (t : Ty) (d : Nat),
        SatG (generate_ext_func_call_for_type g t d (fuel + 1)) exprOk := by
      intro g t d
      simp only [generate_ext_func_call_for_type, bind_eq_bindG]
      refine SatG_bindA (fun func => ?_)
      refine SatG_ite ?_ (SatG_bindThrow _)
      refine SatG_bindA (fun u => ?_)
      refine SatG_bind (SatG_mapMG (fun p => ihT g p _)
        func.parameter_types) (fun args hargs => ?_)
      exact SatG_pure (by simp only [exprOk, exprListOk_eq_all]; exact hargs)
    have hXS : ∀ (g : Gen) (t : SchemaTy) (d : Nat),
        SatG (generate_ext_func_call_for_schematype g t d (fuel + 1))
          exprOk := by
      intro g t d
      simp only [generate_ext_func_call_for_schematype, bind_eq_bindG]
      cases hres : resolveHead g t with
      | none => exact SatG_throw _
      | some rt =>
        cases rt with
        | boolean => exact ihXT g _ _
        | long => exact ihXT g _ _
        | string => exact ihXT g _ _
        | extension name =>
          refine SatG_ite (ihXT g _ _) (SatG_ite (ihXT g _ _)
            (SatG_ite (ihXT g _ _) (SatG_ite (ihXT g _ _) (SatG_throw _))))
        | set ety2 => exact SatG_throw _
        | record attrs2 addl2 => exact SatG_throw _
        | entity name => exact SatG_throw _
        | entityOrCommon name => exact SatG_throw _
        | commonRef name => exact SatG_throw _
    have hAT : ∀ (g : Gen) (t : Ty) (d : Nat),
        SatG (generate_attr_value_for_type g t d (fuel + 1))
          attrValueOk := by
      intro g t d
      simp only [generate_attr_value_for_type, bind_eq_bindG]
      cases t with
      | bool => exact SatG_bindA (fun n => SatG_pure rfl)
      | long => exact SatG_bindA (fun v => SatG_pure rfl)
      | string => exact SatG_bindA (fun v => SatG_pure rfl)
      | entity => exact SatG_bindA (fun uid => SatG_pure rfl)
      | ipaddr =>
        exact SatG_ite (SatG_throw _) (SatG_ext_ctor_attr g _)
      | decimal =>
        exact SatG_ite (SatG_throw _) (SatG_ext_ctor_attr g _)
      | datetime =>
        exact SatG_ite (SatG_throw _) (SatG_ext_ctor_attr g _)
      | duration =>
        exact SatG_ite (SatG_throw _) (SatG_ext_ctor_attr g _)
      | setAny =>
        refine SatG_ite (SatG_pure rfl) ?_
        repeat' first
          | refine SatG_bind (Q := fun l => l.all attrValueOk)
              (SatG_loopM (ihAT g _ _) _)
              (fun l hl => SatG_pure
                (by simp only [attrValueOk, attrValueListOk_eq_all]; exact hl))
          | refine SatG_bindA (fun x => ?_)
      | setOf elem =>
        refine SatG_ite (SatG_pure rfl) ?_
        repeat' first
          | refine SatG_bind (Q := fun l => l.all attrValueOk)
              (SatG_loopM (ihAT g _ _) _)
              (fun l hl => SatG_pure
                (by simp only [attrValueOk, attrValueListOk_eq_all]; exact hl))
          | refine SatG_bindA (fun x => ?_)
      | record =>
        refine SatG_ite (SatG_pure rfl) ?_
        refine SatG_bindA (fun c2 => ?_)
        refine SatG_bind (SatG_kvLoopM (SatG_bindA (fun p =>
          SatG_bind (ihAS g _ _) (fun v hv => SatG_pure hv))) c2 [] rfl rfl)
          (fun r hr => ?_)
        exact SatG_pure
          (by simp only [attrValueOk, attrValuePairsOk_eq_all]; exact hr)
    have hAS : ∀ (g : Gen) (t : SchemaTy) (d : Nat),
        SatG (generate_attr_value_for_schematype g t d (fuel + 1))
          attrValueOk := by
      intro g t d
      simp only [generate_attr_value_for_schematype, bind_eq_bindG]
      cases hres : resolveHead g t with
      | none => exact SatG_throw _
      | some rt =>
        cases rt with
        | boolean => exact ihAT g _ _
        | long => exact ihAT g _ _
        | string => exact ihAT g _ _
        | set ety2 =>
          refine SatG_ite (SatG_pure rfl) ?_
          refine SatG_bindA (fun c2 => ?_)
          refine SatG_bind (SatG_loopM (ihAS g _ _) c2) (fun l hl => ?_)
          exact SatG_pure
            (by simp only [attrValueOk, attrValueListOk_eq_all]; exact hl)
        | record attrs2 addl2 =>
          refine SatG_ite (SatG_throw _) ?_
          refine SatG_ite ?_ ?_
          · refine SatG_bindA (fun c2 => ?_)
            refine SatG_bind (SatG_kvLoopM (SatG_bindA (fun p =>
              SatG_bind (ihAS g _ _) (fun v hv => SatG_pure hv)))
              c2 [] rfl rfl) (fun y hy => ?_)
            rw [Bool.and_eq_true] at hy
            refine SatG_bind (SatG_overlayM (fun ty2 => ihAS g ty2 _)
              attrs2 y hy.1 hy.2) (fun r hr => ?_)
            exact SatG_pure
              (by simp only [attrValueOk, attrValuePairsOk_eq_all]; exact hr)
          · refine SatG_bind (SatG_pure (P := fun r2 =>
              nodupKeys r2 && r2.all (fun p => attrValueOk p.2)) rfl)
              (fun y hy => ?_)
            rw [Bool.and_eq_true] at hy
            refine SatG_bind (SatG_overlayM (fun ty2 => ihAS g ty2 _)
              attrs2 y hy.1 hy.2) (fun r hr => ?_)
            exact SatG_pure
              (by simp only [attrValueOk, attrValuePairsOk_eq_all]; exact hr)
        | entity name => exact SatG_bindA (fun uid => SatG_pure rfl)
        | extension name =>
          refine SatG_ite ?_ (SatG_bindThrow _)
          refine SatG_bindA (fun u => ?_)
          refine SatG_ite (ihAT g _ _) (SatG_ite (ihAT g _ _)
            (SatG_ite (ihAT g _ _) (SatG_ite (ihAT g _ _) (SatG_throw _))))
        | entityOrCommon name => exact SatG_throw _
        | commonRef name => exact SatG_throw _
    have hVT : ∀ (g : Gen) (t : Ty) (d : Nat),
        SatG (generate_value_for_type g t d (fuel + 1)) valueOk := by
      intro g t d
      simp only [generate_value_for_type, bind_eq_bindG]
      cases t with
      | bool => exact SatG_bindA (fun n => SatG_pure rfl)
      | long => exact SatG_bindA (fun v => SatG_pure rfl)
      | string => exact SatG_bindA (fun v => SatG_pure rfl)
      | entity => exact SatG_bindA (fun uid => SatG_pure rfl)
      | ipaddr => exact SatG_throw _
      | decimal => exact SatG_throw _
      | datetime => exact SatG_throw _
      | duration => exact SatG_throw _
      | setAny =>
        refine SatG_ite (SatG_pure rfl) ?_
        repeat' first
          | refine SatG_bind (Q := fun l => l.all valueOk)
              (SatG_loopM (ihVT g _ _) _)
              (fun l hl => SatG_pure
                (by simp only [valueOk, valueListOk_eq_all]; exact hl))
          | refine SatG_bindA (fun x => ?_)
      | setOf elem =>
        refine SatG_ite (SatG_pure rfl) ?_
        repeat' first
          | refine SatG_bind (Q := fun l => l.all valueOk)
              (SatG_loopM (ihVT g _ _) _)
              (fun l hl => SatG_pure
                (by simp only [valueOk, valueListOk_eq_all]; exact hl))
          | refine SatG_bindA (fun x => ?_)
      | record =>
        refine SatG_ite (SatG_pure rfl) ?_
        refine SatG_bindA (fun c2 => ?_)
        refine SatG_bind (SatG_kvLoopM (SatG_bindA (fun p =>
          SatG_bind (ihVS g _ _) (fun v hv => SatG_pure hv))) c2 [] rfl rfl)
          (fun r hr => ?_)
        exact SatG_pure
          (by simp only [valueOk, valuePairsOk_eq_all]; exact hr)
    have hVS : ∀ (g : Gen) (t : SchemaTy) (d : Nat),
        SatG (generate_value_for_schematype g t d (fuel + 1)) valueOk := by
      intro g t d
      simp only [generate_value_for_schematype, bind_eq_bindG]
      cases hres : resolveHead g t with
      | none => exact SatG_throw _
      | some rt =>
        cases rt with
        | boolean => exact ihVT g _ _
        | long => exact ihVT g _ _
        | string => exact ihVT g _ _
        | set ety2 =>
          refine SatG_ite (SatG_pure rfl) ?_
          refine SatG_bindA (fun c2 => ?_)
          refine SatG_bind (SatG_loopM (ihVS g _ _) c2) (fun l hl => ?_)
          exact SatG_pure
            (by simp only [valueOk, valueListOk_eq_all]; exact hl)
        | record attrs2 addl2 =>
          refine SatG_ite (SatG_throw _) ?_
          refine SatG_ite ?_ ?_
          · refine SatG_bindA (fun c2 => ?_)
            refine SatG_bind (SatG_kvLoopM (SatG_bindA (fun p =>
              SatG_bind (ihVS g _ _) (fun v hv => SatG_pure hv)))
              c2 [] rfl rfl) (fun y hy => ?_)
            rw [Bool.and_eq_true] at hy
            refine SatG_bind (SatG_overlayM (fun ty2 => ihVS g ty2 _)
              attrs2 y hy.1 hy.2) (fun r hr => ?_)
            exact SatG_pure
              (by simp only [valueOk, valuePairsOk_eq_all]; exact hr)
          · refine SatG_bind (SatG_pure (P := fun r2 =>
              nodupKeys r2 && r2.all (fun p => valueOk p.2)) rfl)
              (fun y hy => ?_)
            rw [Bool.and_eq_true] at hy
            refine SatG_bind (SatG_overlayM (fun ty2 => ihVS g ty2 _)
              attrs2 y hy.1 hy.2) (fun r hr => ?_)
            exact SatG_pure
              (by simp only [valueOk, valuePairsOk_eq_all]; exact hr)
        | entity name => exact SatG_bindA (fun uid => SatG_pure rfl)
        | extension name => exact SatG_throw _
        | entityOrCommon name => exact SatG_throw _
        | commonRef name => exact SatG_throw _
    exact ⟨hE, hEB, hT, hS, hXT, hXS, hAT, hAS, hVT, hVS⟩

/-- C8: every record literal inside any expression or value produced by
any generator operation of the family has pairwise-distinct keys: every
successful result of each of the ten generators satisfies the
corresponding record-key well-formedness predicate (`exprOk` /
`attrValueOk` / `valueOk`), each of which requires `nodupKeys` at every
record node of the result.  Records are only ever built through the keyed
insertion `insertA` (the `HashMap`/`BTreeMap` of the source), which
preserves key distinctness. -/
theorem all_generated_records_nodup :
    ∀ (fuel : Nat) (g : Gen) (d : Nat) (s s' : GenState),
      (∀ e, generate_expr g d fuel s = .ok (e, s') → exprOk e = true)
      ∧ (∀ e, generate_expr_ext_branch g d fuel s = .ok (e, s') →
          exprOk e = true)
      ∧ (∀ t e, generate_expr_for_type g t d fuel s = .ok (e, s') →
          exprOk e = true)
      ∧ (∀ t e, generate_expr_for_schematype g t d fuel s = .ok (e, s') →
          exprOk e = true)
      ∧ (∀ t e, generate_ext_func_call_for_type g t d fuel s = .ok (e, s') →
          exprOk e = true)
      ∧ (∀ t e,
          generate_ext_func_call_for_schematype g t d fuel s = .ok (e, s') →
          exprOk e = true)
      ∧ (∀ t v, generate_attr_value_for_type g t d fuel s = .ok (v, s') →
          attrValueOk v = true)
      ∧ (∀ t v,
          generate_attr_value_for_schematype g t d fuel s = .ok (v, s') →
          attrValueOk v = true)
      ∧ (∀ t v, generate_value_for_type g t d fuel s = .ok (v, s') →
          valueOk v = true)
      ∧ (∀ t v, generate_value_for_schematype g t d fuel s = .ok (v, s') →
          valueOk v = true) := by
  intro fuel g d s s'
  obtain ⟨hE, hEB, hT, hS, hXT, hXS, hAT, hAS, hVT, hVS⟩ := generatorsOk fuel
  exact ⟨fun e h => hE g d s e s' h,
    fun e h => hEB g d s e s' h,
    fun t e h => hT g t d s e s' h,
    fun t e h => hS g t d s e s' h,
    fun t e h => hXT g t d s e s' h,
    fun t e h => hXS g t d s e s' h,
    fun t v h => hAT g t d s v s' h,
    fun t v h => hAS g t d s v s' h,
    fun t v h => hVT g t d s v s' h,
    fun t v h => hVS g t d s v s' h⟩

/-- Witness for C8 at a concrete depth-0 Boolean run of the concrete
generator `g0`. -/
theorem all_generated_records_nodup_witness :
    exprOk (.lit (.bool false)) = true :=
  (all_generated_records_nodup 5 g0 0 ⟨[], []⟩ ⟨[], []⟩).2.2.1 Ty.bool
    (.lit (.bool false)) rfl

theorem NoOF_pure {α : Type} (a : α) : NoOF (pure a) := by
  intro s h
  simp [pure_eq_pureG, pureG] at h

theorem NoOF_throwNe {α : Type} {e : Err} (h : e ≠ .outOfFuel) :
    NoOF (throwG (α := α) e) := by
  intro s hh
  simp only [throwG, Except.error.injEq] at hh
  exact h hh

theorem NoOF_bind {α β : Type} {m : GenM α} {f : α → GenM β}
    (hm : NoOF m) (hf : ∀ a, NoOF (f a)) : NoOF (bindG m f) := by
  intro s h
  unfold bindG at h
  cases hms : m s with
  | error e =>
    rw [hms] at h
    simp only [Except.error.injEq] at h
    subst h
    exact hm s hms
  | ok p =>
    obtain ⟨a, s1⟩ := p
    rw [hms] at h
    exact hf a s1 h

theorem NoOF_ite {α : Type} {c : Prop} [Decidable c] {A B : GenM α}
    (hA : NoOF A) (hB : NoOF B) : NoOF (if c then A else B) := by
  by_cases h : c
  · rw [if_pos h]; exact hA
  · rw [if_neg h]; exact hB

theorem NoOF_nextNat : NoOF nextNat := by
  intro s h
  rw [nextNat_eq] at h
  exact absurd h (by simp)

theorem NoOF_oracleLen : NoOF oracleLen := by
  intro s h
  simp [oracleLen] at h

theorem NoOF_allocUnknown (t : Ty) (v : ValueM) : NoOF (allocUnknown t v) := by
  intro s h
  simp [allocUnknown] at h

theorem NoOF_chooseL {α : Type} (xs : List α) : NoOF (chooseL xs) := by
  cases xs with
  | nil => exact NoOF_throwNe (by decide)
  | cons x rest =>
    simp only [chooseL, bind_eq_bindG]
    exact NoOF_bind NoOF_nextNat (fun n => NoOF_pure _)

theorem NoOF_chooseIndexPanics (len : Nat) : NoOF (chooseIndexPanics len) := by
  simp only [chooseIndexPanics, bind_eq_bindG]
  exact NoOF_ite (NoOF_throwNe (by decide))
    (NoOF_bind NoOF_nextNat (fun n => NoOF_pure _))

theorem NoOF_ratioM (a b : Nat) : NoOF (ratioM a b) := by
  simp only [ratioM, bind_eq_bindG]
  exact NoOF_bind NoOF_nextNat (fun n => NoOF_pure _)

theorem NoOF_intInRange (lo hi : Nat) : NoOF (intInRange lo hi) := by
  simp only [intInRange, bind_eq_bindG]
  exact NoOF_bind NoOF_nextNat (fun n => NoOF_pure _)

theorem NoOF_pickWeighted (w : List Nat) : NoOF (pickWeighted w) := by
  simp only [pickWeighted, bind_eq_bindG]
  exact NoOF_bind NoOF_nextNat (fun n => NoOF_pure _)

theorem NoOF_uniformM (k : Nat) : NoOF (uniformM k) := by
  simp only [uniformM, bind_eq_bindG]
  exact NoOF_bind NoOF_nextNat (fun n => NoOF_pure _)

theorem NoOF_loopCount (lo hi : Nat) : NoOF (loopCount lo hi) := by
  simp only [loopCount, bind_eq_bindG]
  exact NoOF_bind NoOF_nextNat (fun n => NoOF_pure _)

theorem NoOF_arbitrary_int_constant (g : Gen) :
    NoOF (arbitrary_int_constant g) := by
  simp only [arbitrary_int_constant, bind_eq_bindG]
  exact NoOF_bind NoOF_nextNat (fun n => NoOF_pure _)

theorem NoOF_arbitrary_string_constant (g : Gen) :
    NoOF (arbitrary_string_constant g) := by
  simp only [arbitrary_string_constant, bind_eq_bindG]
  exact NoOF_bind NoOF_nextNat (fun n => NoOF_pure _)

theorem NoOF_arbitrary_ip_str (g : Gen) : NoOF (arbitrary_ip_str g) := by
  simp only [arbitrary_ip_str, bind_eq_bindG]
  exact NoOF_bind NoOF_nextNat (fun n => NoOF_pure _)

theorem NoOF_arbitrary_decimal_str (g : Gen) :
    NoOF (arbitrary_decimal_str g) := by
  simp only [arbitrary_decimal_str, bind_eq_bindG]
  exact NoOF_bind NoOF_nextNat (fun n => NoOF_pure _)

theorem NoOF_arbitrary_datetime_str (g : Gen) :
    NoOF (arbitrary_datetime_str g) := by
  simp only [arbitrary_datetime_str, bind_eq_bindG]
  exact NoOF_bind NoOF_nextNat (fun n => NoOF_pure _)

theorem NoOF_arbitrary_duration_str (g : Gen) :
    NoOF (arbitrary_duration_str g) := by
  simp only [arbitrary_duration_str, bind_eq_bindG]
  exact NoOF_bind NoOF_nextNat (fun n => NoOF_pure _)

theorem NoOF_arbitrary_pattern_literal (g : Gen) :
    NoOF (arbitrary_pattern_literal g) := by
  simp only [arbitrary_pattern_literal, bind_eq_bindG]
  exact NoOF_bind NoOF_nextNat (fun n => NoOF_pure _)

theorem NoOF_arbitrary_attr (g : Gen) : NoOF (arbitrary_attr g) :=
  NoOF_chooseL _

theorem NoOF_arbitrary_attr_for_schematype (g : Gen) (ty : SchemaTy) :
    NoOF (arbitrary_attr_for_schematype g ty) := NoOF_chooseL _

theorem NoOF_arbitrary_attr_for_type (g : Gen) (ty : Ty) :
    NoOF (arbitrary_attr_for_type g ty) := NoOF_chooseL _

theorem NoOF_arbitrary_entity_tag_schematype (g : Gen) (ty : SchemaTy) :
    NoOF (arbitrary_entity_type_with_tag_schematype g ty) := NoOF_chooseL _

theorem NoOF_arbitrary_entity_tag_type (g : Gen) (ty : Ty) :
    NoOF (arbitrary_entity_type_with_tag_type g ty) := NoOF_chooseL _

theorem NoOF_ext_arbitrary_all (g : Gen) : NoOF (ext_arbitrary_all g) :=
  NoOF_chooseL _

theorem NoOF_ext_arbitrary_for_type (g : Gen) (ty : Ty) :
    NoOF (ext_arbitrary_for_type g ty) := NoOF_chooseL _

theorem NoOF_ext_arbitrary_constructor_for_type (g : Gen) (ty : Ty) :
    NoOF (ext_arbitrary_constructor_for_type g ty) := by
  simp only [ext_arbitrary_constructor_for_type]
  exact NoOF_ite (NoOF_chooseL _) (NoOF_throwNe (by decide))

theorem NoOF_should_generate_unknown (g : Gen) (d : Nat) :
    NoOF (should_generate_unknown g d) := by
  simp only [should_generate_unknown, bind_eq_bindG]
  refine NoOF_ite (NoOF_ite ?_ (NoOF_throwNe (by decide))) (NoOF_pure _)
  exact NoOF_bind (NoOF_intInRange _ _) (fun n => NoOF_pure _)

theorem NoOF_generate_uid_with_type (g : Gen) (ty : CName) :
    NoOF (generate_uid_with_type g ty) := by
  simp only [generate_uid_with_type, bind_eq_bindG]
  cases g.schema.uid_enum_choices ty with
  | nil => exact NoOF_bind NoOF_nextNat (fun n => NoOF_pure _)
  | cons c cs => exact NoOF_bind (NoOF_chooseL _) (fun e => NoOF_pure _)

theorem NoOF_hierarchy_uid_with_type (h : List (CName × List String))
    (ty : CName) : NoOF (hierarchy_uid_with_type h ty) := by
  simp only [hierarchy_uid_with_type, bind_eq_bindG]
  exact NoOF_bind (NoOF_chooseL _) (fun e => NoOF_pure _)

theorem NoOF_arbitrary_uid_with_type (g : Gen) (ty : CName) :
    NoOF (arbitrary_uid_with_type g ty) := by
  simp only [arbitrary_uid_with_type]
  cases g.hierarchy with
  | none => exact NoOF_generate_uid_with_type g ty
  | some h => exact NoOF_hierarchy_uid_with_type h ty

theorem NoOF_arbitrary_principal_uid (g : Gen) :
    NoOF (arbitrary_principal_uid g) := by
  simp only [arbitrary_principal_uid, bind_eq_bindG]
  exact NoOF_bind (NoOF_chooseL _)
    (fun ty => NoOF_arbitrary_uid_with_type g ty)

theorem NoOF_arbitrary_action_uid (g : Gen) :
    NoOF (arbitrary_action_uid g) := by
  simp only [arbitrary_action_uid, bind_eq_bindG]
  exact NoOF_bind (NoOF_chooseL _) (fun a => NoOF_pure _)

theorem NoOF_arbitrary_resource_uid (g : Gen) :
    NoOF (arbitrary_resource_uid g) := by
  simp only [arbitrary_resource_uid, bind_eq_bindG]
  exact NoOF_bind (NoOF_chooseL _)
    (fun ty => NoOF_arbitrary_uid_with_type g ty)

theorem NoOF_generate_uid (g : Gen) : NoOF (generate_uid g) := by
  simp only [generate_uid, bind_eq_bindG]
  refine NoOF_bind (NoOF_uniformM 3) (fun k => ?_)
  match k with
  | 0 => exact NoOF_arbitrary_principal_uid g
  | 1 => exact NoOF_arbitrary_action_uid g
  | (m + 2) => exact NoOF_arbitrary_resource_uid g

theorem NoOF_generate_literal (g : Gen) : NoOF (generate_literal g) := by
  simp only [generate_literal, bind_eq_bindG]
  refine NoOF_bind (NoOF_pickWeighted _) (fun i => ?_)
  match i with
  | 0 => exact NoOF_bind NoOF_nextNat (fun n => NoOF_pure _)
  | 1 => exact NoOF_bind (NoOF_arbitrary_int_constant g) (fun v => NoOF_pure _)
  | 2 =>
    exact NoOF_bind (NoOF_arbitrary_string_constant g) (fun v => NoOF_pure _)
  | 3 => exact NoOF_bind (NoOF_generate_uid g) (fun u => NoOF_pure _)
  | (m + 4) => exact NoOF_bind NoOF_nextNat (fun n => NoOF_pure _)

theorem NoOF_generate_literal_or_var (g : Gen) :
    NoOF (generate_literal_or_var g) := by
  simp only [generate_literal_or_var, bind_eq_bindG]
  refine NoOF_bind (NoOF_ratioM 1 4) (fun b => ?_)
  cases b with
  | false =>
    simp only [Bool.false_eq_true, if_false]
    exact NoOF_generate_literal g
  | true =>
    simp only [if_pos rfl]
    exact NoOF_bind NoOF_nextNat (fun n => NoOF_pure _)

theorem NoOF_arbitrary_ext_ctor {E : Type} (g : Gen) (t : Ty)
    (mkStr : String → E) (mkExt : CName → List E → E) :
    NoOF (arbitrary_ext_constructor_call_for_type g t mkStr mkExt) := by
  simp only [arbitrary_ext_constructor_call_for_type, bind_eq_bindG]
  repeat' first
    | exact NoOF_pure _
    | exact NoOF_throwNe (by decide)
    | exact NoOF_ext_arbitrary_constructor_for_type g t
    | exact NoOF_arbitrary_ip_str g
    | exact NoOF_arbitrary_decimal_str g
    | exact NoOF_arbitrary_datetime_str g
    | exact NoOF_arbitrary_duration_str g
    | refine NoOF_bind ?_ (fun a => ?_)
    | refine NoOF_ite ?_ ?_

theorem NoOF_loopM {α : Type} {m : GenM α} (hm : NoOF m) :
    ∀ c, NoOF (loopM m c) := by
  intro c
  induction c with
  | zero => exact NoOF_pure _
  | succ c ih =>
    simp only [loopM, bind_eq_bindG]
    exact NoOF_bind hm (fun x => NoOF_bind ih (fun l => NoOF_pure _))

theorem NoOF_mapMG {τ α : Type} {f : τ → GenM α} (hf : ∀ t, NoOF (f t)) :
    ∀ ts, NoOF (mapMG f ts) := by
  intro ts
  induction ts with
  | nil => exact NoOF_pure _
  | cons t ts ih =>
    simp only [mapMG, bind_eq_bindG]
    exact NoOF_bind (hf t) (fun x => NoOF_bind ih (fun l => NoOF_pure _))

theorem NoOF_kvLoopM {α : Type} {body : GenM (String × α)} (hb : NoOF body) :
    ∀ (c : Nat) (r : List (String × α)), NoOF (kvLoopM body c r) := by
  intro c
  induction c with
  | zero => intro r; exact NoOF_pure _
  | succ c ih =>
    intro r
    simp only [kvLoopM, bind_eq_bindG]
    exact NoOF_bind hb (fun p => ih (insertA r p.1 p.2))

theorem NoOF_overlayM {α : Type} {force : Bool} {gv : SchemaTy → GenM α}
    (hgv : ∀ ty, NoOF (gv ty)) :
    ∀ (attrs : List (String × SchemaTy × Bool)) (r : List (String × α)),
      NoOF (overlayM force gv attrs r) := by
  intro attrs
  induction attrs with
  | nil => intro r; exact NoOF_pure _
  | cons hd rest ih =>
    obtain ⟨a, ty, req⟩ := hd
    intro r
    simp only [overlayM, bind_eq_bindG]
    repeat' first
      | exact NoOF_pure _
      | exact NoOF_ratioM 1 2
      | exact NoOF_bind (hgv ty) (fun v => ih (insertA r a v))
      | exact ih r
      | refine NoOF_bind ?_ (fun y => ?_)
      | refine NoOF_ite ?_ ?_

theorem NoOF_bindThrow {α β : Type} {f : α → GenM β} {e : Err}
    (h : e ≠ .outOfFuel) : NoOF (bindG (throwG e) f) := by
  intro s hh
  simp only [bindG, throwG, Except.error.injEq] at hh
  exact h hh

theorem generatorsNoOF : ∀ fuel : Nat,
    (∀ (g : Gen) (d : Nat), 2 * d + 2 ≤ fuel → NoOF (generate_expr g d fuel))
    ∧ (∀ (g : Gen) (d : Nat), 2 * d + 1 ≤ fuel → 1 ≤ d →
        NoOF (generate_expr_ext_branch g d fuel))
    ∧ (∀ (g : Gen) (t : Ty) (d : Nat), 2 * d + 4 ≤ fuel →
        NoOF (generate_expr_for_type g t d fuel))
    ∧ (∀ (g : Gen) (t : SchemaTy) (d : Nat), 2 * d + 5 ≤ fuel →
        NoOF (generate_expr_for_schematype g t d fuel))
    ∧ (∀ (g : Gen) (t : Ty) (d : Nat), 2 * d + 5 ≤ fuel →
        NoOF (generate_ext_func_call_for_type g t d fuel))
    ∧ (∀ (g : Gen) (t : SchemaTy) (d : Nat), 2 * d + 6 ≤ fuel →
        NoOF (generate_ext_func_call_for_schematype g t d fuel))
    ∧ (∀ (g : Gen) (t : Ty) (d : Nat), 2 * d + 1 ≤ fuel →
        NoOF (generate_attr_value_for_type g t d fuel))
    ∧ (∀ (g : Gen) (t : SchemaTy) (d : Nat), 2 * d + 2 ≤ fuel →
        NoOF (generate_attr_value_for_schematype g t d fuel))
    ∧ (∀ (g : Gen) (t : Ty) (d : Nat), 2 * d + 1 ≤ fuel →
        NoOF (generate_value_for_type g t d fuel))
    ∧ (∀ (g : Gen) (t : SchemaTy) (d : Nat), 2 * d + 2 ≤ fuel →
        NoOF (generate_value_for_schematype g t d fuel)) := by
  intro fuel
  induction fuel with
  | zero =>
    refine ⟨fun g d h => absurd h (by omega),
      fun g d h hd => absurd h (by omega),
      fun g t d h => absurd h (by omega),
      fun g t d h => absurd h (by omega), fun g t d h => absurd h (by omega),
      fun g t d h => absurd h (by omega), fun g t d h => absurd h (by omega),
      fun g t d h => absurd h (by omega), fun g t d h => absurd h (by omega),
      fun g t d h => absurd h (by omega)⟩
  | succ fuel ih =>
    obtain ⟨ihE, ihEB, ihT, ihS, ihXT, ihXS, ihAT, ihAS, ihVT, ihVS⟩ := ih
    have hE : ∀ (g : Gen) (d : Nat), 2 * d + 2 ≤ fuel + 1 →
        NoOF (generate_expr g d (fuel + 1)) := by
      intro g d h
      simp only [generate_expr, bind_eq_bindG]
      by_cases hd0 : d = 0
      · rw [if_pos hd0]
        exact NoOF_generate_literal_or_var g
      · rw [if_neg hd0]
        refine NoOF_bind (NoOF_pickWeighted _) (fun i => ?_)
        match i with
        | 0 => exact NoOF_generate_literal_or_var g
        | 1 =>
          exact NoOF_bind (ihE g _ (by omega)) (fun a => NoOF_bind (ihE g _ (by omega)) (fun b => NoOF_pure _))
        | 2 =>
          exact NoOF_bind (ihE g _ (by omega)) (fun a => NoOF_pure _)
        | (k + 3) =>
          refine NoOF_bind (NoOF_pickWeighted _) (fun j => ?_)
          match j with
          | 0 =>
            exact NoOF_bind (ihE g _ (by omega)) (fun a => NoOF_bind (ihE g _ (by omega)) (fun b => NoOF_bind (ihE g _ (by omega)) (fun c3 => NoOF_pure _)))
          | 1 =>
            exact NoOF_bind (ihE g _ (by omega)) (fun a => NoOF_bind (ihE g _ (by omega)) (fun b => NoOF_pure _))
          | 2 =>
            exact NoOF_bind (ihE g _ (by omega)) (fun a => NoOF_bind (ihE g _ (by omega)) (fun b => NoOF_pure _))
          | 3 =>
            exact NoOF_bind (ihE g _ (by omega)) (fun a => NoOF_bind (ihE g _ (by omega)) (fun b => NoOF_pure _))
          | 4 =>
            exact NoOF_bind (ihE g _ (by omega)) (fun a => NoOF_bind (ihE g _ (by omega)) (fun b => NoOF_pure _))
          | 5 =>
            exact NoOF_bind (ihE g _ (by omega)) (fun a => NoOF_bind (ihE g _ (by omega)) (fun b => NoOF_pure _))
          | 6 =>
            exact NoOF_bind (ihE g _ (by omega)) (fun a => NoOF_bind (ihE g _ (by omega)) (fun b => NoOF_pure _))
          | 7 =>
            exact NoOF_bind (ihE g _ (by omega)) (fun a => NoOF_bind (ihE g _ (by omega)) (fun b => NoOF_pure _))
          | 8 =>
            exact NoOF_bind (ihE g _ (by omega)) (fun a => NoOF_bind (ihE g _ (by omega)) (fun b => NoOF_pure _))
          | 9 =>
            exact NoOF_bind (ihE g _ (by omega)) (fun a => NoOF_bind (ihE g _ (by omega)) (fun b => NoOF_pure _))
          | 10 =>
            exact NoOF_bind (ihE g _ (by omega)) (fun a => NoOF_pure _)
          | 11 =>
            exact NoOF_bind (ihE g _ (by omega)) (fun a => NoOF_bind (ihE g _ (by omega)) (fun b => NoOF_pure _))
          | 12 =>
            exact NoOF_bind (ihE g _ (by omega)) (fun a => NoOF_bind (ihE g _ (by omega)) (fun b => NoOF_pure _))
          | 13 =>
            exact NoOF_bind (ihE g _ (by omega)) (fun a => NoOF_bind (ihE g _ (by omega)) (fun b => NoOF_pure _))
          | 14 =>
            exact NoOF_bind (ihE g _ (by omega)) (fun a => NoOF_bind (ihE g _ (by omega)) (fun b => NoOF_pure _))
          | 15 =>
            exact NoOF_bind (ihE g _ (by omega)) (fun a => NoOF_pure _)
          | 16 =>
            refine NoOF_ite ?_ (NoOF_throwNe (by decide))
            exact NoOF_bind (ihE g _ (by omega)) (fun a =>
              NoOF_bind (NoOF_arbitrary_pattern_literal g)
                (fun p => NoOF_pure _))
          | 17 =>
            exact NoOF_bind (ihE g _ (by omega)) (fun a =>
              NoOF_bind (NoOF_chooseL _) (fun n => NoOF_pure _))
          | 18 =>
            exact NoOF_bind (NoOF_loopCount _ _) (fun c2 =>
              NoOF_bind (NoOF_loopM (ihE g _ (by omega)) c2) (fun l => NoOF_pure _))
          | 19 =>
            exact NoOF_bind (NoOF_loopCount _ _) (fun c2 =>
              NoOF_bind (NoOF_kvLoopM (NoOF_bind (NoOF_arbitrary_attr g)
                (fun p => NoOF_bind (ihE g _ (by omega)) (fun e => NoOF_pure _)))
                c2 []) (fun r => NoOF_pure _))
          | 20 => exact ihEB g d (by omega) (by omega)
          | 21 =>
            refine NoOF_bind (NoOF_pickWeighted _) (fun k2 => ?_)
            match k2 with
            | 0 =>
              exact NoOF_bind NoOF_nextNat (fun n =>
                NoOF_bind (NoOF_pure _) (fun an =>
                  NoOF_bind (ihE g _ (by omega)) (fun e => NoOF_pure _)))
            | (k3 + 1) =>
              exact NoOF_bind (NoOF_arbitrary_attr g) (fun p =>
                NoOF_bind (NoOF_pure _) (fun an =>
                  NoOF_bind (ihE g _ (by omega)) (fun e => NoOF_pure _)))
          | 22 =>
            refine NoOF_bind (NoOF_uniformM _) (fun k2 => ?_)
            match k2 with
            | 0 =>
              exact NoOF_bind (NoOF_arbitrary_attr g) (fun p =>
                NoOF_bind (NoOF_pure _) (fun an =>
                  NoOF_bind (ihE g _ (by omega)) (fun e => NoOF_pure _)))
            | (k3 + 1) =>
              exact NoOF_bind NoOF_nextNat (fun n =>
                NoOF_bind (NoOF_pure _) (fun an =>
                  NoOF_bind (ihE g _ (by omega)) (fun e => NoOF_pure _)))
          | (m + 23) =>
            refine NoOF_bind (NoOF_uniformM _) (fun k2 => ?_)
            match k2 with
            | 0 =>
              exact NoOF_bind (ihE g _ (by omega)) (fun tag =>
                NoOF_bind (ihE g _ (by omega)) (fun e => NoOF_pure _))
            | (k3 + 1) =>
              exact NoOF_bind (NoOF_arbitrary_attr g) (fun p =>
                NoOF_bind (NoOF_pure _) (fun tag =>
                  NoOF_bind (ihE g _ (by omega)) (fun e => NoOF_pure _)))
    have hEB : ∀ (g : Gen) (d : Nat), 2 * d + 1 ≤ fuel + 1 → 1 ≤ d →
        NoOF (generate_expr_ext_branch g d (fuel + 1)) := by
      intro g d h hd1
      simp only [generate_expr_ext_branch, bind_eq_bindG]
      have hTail : ∀ (c : Nat) (n : CName),
          NoOF (bindG (loopM (generate_expr g (d - 1) fuel) c)
            (fun args => pure (Expr.call n args))) :=
        fun c n => NoOF_bind (NoOF_loopM (ihE g (d - 1) (by omega)) c)
          (fun args => NoOF_pure _)
      refine NoOF_ite ?_ (NoOF_bindThrow (by decide))
      refine NoOF_bind (NoOF_pure _) (fun u => ?_)
      refine NoOF_bind (NoOF_ext_arbitrary_all g) (fun func => ?_)
      by_cases harb : g.settings.enable_arbitrary_func_call = true
      · simp only [if_pos harb]
        refine NoOF_bind (NoOF_ratioM _ _) (fun b => ?_)
        cases b
        · rw [if_neg (by simp)]
          refine NoOF_bind (NoOF_intInRange _ _) (fun y => ?_)
          refine NoOF_bind (NoOF_ratioM _ _) (fun b2 => ?_)
          cases b2
          · rw [if_neg (by simp)]
            exact NoOF_bind NoOF_nextNat (fun n =>
              NoOF_bind (NoOF_pure _) (fun y1 => hTail _ _))
          · rw [if_pos rfl]
            exact NoOF_bind (NoOF_pure _) (fun y1 => hTail _ _)
        · rw [if_pos rfl]
          refine NoOF_bind (NoOF_pure _) (fun y => ?_)
          refine NoOF_bind (NoOF_ratioM _ _) (fun b2 => ?_)
          cases b2
          · rw [if_neg (by simp)]
            exact NoOF_bind NoOF_nextNat (fun n =>
              NoOF_bind (NoOF_pure _) (fun y1 => hTail _ _))
          · rw [if_pos rfl]
            exact NoOF_bind (NoOF_pure _) (fun y1 => hTail _ _)
      · simp only [if_neg harb]
        exact NoOF_bind (NoOF_pure _) (fun y =>
          NoOF_bind (NoOF_pure _) (fun y1 => hTail _ _))
    have hT : ∀ (g : Gen) (t : Ty) (d : Nat), 2 * d + 4 ≤ fuel + 1 →
        NoOF (generate_expr_for_type g t d (fuel + 1)) := by
      intro g t d h
      simp only [generate_expr_for_type, bind_eq_bindG]
      refine NoOF_bind (NoOF_should_generate_unknown g _) (fun gu => ?_)
      cases gu with
      | true =>
        rw [if_pos rfl]
        refine NoOF_bind (ihVT g _ _ (by omega)) (fun v => ?_)
        refine NoOF_bind (NoOF_allocUnknown _ _) (fun name => ?_)
        rcases try_into_static_type t with _ | t2 <;> exact NoOF_pure _
      | false =>
        rw [if_neg (by simp)]
        cases t with
        | bool =>
          refine NoOF_bind NoOF_oracleLen (fun len => ?_)
          by_cases hcond : (d = 0 ∨ len < 10)
          · rw [if_pos hcond]
            exact NoOF_bind NoOF_nextNat (fun n => NoOF_pure _)
          · rw [if_neg hcond]
            refine NoOF_bind (NoOF_pickWeighted _) (fun i => ?_)
            match i with
            | 0 => exact NoOF_bind NoOF_nextNat (fun n => NoOF_pure _)
            | 1 =>
              exact NoOF_bind NoOF_nextNat (fun tn =>
                NoOF_bind (ihT g _ _ (by omega)) (fun a =>
                  NoOF_bind (ihT g _ _ (by omega)) (fun b => NoOF_pure _)))
            | 2 =>
              exact NoOF_bind NoOF_nextNat (fun t1 =>
                NoOF_bind NoOF_nextNat (fun t2 =>
                  NoOF_bind (ihT g _ _ (by omega)) (fun a =>
                    NoOF_bind (ihT g _ _ (by omega)) (fun b => NoOF_pure _))))
            | 3 =>
              exact NoOF_bind (ihT g _ _ (by omega)) (fun a => NoOF_pure _)
            | 4 =>
              exact NoOF_bind (ihT g _ _ (by omega)) (fun a => NoOF_bind (ihT g _ _ (by omega)) (fun b => NoOF_bind (ihT g _ _ (by omega)) (fun c3 => NoOF_pure _)))
            | 5 =>
              exact NoOF_bind (ihT g _ _ (by omega)) (fun a => NoOF_bind (ihT g _ _ (by omega)) (fun b => NoOF_pure _))
            | 6 =>
              exact NoOF_bind (ihT g _ _ (by omega)) (fun a => NoOF_bind (ihT g _ _ (by omega)) (fun b => NoOF_pure _))
            | 7 =>
              exact NoOF_bind (ihT g _ _ (by omega)) (fun a => NoOF_bind (ihT g _ _ (by omega)) (fun b => NoOF_pure _))
            | 8 =>
              exact NoOF_bind (ihT g _ _ (by omega)) (fun a => NoOF_bind (ihT g _ _ (by omega)) (fun b => NoOF_pure _))
            | 9 =>
              exact NoOF_bind (ihT g _ _ (by omega)) (fun a => NoOF_bind (ihT g _ _ (by omega)) (fun b => NoOF_pure _))
            | 10 =>
              exact NoOF_bind (ihT g _ _ (by omega)) (fun a => NoOF_bind (ihT g _ _ (by omega)) (fun b => NoOF_pure _))
            | 11 =>
              exact NoOF_bind (ihT g _ _ (by omega)) (fun a => NoOF_bind (ihT g _ _ (by omega)) (fun b => NoOF_pure _))
            | 12 =>
              exact NoOF_bind (ihT g _ _ (by omega)) (fun a => NoOF_bind (ihT g _ _ (by omega)) (fun b => NoOF_pure _))
            | 13 =>
              exact NoOF_bind NoOF_nextNat (fun tn =>
                NoOF_bind (ihT g _ _ (by omega)) (fun a =>
                  NoOF_bind (ihT g _ _ (by omega)) (fun b => NoOF_pure _)))
            | 14 =>
              exact NoOF_bind NoOF_nextNat (fun t1 =>
                NoOF_bind (ihT g _ _ (by omega)) (fun a =>
                  NoOF_bind NoOF_nextNat (fun t2 =>
                    NoOF_bind (ihT g _ _ (by omega)) (fun b => NoOF_pure _))))
            | 15 =>
              exact NoOF_bind NoOF_nextNat (fun t1 =>
                NoOF_bind (ihT g _ _ (by omega)) (fun a =>
                  NoOF_bind NoOF_nextNat (fun t2 =>
                    NoOF_bind (ihT g _ _ (by omega)) (fun b => NoOF_pure _))))
            | 16 =>
              exact NoOF_bind NoOF_nextNat (fun t1 =>
                NoOF_bind (ihT g _ _ (by omega)) (fun a => NoOF_pure _))
            | 17 =>
              refine NoOF_ite ?_ (NoOF_throwNe (by decide))
              exact NoOF_bind (ihT g _ _ (by omega)) (fun a =>
                NoOF_bind (NoOF_arbitrary_pattern_literal g)
                  (fun p => NoOF_pure _))
            | 18 =>
              exact NoOF_bind (ihT g _ _ (by omega)) (fun a =>
                NoOF_bind (NoOF_chooseL _) (fun n => NoOF_pure _))
            | 19 => exact ihXT g _ _ (by omega)
            | 20 =>
              exact NoOF_bind (NoOF_arbitrary_attr_for_schematype g _) (fun p => NoOF_bind (ihS g _ _ (by omega)) (fun base => NoOF_pure _))
            | 21 =>
              exact NoOF_bind (NoOF_arbitrary_string_constant g) (fun p => NoOF_bind (ihS g _ _ (by omega)) (fun base => NoOF_pure _))
            | 22 =>
              exact NoOF_bind (NoOF_arbitrary_entity_tag_schematype g _) (fun ety => NoOF_bind (ihS g _ _ (by omega)) (fun base => NoOF_bind (ihS g _ _ (by omega)) (fun k3 => NoOF_pure _)))
            | 23 =>
              refine NoOF_bind (NoOF_chooseIndexPanics _) (fun idx => ?_)
              cases hgi : g.schema.entity_types_map.get? idx with
              | none => exact NoOF_throwNe (by decide)
              | some p =>
                exact NoOF_bind (NoOF_chooseL _) (fun an =>
                  NoOF_bind (ihS g _ _ (by omega)) (fun base => NoOF_pure _))
            | 24 =>
              exact NoOF_bind (ihT g _ _ (by omega)) (fun base =>
                NoOF_bind (NoOF_arbitrary_string_constant g)
                  (fun an => NoOF_pure _))
            | 25 =>
              exact NoOF_bind (ihT g _ _ (by omega)) (fun a => NoOF_bind (ihT g _ _ (by omega)) (fun b => NoOF_pure _))
            | (m + 26) =>
              exact NoOF_bind (ihT g _ _ (by omega)) (fun base =>
                NoOF_bind (NoOF_arbitrary_string_constant g)
                  (fun an => NoOF_pure _))
        | long =>
          refine NoOF_bind NoOF_oracleLen (fun len => ?_)
          by_cases hcond : (d = 0 ∨ len < 10)
          · rw [if_pos hcond]
            exact NoOF_bind (NoOF_arbitrary_int_constant g) (fun v => NoOF_pure _)
          · rw [if_neg hcond]
            refine NoOF_bind (NoOF_pickWeighted _) (fun i => ?_)
            match i with
            | 0 =>
              exact NoOF_bind (NoOF_arbitrary_int_constant g)
                (fun v => NoOF_pure _)
            | 1 =>
              exact NoOF_bind (ihT g _ _ (by omega)) (fun a => NoOF_bind (ihT g _ _ (by omega)) (fun b => NoOF_bind (ihT g _ _ (by omega)) (fun c3 => NoOF_pure _)))
            | 2 =>
              exact NoOF_bind (ihT g _ _ (by omega)) (fun a => NoOF_bind (ihT g _ _ (by omega)) (fun b => NoOF_pure _))
            | 3 =>
              exact NoOF_bind (ihT g _ _ (by omega)) (fun a => NoOF_bind (ihT g _ _ (by omega)) (fun b => NoOF_pure _))
            | 4 =>
              exact NoOF_bind (ihT g _ _ (by omega)) (fun a => NoOF_bind (ihT g _ _ (by omega)) (fun b => NoOF_pure _))
            | 5 =>
              exact NoOF_bind (ihT g _ _ (by omega)) (fun a => NoOF_pure _)
            | 6 => exact ihXT g _ _ (by omega)
            | 7 =>
              exact NoOF_bind (NoOF_arbitrary_attr_for_schematype g _) (fun p => NoOF_bind (ihS g _ _ (by omega)) (fun base => NoOF_pure _))
            | 8 =>
              exact NoOF_bind (NoOF_arbitrary_string_constant g) (fun p => NoOF_bind (ihS g _ _ (by omega)) (fun base => NoOF_pure _))
            | (m + 9) =>
              exact NoOF_bind (NoOF_arbitrary_entity_tag_schematype g _) (fun ety => NoOF_bind (ihS g _ _ (by omega)) (fun base => NoOF_bind (ihS g _ _ (by omega)) (fun k3 => NoOF_pure _)))
        | string =>
          refine NoOF_bind NoOF_oracleLen (fun len => ?_)
          by_cases hcond : (d = 0 ∨ len < 10)
          · rw [if_pos hcond]
            exact NoOF_bind (NoOF_arbitrary_string_constant g) (fun v => NoOF_pure _)
          · rw [if_neg hcond]
            refine NoOF_bind (NoOF_pickWeighted _) (fun i => ?_)
            match i with
            | 0 =>
              exact NoOF_bind (NoOF_arbitrary_string_constant g)
                (fun v => NoOF_pure _)
            | 1 =>
              exact NoOF_bind (ihT g _ _ (by omega)) (fun a => NoOF_bind (ihT g _ _ (by omega)) (fun b => NoOF_bind (ihT g _ _ (by omega)) (fun c3 => NoOF_pure _)))
            | 2 => exact ihXT g _ _ (by omega)
            | 3 =>
              exact NoOF_bind (NoOF_arbitrary_attr_for_schematype g _) (fun p => NoOF_bind (ihS g _ _ (by omega)) (fun base => NoOF_pure _))
            | 4 =>
              exact NoOF_bind (NoOF_arbitrary_string_constant g) (fun p => NoOF_bind (ihS g _ _ (by omega)) (fun base => NoOF_pure _))
            | (m + 5) =>
              exact NoOF_bind (NoOF_arbitrary_entity_tag_schematype g _) (fun ety => NoOF_bind (ihS g _ _ (by omega)) (fun base => NoOF_bind (ihS g _ _ (by omega)) (fun k3 => NoOF_pure _)))
        | setAny =>
          refine NoOF_bind NoOF_oracleLen (fun len => ?_)
          by_cases hcond : (d = 0 ∨ len < 10)
          · rw [if_pos hcond]
            exact NoOF_pure _
          · rw [if_neg hcond]
            refine NoOF_bind (NoOF_pickWeighted _) (fun i => ?_)
            match i with
            | 0 =>
              exact NoOF_bind NoOF_nextNat (fun n =>
                NoOF_bind (NoOF_pure _) (fun ety =>
                  NoOF_bind (NoOF_loopCount _ _) (fun c2 =>
                    NoOF_bind (NoOF_loopM (ihT g _ _ (by omega)) c2)
                      (fun l => NoOF_pure _))))
            | 1 =>
              exact NoOF_bind (ihT g _ _ (by omega)) (fun a => NoOF_bind (ihT g _ _ (by omega)) (fun b => NoOF_bind (ihT g _ _ (by omega)) (fun c3 => NoOF_pure _)))
            | 2 => exact ihXT g _ _ (by omega)
            | 3 =>
              exact NoOF_bind (NoOF_arbitrary_attr_for_type g _) (fun p => NoOF_bind (ihS g _ _ (by omega)) (fun base => NoOF_pure _))
            | 4 =>
              refine NoOF_bind (NoOF_arbitrary_string_constant g) (fun an => ?_)
              cases hti : try_into_schematype g Ty.setAny with
              | none => exact NoOF_throwNe (by decide)
              | some sty =>
                exact NoOF_bind (ihS g _ _ (by omega)) (fun base => NoOF_pure _)
            | (m + 5) =>
              exact NoOF_bind (NoOF_arbitrary_entity_tag_type g _) (fun ety => NoOF_bind (ihS g _ _ (by omega)) (fun base => NoOF_bind (ihS g _ _ (by omega)) (fun k3 => NoOF_pure _)))
        | setOf elem =>
          refine NoOF_bind NoOF_oracleLen (fun len => ?_)
          by_cases hcond : (d = 0 ∨ len < 10)
          · rw [if_pos hcond]
            exact NoOF_pure _
          · rw [if_neg hcond]
            refine NoOF_bind (NoOF_pickWeighted _) (fun i => ?_)
            match i with
            | 0 =>
              exact NoOF_bind (NoOF_pure _) (fun ety =>
                NoOF_bind (NoOF_loopCount _ _) (fun c2 =>
                  NoOF_bind (NoOF_loopM (ihT g _ _ (by omega)) c2)
                    (fun l => NoOF_pure _)))
            | 1 =>
              exact NoOF_bind (ihT g _ _ (by omega)) (fun a => NoOF_bind (ihT g _ _ (by omega)) (fun b => NoOF_bind (ihT g _ _ (by omega)) (fun c3 => NoOF_pure _)))
            | 2 => exact ihXT g _ _ (by omega)
            | 3 =>
              exact NoOF_bind (NoOF_arbitrary_attr_for_type g _) (fun p => NoOF_bind (ihS g _ _ (by omega)) (fun base => NoOF_pure _))
            | 4 =>
              refine NoOF_bind (NoOF_arbitrary_string_constant g) (fun an => ?_)
              cases hti : try_into_schematype g (Ty.setOf elem) with
              | none => exact NoOF_throwNe (by decide)
              | some sty =>
                exact NoOF_bind (ihS g _ _ (by omega)) (fun base => NoOF_pure _)
            | (m + 5) =>
              exact NoOF_bind (NoOF_arbitrary_entity_tag_type g _) (fun ety => NoOF_bind (ihS g _ _ (by omega)) (fun base => NoOF_bind (ihS g _ _ (by omega)) (fun k3 => NoOF_pure _)))
        | record =>
          refine NoOF_bind NoOF_oracleLen (fun len => ?_)
          by_cases hcond : (d = 0 ∨ len < 10)
          · rw [if_pos hcond]
            exact NoOF_throwNe (by decide)
          · rw [if_neg hcond]
            refine NoOF_bind (NoOF_pickWeighted _) (fun i => ?_)
            match i with
            | 0 =>
              exact NoOF_bind (NoOF_loopCount _ _) (fun c2 =>
                NoOF_bind (NoOF_kvLoopM (NoOF_bind NoOF_nextNat (fun tn =>
                  NoOF_bind (ihT g _ _ (by omega)) (fun v =>
                    NoOF_bind (NoOF_arbitrary_string_constant g)
                      (fun an => NoOF_pure _)))) c2 [])
                  (fun r => NoOF_pure _))
            | 1 =>
              exact NoOF_bind (ihT g _ _ (by omega)) (fun a => NoOF_bind (ihT g _ _ (by omega)) (fun b => NoOF_bind (ihT g _ _ (by omega)) (fun c3 => NoOF_pure _)))
            | 2 => exact ihXT g _ _ (by omega)
            | 3 =>
              exact NoOF_bind (NoOF_arbitrary_attr_for_schematype g _) (fun p => NoOF_bind (ihS g _ _ (by omega)) (fun base => NoOF_pure _))
            | 4 =>
              exact NoOF_bind (NoOF_arbitrary_string_constant g) (fun p => NoOF_bind (ihS g _ _ (by omega)) (fun base => NoOF_pure _))
            | (m + 5) =>
              exact NoOF_bind (NoOF_arbitrary_entity_tag_type g _) (fun ety => NoOF_bind (ihS g _ _ (by omega)) (fun base => NoOF_bind (ihS g _ _ (by omega)) (fun k3 => NoOF_pure _)))
        | entity =>
          refine NoOF_bind NoOF_oracleLen (fun len => ?_)
          by_cases hcond : (d = 0 ∨ len < 10)
          · rw [if_pos hcond]
            exact NoOF_bind (NoOF_chooseL _) (fun v => NoOF_pure _)
          · rw [if_neg hcond]
            refine NoOF_bind (NoOF_pickWeighted _) (fun i => ?_)
            match i with
            | 0 => exact NoOF_bind (NoOF_generate_uid g) (fun uid => NoOF_pure _)
            | 1 => exact NoOF_bind NoOF_nextNat (fun n => NoOF_pure _)
            | 2 => exact NoOF_pure _
            | 3 => exact NoOF_pure _
            | 4 => exact NoOF_pure _
            | 5 =>
              exact NoOF_bind (ihT g _ _ (by omega)) (fun a => NoOF_bind (ihT g _ _ (by omega)) (fun b => NoOF_bind (ihT g _ _ (by omega)) (fun c3 => NoOF_pure _)))
            | 6 => exact ihXT g _ _ (by omega)
            | 7 =>
              exact NoOF_bind (NoOF_chooseL _) (fun e0 =>
                NoOF_bind (NoOF_arbitrary_attr_for_schematype g _) (fun p =>
                  NoOF_bind (ihS g _ _ (by omega)) (fun base => NoOF_pure _)))
            | 8 =>
              exact NoOF_bind (NoOF_arbitrary_string_constant g) (fun an =>
                NoOF_bind (NoOF_chooseL _) (fun e0 =>
                  NoOF_bind (ihS g _ _ (by omega)) (fun base => NoOF_pure _)))
            | (m + 9) =>
              exact NoOF_bind (NoOF_chooseL _) (fun e0 =>
                NoOF_bind (NoOF_arbitrary_entity_tag_schematype g _) (fun ety =>
                  NoOF_bind (ihS g _ _ (by omega)) (fun base =>
                    NoOF_bind (ihS g _ _ (by omega)) (fun k3 => NoOF_pure _))))
        | ipaddr =>
          by_cases hx : g.settings.enable_extensions = true
          · rw [if_pos hx]
            refine NoOF_bind (NoOF_pure _) (fun u => ?_)
            refine NoOF_bind NoOF_oracleLen (fun len => ?_)
            by_cases hcond : (d = 0 ∨ len < 10)
            · rw [if_pos hcond]
              exact NoOF_arbitrary_ext_ctor g _ _ _
            · rw [if_neg hcond]
              refine NoOF_bind (NoOF_pickWeighted _) (fun i => ?_)
              match i with
              | 0 =>
                exact NoOF_bind (ihT g _ _ (by omega)) (fun a => NoOF_bind (ihT g _ _ (by omega)) (fun b => NoOF_bind (ihT g _ _ (by omega)) (fun c3 => NoOF_pure _)))
              | 1 => exact ihXT g _ _ (by omega)
              | 2 =>
                exact NoOF_bind (NoOF_arbitrary_attr_for_schematype g _) (fun p => NoOF_bind (ihS g _ _ (by omega)) (fun base => NoOF_pure _))
              | 3 =>
                exact NoOF_bind (NoOF_arbitrary_string_constant g) (fun p => NoOF_bind (ihS g _ _ (by omega)) (fun base => NoOF_pure _))
              | (m + 4) =>
                exact NoOF_bind (NoOF_arbitrary_entity_tag_schematype g _) (fun ety => NoOF_bind (ihS g _ _ (by omega)) (fun base => NoOF_bind (ihS g _ _ (by omega)) (fun k3 => NoOF_pure _)))
          · rw [if_neg hx]
            exact NoOF_bindThrow (by decide)
        | decimal =>
          by_cases hx : g.settings.enable_extensions = true
          · rw [if_pos hx]
            refine NoOF_bind (NoOF_pure _) (fun u => ?_)
            refine NoOF_bind NoOF_oracleLen (fun len => ?_)
            by_cases hcond : (d = 0 ∨ len < 10)
            · rw [if_pos hcond]
              exact NoOF_arbitrary_ext_ctor g _ _ _
            · rw [if_neg hcond]
              refine NoOF_bind (NoOF_pickWeighted _) (fun i => ?_)
              match i with
              | 0 =>
                exact NoOF_bind (ihT g _ _ (by omega)) (fun a => NoOF_bind (ihT g _ _ (by omega)) (fun b => NoOF_bind (ihT g _ _ (by omega)) (fun c3 => NoOF_pure _)))
              | 1 => exact ihXT g _ _ (by omega)
              | 2 =>
                exact NoOF_bind (NoOF_arbitrary_attr_for_schematype g _) (fun p => NoOF_bind (ihS g _ _ (by omega)) (fun base => NoOF_pure _))
              | 3 =>
                exact NoOF_bind (NoOF_arbitrary_string_constant g) (fun p => NoOF_bind (ihS g _ _ (by omega)) (fun base => NoOF_pure _))
              | (m + 4) =>
                exact NoOF_bind (NoOF_arbitrary_entity_tag_schematype g _) (fun ety => NoOF_bind (ihS g _ _ (by omega)) (fun base => NoOF_bind (ihS g _ _ (by omega)) (fun k3 => NoOF_pure _)))
          · rw [if_neg hx]
            exact NoOF_bindThrow (by decide)
        | datetime =>
          by_cases hx : g.settings.enable_extensions = true
          · rw [if_pos hx]
            refine NoOF_bind (NoOF_pure _) (fun u => ?_)
            refine NoOF_bind NoOF_oracleLen (fun len => ?_)
            by_cases hcond : (d = 0 ∨ len < 10)
            · rw [if_pos hcond]
              exact NoOF_arbitrary_ext_ctor g _ _ _
            · rw [if_neg hcond]
              refine NoOF_bind (NoOF_pickWeighted _) (fun i => ?_)
              match i with
              | 0 =>
                exact NoOF_bind (ihT g _ _ (by omega)) (fun a => NoOF_bind (ihT g _ _ (by omega)) (fun b => NoOF_bind (ihT g _ _ (by omega)) (fun c3 => NoOF_pure _)))
              | 1 => exact ihXT g _ _ (by omega)
              | 2 =>
                exact NoOF_bind (NoOF_arbitrary_attr_for_schematype g _) (fun p => NoOF_bind (ihS g _ _ (by omega)) (fun base => NoOF_pure _))
              | 3 =>
                exact NoOF_bind (NoOF_arbitrary_string_constant g) (fun p => NoOF_bind (ihS g _ _ (by omega)) (fun base => NoOF_pure _))
              | (m + 4) =>
                exact NoOF_bind (NoOF_arbitrary_entity_tag_schematype g _) (fun ety => NoOF_bind (ihS g _ _ (by omega)) (fun base => NoOF_bind (ihS g _ _ (by omega)) (fun k3 => NoOF_pure _)))
          · rw [if_neg hx]
            exact NoOF_bindThrow (by decide)
        | duration =>
          by_cases hx : g.settings.enable_extensions = true
          · rw [if_pos hx]
            refine NoOF_bind (NoOF_pure _) (fun u => ?_)
            refine NoOF_bind NoOF_oracleLen (fun len => ?_)
            by_cases hcond : (d = 0 ∨ len < 10)
            · rw [if_pos hcond]
              exact NoOF_arbitrary_ext_ctor g _ _ _
            · rw [if_neg hcond]
              refine NoOF_bind (NoOF_pickWeighted _) (fun i => ?_)
              match i with
              | 0 =>
                exact NoOF_bind (ihT g _ _ (by omega)) (fun a => NoOF_bind (ihT g _ _ (by omega)) (fun b => NoOF_bind (ihT g _ _ (by omega)) (fun c3 => NoOF_pure _)))
              | 1 => exact ihXT g _ _ (by omega)
              | 2 =>
                exact NoOF_bind (NoOF_arbitrary_attr_for_schematype g _) (fun p => NoOF_bind (ihS g _ _ (by omega)) (fun base => NoOF_pure _))
              | 3 =>
                exact NoOF_bind (NoOF_arbitrary_string_constant g) (fun p => NoOF_bind (ihS g _ _ (by omega)) (fun base => NoOF_pure _))
              | (m + 4) =>
                exact NoOF_bind (NoOF_arbitrary_entity_tag_schematype g _) (fun ety => NoOF_bind (ihS g _ _ (by omega)) (fun base => NoOF_bind (ihS g _ _ (by omega)) (fun k3 => NoOF_pure _)))
          · rw [if_neg hx]
            exact NoOF_bindThrow (by decide)
    have hS : ∀ (g : Gen) (t : SchemaTy) (d : Nat), 2 * d + 5 ≤ fuel + 1 →
        NoOF (generate_expr_for_schematype g t d (fuel + 1)) := by
      intro g t d h
      simp only [generate_expr_for_schematype, bind_eq_bindG]
      cases hres : resolveHead g t with
      | none => exact NoOF_throwNe (by decide)
      | some rt =>
        cases rt with
        | boolean => exact ihT g _ _ (by omega)
        | long => exact ihT g _ _ (by omega)
        | string => exact ihT g _ _ (by omega)
        | extension name =>
          exact NoOF_ite (ihT g _ _ (by omega)) (NoOF_ite (ihT g _ _ (by omega))
            (NoOF_ite (ihT g _ _ (by omega)) (NoOF_ite (ihT g _ _ (by omega))
              (NoOF_throwNe (by decide)))))
        | set ety3 =>
          refine NoOF_bind NoOF_oracleLen (fun len => ?_)
          by_cases hcond : (d = 0 ∨ len < 10)
          · rw [if_pos hcond]
            exact NoOF_pure _
          · rw [if_neg hcond]
            refine NoOF_bind (NoOF_pickWeighted _) (fun i => ?_)
            match i with
            | 0 =>
              exact NoOF_bind (NoOF_loopCount _ _) (fun c2 =>
                NoOF_bind (NoOF_loopM (ihS g _ _ (by omega)) c2) (fun l => NoOF_pure _))
            | 1 =>
              exact NoOF_bind (ihT g _ _ (by omega)) (fun a => NoOF_bind (ihS g _ _ (by omega)) (fun b => NoOF_bind (ihS g _ _ (by omega)) (fun c3 => NoOF_pure _)))
            | 2 => exact ihXS g _ _ (by omega)
            | 3 =>
              exact NoOF_bind (NoOF_arbitrary_attr_for_schematype g _) (fun p => NoOF_bind (ihS g _ _ (by omega)) (fun base => NoOF_pure _))
            | 4 =>
              exact NoOF_bind (NoOF_arbitrary_string_constant g) (fun p => NoOF_bind (ihS g _ _ (by omega)) (fun base => NoOF_pure _))
            | (m + 5) =>
              exact NoOF_bind (NoOF_arbitrary_entity_tag_schematype g _) (fun ety => NoOF_bind (ihS g _ _ (by omega)) (fun base => NoOF_bind (ihS g _ _ (by omega)) (fun k3 => NoOF_pure _)))
        | record attrs3 addl3 =>
          refine NoOF_bind NoOF_oracleLen (fun len => ?_)
          by_cases hcond : (d = 0 ∨ len < 10)
          · rw [if_pos hcond]
            exact NoOF_throwNe (by decide)
          · rw [if_neg hcond]
            refine NoOF_bind (NoOF_pickWeighted _) (fun i => ?_)
            match i with
            | 0 =>
              refine NoOF_ite ?_ ?_
              · exact NoOF_bind (NoOF_loopCount _ _) (fun c2 =>
                  NoOF_bind (NoOF_kvLoopM (NoOF_bind NoOF_nextNat (fun tn =>
                    NoOF_bind NoOF_nextNat (fun sn =>
                      NoOF_bind (ihT g _ _ (by omega)) (fun v => NoOF_pure _)))) c2 [])
                    (fun y => NoOF_bind (NoOF_overlayM
                      (fun ty2 => ihS g ty2 _ (by omega)) _ _)
                      (fun r => NoOF_pure _)))
              · exact NoOF_bind (NoOF_pure _) (fun y =>
                  NoOF_bind (NoOF_overlayM
                    (fun ty2 => ihS g ty2 _ (by omega)) _ _)
                    (fun r => NoOF_pure _))
            | 1 => exact NoOF_throwNe (by decide)
            | 2 =>
              exact NoOF_bind (ihT g _ _ (by omega)) (fun a => NoOF_bind (ihS g _ _ (by omega)) (fun b => NoOF_bind (ihS g _ _ (by omega)) (fun c3 => NoOF_pure _)))
            | 3 => exact ihXS g _ _ (by omega)
            | 4 =>
              exact NoOF_bind (NoOF_arbitrary_attr_for_schematype g _) (fun p => NoOF_bind (ihS g _ _ (by omega)) (fun base => NoOF_pure _))
            | 5 =>
              exact NoOF_bind (NoOF_arbitrary_string_constant g) (fun p => NoOF_bind (ihS g _ _ (by omega)) (fun base => NoOF_pure _))
            | (m + 6) =>
              exact NoOF_bind (NoOF_arbitrary_entity_tag_schematype g _) (fun ety => NoOF_bind (ihS g _ _ (by omega)) (fun base => NoOF_bind (ihS g _ _ (by omega)) (fun k3 => NoOF_pure _)))
        | entity name =>
          refine NoOF_bind NoOF_oracleLen (fun len => ?_)
          by_cases hcond : (d = 0 ∨ len < 10)
          · rw [if_pos hcond]
            exact NoOF_bind (NoOF_chooseL _) (fun v => NoOF_pure _)
          · rw [if_neg hcond]
            refine NoOF_bind (NoOF_pickWeighted _) (fun i => ?_)
            match i with
            | 0 =>
              exact NoOF_bind (NoOF_arbitrary_uid_with_type g _)
                (fun uid => NoOF_pure _)
            | 1 => exact NoOF_pure _
            | 2 => exact NoOF_pure _
            | 3 => exact NoOF_pure _
            | 4 =>
              exact NoOF_bind (ihT g _ _ (by omega)) (fun a => NoOF_bind (ihS g _ _ (by omega)) (fun b => NoOF_bind (ihS g _ _ (by omega)) (fun c3 => NoOF_pure _)))
            | 5 => exact ihXT g _ _ (by omega)
            | 6 =>
              exact NoOF_bind (NoOF_arbitrary_attr_for_schematype g _) (fun p => NoOF_bind (ihS g _ _ (by omega)) (fun base => NoOF_pure _))
            | 7 =>
              exact NoOF_bind (NoOF_arbitrary_string_constant g) (fun p => NoOF_bind (ihS g _ _ (by omega)) (fun base => NoOF_pure _))
            | (m + 8) =>
              exact NoOF_bind (NoOF_arbitrary_entity_tag_schematype g _) (fun ety => NoOF_bind (ihS g _ _ (by omega)) (fun base => NoOF_bind (ihS g _ _ (by omega)) (fun k3 => NoOF_pure _)))
        | entityOrCommon name => exact NoOF_throwNe (by decide)
        | commonRef name => exact NoOF_throwNe (by decide)
    have hXT : ∀ (g : Gen) (t : Ty) (d : Nat), 2 * d + 5 ≤ fuel + 1 →
        NoOF (generate_ext_func_call_for_type g t d (fuel + 1)) := by
      intro g t d h
      simp only [generate_ext_func_call_for_type, bind_eq_bindG]
      refine NoOF_bind (NoOF_ext_arbitrary_for_type g _) (fun func => ?_)
      refine NoOF_ite ?_ (NoOF_bindThrow (by decide))
      refine NoOF_bind (NoOF_pure _) (fun u => ?_)
      exact NoOF_bind (NoOF_mapMG (fun p2 => ihT g _ _ (by omega)) _)
        (fun args => NoOF_pure _)
    have hXS : ∀ (g : Gen) (t : SchemaTy) (d : Nat), 2 * d + 6 ≤ fuel + 1 →
        NoOF (generate_ext_func_call_for_schematype g t d (fuel + 1)) := by
      intro g t d h
      simp only [generate_ext_func_call_for_schematype, bind_eq_bindG]
      cases hres : resolveHead g t with
      | none => exact NoOF_throwNe (by decide)
      | some rt =>
        cases rt with
        | boolean => exact ihXT g _ _ (by omega)
        | long => exact ihXT g _ _ (by omega)
        | string => exact ihXT g _ _ (by omega)
        | extension name =>
          exact NoOF_ite (ihXT g _ _ (by omega)) (NoOF_ite (ihXT g _ _ (by omega))
            (NoOF_ite (ihXT g _ _ (by omega)) (NoOF_ite (ihXT g _ _ (by omega))
              (NoOF_throwNe (by decide)))))
        | set ety3 => exact NoOF_throwNe (by decide)
        | record attrs3 addl3 => exact NoOF_throwNe (by decide)
        | entity name => exact NoOF_throwNe (by decide)
        | entityOrCommon name => exact NoOF_throwNe (by decide)
        | commonRef name => exact NoOF_throwNe (by decide)
    have hAT : ∀ (g : Gen) (t : Ty) (d : Nat), 2 * d + 1 ≤ fuel + 1 →
        NoOF (generate_attr_value_for_type g t d (fuel + 1)) := by
      intro g t d h
      simp only [generate_attr_value_for_type, bind_eq_bindG]
      cases t with
      | bool => exact NoOF_bind NoOF_nextNat (fun n => NoOF_pure _)
      | long =>
        exact NoOF_bind (NoOF_arbitrary_int_constant g)
          (fun v => NoOF_pure _)
      | string =>
        exact NoOF_bind (NoOF_arbitrary_string_constant g)
          (fun v => NoOF_pure _)
      | entity =>
        exact NoOF_bind (NoOF_generate_uid g) (fun uid => NoOF_pure _)
      | ipaddr =>
        exact NoOF_ite (NoOF_throwNe (by decide))
          (NoOF_arbitrary_ext_ctor g _ _ _)
      | decimal =>
        exact NoOF_ite (NoOF_throwNe (by decide))
          (NoOF_arbitrary_ext_ctor g _ _ _)
      | datetime =>
        exact NoOF_ite (NoOF_throwNe (by decide))
          (NoOF_arbitrary_ext_ctor g _ _ _)
      | duration =>
        exact NoOF_ite (NoOF_throwNe (by decide))
          (NoOF_arbitrary_ext_ctor g _ _ _)
      | setAny =>
        show NoOF (ite (d = 0) _ _)
        by_cases hd0 : d = 0
        · rw [if_pos hd0]; exact NoOF_pure _
        · rw [if_neg hd0]
          exact NoOF_bind NoOF_nextNat (fun n =>
            NoOF_bind (NoOF_pure _) (fun ety =>
              NoOF_bind (NoOF_loopCount _ _) (fun c2 =>
                NoOF_bind (NoOF_loopM (ihAT g _ _ (by omega)) c2)
                  (fun l => NoOF_pure _))))
      | setOf elem =>
        show NoOF (ite (d = 0) _ _)
        by_cases hd0 : d = 0
        · rw [if_pos hd0]; exact NoOF_pure _
        · rw [if_neg hd0]
          exact NoOF_bind (NoOF_pure _) (fun ety =>
            NoOF_bind (NoOF_loopCount _ _) (fun c2 =>
              NoOF_bind (NoOF_loopM (ihAT g _ _ (by omega)) c2)
                (fun l => NoOF_pure _)))
      | record =>
        show NoOF (ite (d = 0) _ _)
        by_cases hd0 : d = 0
        · rw [if_pos hd0]; exact NoOF_pure _
        · rw [if_neg hd0]
          exact NoOF_bind (NoOF_loopCount _ _) (fun c2 =>
            NoOF_bind (NoOF_kvLoopM (NoOF_bind (NoOF_arbitrary_attr g)
              (fun p => NoOF_bind (ihAS g _ _ (by omega))
                (fun v => NoOF_pure _))) c2 [])
              (fun r => NoOF_pure _))
    have hAS : ∀ (g : Gen) (t : SchemaTy) (d : Nat), 2 * d + 2 ≤ fuel + 1 →
        NoOF (generate_attr_value_for_schematype g t d (fuel + 1)) := by
      intro g t d h
      simp only [generate_attr_value_for_schematype, bind_eq_bindG]
      cases hres : resolveHead g t with
      | none => exact NoOF_throwNe (by decide)
      | some rt =>
        cases rt with
        | boolean => exact ihAT g _ _ (by omega)
        | long => exact ihAT g _ _ (by omega)
        | string => exact ihAT g _ _ (by omega)
        | set ety3 =>
          show NoOF (ite (d = 0) _ _)
          by_cases hd0 : d = 0
          · rw [if_pos hd0]; exact NoOF_pure _
          · rw [if_neg hd0]
            exact NoOF_bind (NoOF_loopCount _ _) (fun c2 =>
              NoOF_bind (NoOF_loopM (ihAS g _ _ (by omega)) c2)
                (fun l => NoOF_pure _))
        | record attrs3 addl3 =>
          show NoOF (ite (d = 0) _ _)
          by_cases hd0 : d = 0
          · rw [if_pos hd0]; exact NoOF_throwNe (by decide)
          · rw [if_neg hd0]
            refine NoOF_ite ?_ ?_
            · exact NoOF_bind (NoOF_loopCount _ _) (fun c2 =>
                NoOF_bind (NoOF_kvLoopM (NoOF_bind (NoOF_arbitrary_attr g)
                  (fun p => NoOF_bind (ihAS g _ _ (by omega))
                    (fun v => NoOF_pure _))) c2 [])
                  (fun y => NoOF_bind (NoOF_overlayM
                    (fun ty2 => ihAS g ty2 _ (by omega)) _ _)
                    (fun r => NoOF_pure _)))
            · exact NoOF_bind (NoOF_pure _) (fun y =>
                NoOF_bind (NoOF_overlayM
                  (fun ty2 => ihAS g ty2 _ (by omega)) _ _)
                  (fun r => NoOF_pure _))
        | entity name =>
          exact NoOF_bind (NoOF_arbitrary_uid_with_type g _)
            (fun uid => NoOF_pure _)
        | extension name =>
          refine NoOF_ite ?_ (NoOF_bindThrow (by decide))
          refine NoOF_bind (NoOF_pure _) (fun u => ?_)
          exact NoOF_ite (ihAT g _ _ (by omega)) (NoOF_ite (ihAT g _ _ (by omega))
            (NoOF_ite (ihAT g _ _ (by omega)) (NoOF_ite (ihAT g _ _ (by omega))
              (NoOF_throwNe (by decide)))))
        | entityOrCommon name => exact NoOF_throwNe (by decide)
        | commonRef name => exact NoOF_throwNe (by decide)
    have hVT : ∀ (g : Gen) (t : Ty) (d : Nat), 2 * d + 1 ≤ fuel + 1 →
        NoOF (generate_value_for_type g t d (fuel + 1)) := by
      intro g t d h
      simp only [generate_value_for_type, bind_eq_bindG]
      cases t with
      | bool => exact NoOF_bind NoOF_nextNat (fun n => NoOF_pure _)
      | long =>
        exact NoOF_bind (NoOF_arbitrary_int_constant g)
          (fun v => NoOF_pure _)
      | string =>
        exact NoOF_bind (NoOF_arbitrary_string_constant g)
          (fun v => NoOF_pure _)
      | entity =>
        exact NoOF_bind (NoOF_generate_uid g) (fun uid => NoOF_pure _)
      | ipaddr => exact NoOF_throwNe (by decide)
      | decimal => exact NoOF_throwNe (by decide)
      | datetime => exact NoOF_throwNe (by decide)
      | duration => exact NoOF_throwNe (by decide)
      | setAny =>
        show NoOF (ite (d = 0) _ _)
        by_cases hd0 : d = 0
        · rw [if_pos hd0]; exact NoOF_pure _
        · rw [if_neg hd0]
          exact NoOF_bind NoOF_nextNat (fun n =>
            NoOF_bind (NoOF_pure _) (fun ety =>
              NoOF_bind (NoOF_loopCount _ _) (fun c2 =>
                NoOF_bind (NoOF_loopM (ihVT g _ _ (by omega)) c2)
                  (fun l => NoOF_pure _))))
      | setOf elem =>
        show NoOF (ite (d = 0) _ _)
        by_cases hd0 : d = 0
        · rw [if_pos hd0]; exact NoOF_pure _
        · rw [if_neg hd0]
          exact NoOF_bind (NoOF_pure _) (fun ety =>
            NoOF_bind (NoOF_loopCount _ _) (fun c2 =>
              NoOF_bind (NoOF_loopM (ihVT g _ _ (by omega)) c2)
                (fun l => NoOF_pure _)))
      | record =>
        show NoOF (ite (d = 0) _ _)
        by_cases hd0 : d = 0
        · rw [if_pos hd0]; exact NoOF_pure _
        · rw [if_neg hd0]
          exact NoOF_bind (NoOF_loopCount _ _) (fun c2 =>
            NoOF_bind (NoOF_kvLoopM (NoOF_bind (NoOF_arbitrary_attr g)
              (fun p => NoOF_bind (ihVS g _ _ (by omega))
                (fun v => NoOF_pure _))) c2 [])
              (fun r => NoOF_pure _))
    have hVS : ∀ (g : Gen) (t : SchemaTy) (d : Nat), 2 * d + 2 ≤ fuel + 1 →
        NoOF (generate_value_for_schematype g t d (fuel + 1)) := by
      intro g t d h
      simp only [generate_value_for_schematype, bind_eq_bindG]
      cases hres : resolveHead g t with
      | none => exact NoOF_throwNe (by decide)
      | some rt =>
        cases rt with
        | boolean => exact ihVT g _ _ (by omega)
        | long => exact ihVT g _ _ (by omega)
        | string => exact ihVT g _ _ (by omega)
        | set ety3 =>
          show NoOF (ite (d = 0) _ _)
          by_cases hd0 : d = 0
          · rw [if_pos hd0]; exact NoOF_pure _
          · rw [if_neg hd0]
            exact NoOF_bind (NoOF_loopCount _ _) (fun c2 =>
              NoOF_bind (NoOF_loopM (ihVS g _ _ (by omega)) c2)
                (fun l => NoOF_pure _))
        | record attrs3 addl3 =>
          show NoOF (ite (d = 0) _ _)
          by_cases hd0 : d = 0
          · rw [if_pos hd0]; exact NoOF_throwNe (by decide)
          · rw [if_neg hd0]
            refine NoOF_ite ?_ ?_
            · exact NoOF_bind (NoOF_loopCount _ _) (fun c2 =>
                NoOF_bind (NoOF_kvLoopM (NoOF_bind (NoOF_arbitrary_attr g)
                  (fun p => NoOF_bind (ihVS g _ _ (by omega))
                    (fun v => NoOF_pure _))) c2 [])
                  (fun y => NoOF_bind (NoOF_overlayM
                    (fun ty2 => ihVS g ty2 _ (by omega)) _ _)
                    (fun r => NoOF_pure _)))
            · exact NoOF_bind (NoOF_pure _) (fun y =>
                NoOF_bind (NoOF_overlayM
                  (fun ty2 => ihVS g ty2 _ (by omega)) _ _)
                  (fun r => NoOF_pure _))
        | entity name =>
          exact NoOF_bind (NoOF_arbitrary_uid_with_type g _)
            (fun uid => NoOF_pure _)
        | extension name => exact NoOF_throwNe (by decide)
        | entityOrCommon name => exact NoOF_throwNe (by decide)
        | commonRef name => exact NoOF_throwNe (by decide)
    exact ⟨hE, hEB, hT, hS, hXT, hXS, hAT, hAS, hVT, hVS⟩

/-- C1 counterexample: call-stack depth is NOT bounded by `max_depth` plus
a small constant.  The cycle `generate_expr_for_type` →
`generate_ext_func_call_for_type` → argument generation consumes two stack
frames per unit of `max_depth` (the menu passes `max_depth - 1` to the
call generator, which generates each argument at its own full budget,
`expr.rs` 1750-1764).  With the one-function Bool registry of `g1`, an
oracle that repeatedly selects the extension-call production (draw 55:
residue 55 of the Bool menu's total 66 selects index 19) drives that
cycle, and fuel `max_depth + 5` (the model's fuel decrements once per
generator stack frame) runs out at `max_depth = 10`; fuel
`2 * max_depth + 6` succeeds on the same oracle. -/
theorem generate_expr_for_type_stack_depth_csx :
    15 = 10 + 5
    ∧ generate_expr_for_type g1 .bool 10 15
        ⟨(List.replicate 20 [55, 0]).flatten, []⟩ = .error .outOfFuel :=
  ⟨rfl, rfl⟩

/-- C1 (amended): for every oracle content, every generator of the family
terminates without exhausting the call stack as soon as the stack budget
is at least `2 * max_depth + 6`: `generate_expr`,
`generate_expr_for_type` and `generate_expr_for_schematype` never report
fuel exhaustion at that fuel.  The bound is affine in `max_depth` with
slope 2, not `max_depth` plus a constant: the extension-call productions
re-enter the type-directed generator through one intermediate frame at an
undecremented depth.  The model resolves `CommonTypeRef`/`EntityOrCommon`
chains with a fuel-free head-resolution function bounded by the schema
size, which is where the claim's acyclicity precondition lives: a cyclic
schema resolves to a hard fault (`Err.panicked`) instead of the source's
divergence, so no acyclicity hypothesis is needed for the fuel bound
itself. -/
theorem generator_stack_depth_bound :
    ∀ (g : Gen) (d fuel : Nat), 2 * d + 6 ≤ fuel →
      NoOF (generate_expr g d fuel)
      ∧ (∀ t : Ty, NoOF (generate_expr_for_type g t d fuel))
      ∧ (∀ t : SchemaTy, NoOF (generate_expr_for_schematype g t d fuel)) := by
  intro g d fuel hf
  obtain ⟨hE, hEB, hT, hS, hrest⟩ := generatorsNoOF fuel
  exact ⟨hE g d (by omega), fun t => hT g t d (by omega),
    fun t => hS g t d (by omega)⟩

/-- Witness for the amended C1 at the concrete generator `g0`,
`max_depth = 1`, fuel `8 = 2 * 1 + 6`. -/
theorem generator_stack_depth_bound_witness :
    NoOF (generate_expr g0 1 8) :=
  (generator_stack_depth_bound g0 1 8 (by decide)).1
